import Mathlib

/-!
# Spinning cube renderer (`main.go`): embedding and verified properties

The program is embedded shallowly.  Modelling conventions:

* Exact model.  Go's `float64` is modelled by an arbitrary linearly ordered
  field `K` with a floor function (exact arithmetic; instantiate `K := ℚ` to
  evaluate, `K := ℝ` for the trigonometric statements).  Rounding, infinities
  and NaN are outside this model; at `z = 0` the field convention `1 / 0 = 0`
  applies.  Go's `int` is modelled by `Int` without 64-bit wrap-around, `rune`
  by `Char`.  The statements about the depth test, the bounds guard and the
  buffers depend on the computed index and inverse depth only through
  comparisons; the statements about the arithmetic itself are statements of
  exact arithmetic.
* Rounded model.  Where the behaviour of the program depends on `float64`
  rounding or on 64-bit wrap-around, the same functions are given a second
  time with the suffix `F`: a finite `float64` is the rational it denotes,
  every arithmetic operation is followed by `f64Round` (IEEE 754 binary64,
  round to nearest, ties to even, no fused operations), `int` arithmetic wraps
  by `wrap64`, and a loop that may not terminate takes fuel.  Overflow to
  infinity, subnormal numbers, NaN and the sign of zero are outside this
  model.
* `math.Sin` and `math.Cos` are parameters `sin cos : K → K` of the functions
  that call them; the theorems about rotations instantiate them with
  `Real.sin` and `Real.cos`.
* Slices are lists.  A run-time panic (index out of range, integer division by
  zero) is the result `none`; mutation through the `*Scene` receiver is
  explicit state passing.
* Text written to standard output is the list of characters printed.
-/

namespace SpinningCube

/-! ## Data model -/

/-- Go: `type Scene struct`. -/
structure Scene (K : Type) where
  displayWidth : Int
  displayHeight : Int
  pixels : List Char
  depth : List K
  bgChar : Char

/-- Go: `type Transform struct`. -/
structure Transform (K : Type) where
  rotateX : K
  rotateY : K
  rotateZ : K

/-- Go: `type Cube struct`. -/
structure Cube (K : Type) where
  size : K
  position : K
  chars : List Char

/-! ## Constants -/

def DISPLAY_WIDTH : Nat := 160

def DISPLAY_HEIGHT : Nat := 44

def CAMERA_DIST : Nat := 100

def PERSPECTIVE : Nat := 40

/-- Go: `STEP_SIZE = 0.6`. -/
def STEP_SIZE (K : Type) [Field K] : K := 6 / 10

section Embedding

variable {K : Type} [LinearOrderedField K] [FloorRing K]

/-- Go's conversion `int(f)` of a float: truncation toward zero. -/
def goInt (f : K) : Int :=
  if 0 ≤ f then Int.floor f else Int.ceil f

/-- Go: `NewScene`. -/
def NewScene : Scene K :=
  { displayWidth := DISPLAY_WIDTH
    displayHeight := DISPLAY_HEIGHT
    pixels := List.replicate (DISPLAY_WIDTH * DISPLAY_HEIGHT) (Char.ofNat 0)
    depth := List.replicate (DISPLAY_WIDTH * DISPLAY_HEIGHT) 0
    bgChar := ' ' }

/-- One iteration of the loop of `clear`: `s.pixels[i] = s.bgChar; s.depth[i] = 0`. -/
def clearBody (st : Scene K) (i : Nat) : Option (Scene K) :=
  if i < st.pixels.length ∧ i < st.depth.length then
    some { st with pixels := st.pixels.set i st.bgChar, depth := st.depth.set i 0 }
  else none

/-- Go: `(s *Scene) clear`, the loop `for i := range s.pixels`. -/
def clear (s : Scene K) : Option (Scene K) :=
  (List.range s.pixels.length).foldlM clearBody s

/-- The text of the cursor-home sequence `"\x1b[H"`. -/
def cursorHome : List Char := [Char.ofNat 27, '[', 'H']

/-- One iteration of the loop of `draw`, appending to the text printed so far.
The test `i%s.displayWidth == 0` is evaluated first and panics when the
divisor is zero. -/
def drawBody (s : Scene K) (out : List Char) (i : Nat) : Option (List Char) :=
  if s.displayWidth = 0 then none
  else
    let out1 := if Int.tmod (i : Int) s.displayWidth = 0 ∧ 0 < i then out ++ ['\n'] else out
    match s.pixels[i]? with
    | some c => some (out1 ++ [c])
    | none => none

/-- Go: `(s *Scene) draw`.  Returns the scene (which the function only reads)
and the text printed. -/
def draw (s : Scene K) : Option (Scene K × List Char) :=
  match (List.range s.pixels.length).foldlM (drawBody s) cursorHome with
  | some out => some (s, out)
  | none => none

/-- Go: `project3Dto2D`, with `math.Sin` and `math.Cos` as parameters. -/
def project3Dto2D (sin cos : K → K) (x y z : K) (t : Transform K) : K × K × K :=
  let newX := y * sin t.rotateX * sin t.rotateY * cos t.rotateZ -
    z * cos t.rotateX * sin t.rotateY * cos t.rotateZ +
    y * cos t.rotateX * sin t.rotateZ +
    z * sin t.rotateX * sin t.rotateZ +
    x * cos t.rotateY * cos t.rotateZ
  let newY := y * cos t.rotateX * cos t.rotateZ +
    z * sin t.rotateX * cos t.rotateZ -
    y * sin t.rotateX * sin t.rotateY * sin t.rotateZ +
    z * cos t.rotateX * sin t.rotateY * sin t.rotateZ -
    x * cos t.rotateY * sin t.rotateZ
  let newZ := z * cos t.rotateX * cos t.rotateY -
    y * sin t.rotateX * cos t.rotateY +
    x * sin t.rotateY
  (newX, newY, newZ + (CAMERA_DIST : K))

/-- The local `invZ := 1.0 / z` of `plotPoint`. -/
def invZ (z : K) : K := 1 / z

/-- The local `screenX` of `plotPoint`, in exact arithmetic (`screenXF` is the
same expression with `float64` rounding). -/
def screenX (s : Scene K) (x z offset : K) : Int :=
  goInt ((s.displayWidth : K) / 2 + offset + (PERSPECTIVE : K) * invZ z * x * 2)

/-- The local `screenY` of `plotPoint`, in exact arithmetic (`screenYF` is the
same expression with `float64` rounding). -/
def screenY (s : Scene K) (y z : K) : Int :=
  goInt ((s.displayHeight : K) / 2 + (PERSPECTIVE : K) * invZ z * y)

/-- The local `idx := screenX + screenY*s.displayWidth` of `plotPoint`, in
unbounded integers (`plotIdxF` is the same expression with 64-bit
wrap-around). -/
def plotIdx (s : Scene K) (x y z offset : K) : Int :=
  screenX s x z offset + screenY s y z * s.displayWidth

/-- Go: `(s *Scene) plotPoint`.  Reading `s.depth[idx]` panics when `idx` is
not below `len(s.depth)`. -/
def plotPoint (s : Scene K) (x y z : K) (ch : Char) (offset : K) : Option (Scene K) :=
  let idx := plotIdx s x y z offset
  if 0 ≤ idx ∧ idx < (s.pixels.length : Int) then
    match s.depth[idx.toNat]? with
    | some d =>
      if invZ z > d then
        some { s with depth := s.depth.set idx.toNat (invZ z),
                      pixels := s.pixels.set idx.toNat ch }
      else some s
    | none => none
  else some s

/-- The Go loop `for x := x0; x < size; x += STEP_SIZE { body }` on a state,
started at `x`, in exact arithmetic, where it always terminates (`forStepF` is
the same loop with `float64` rounding, on fuel). -/
def forStep {K : Type} [LinearOrderedField K] [FloorRing K] {σ : Type} (size : K)
    (body : K → σ → Option σ) (x : K) (st : σ) : Option σ :=
  if h : x < size then
    match body x st with
    | some st1 => forStep size body (x + STEP_SIZE K) st1
    | none => none
  else some st
termination_by Int.toNat (Int.ceil ((size - x) / STEP_SIZE K))
decreasing_by
  have hstep : (0 : K) < STEP_SIZE K := by unfold STEP_SIZE; norm_num
  have hq : (size - (x + STEP_SIZE K)) / STEP_SIZE K = (size - x) / STEP_SIZE K - 1 := by
    have hne : STEP_SIZE K ≠ 0 := hstep.ne'
    field_simp
    ring
  have hpos : 0 < Int.ceil ((size - x) / STEP_SIZE K) :=
    Int.ceil_pos.mpr (div_pos (sub_pos.mpr h) hstep)
  rw [hq, Int.ceil_sub_one]
  omega

/-- The slice literal `surfaces` of `renderCube`. -/
def surfaces (size x y : K) : List (K × K × K) :=
  [ (x, y, -size),
    (size, y, x),
    (-size, y, -x),
    (-x, y, size),
    (x, -size, -y),
    (x, size, y) ]

/-- One iteration of `for i, surf := range surfaces` in `renderCube`; reading
`chars[i]` panics when `i` is not below `len(chars)`. -/
def surfaceBody (sin cos : K → K) (cube : Cube K) (t : Transform K)
    (st : Scene K) (p : Nat × (K × K × K)) : Option (Scene K) :=
  let proj := project3Dto2D sin cos p.2.1 p.2.2.1 p.2.2.2 t
  match cube.chars[p.1]? with
  | some ch => plotPoint st proj.1 proj.2.1 proj.2.2 ch cube.position
  | none => none

/-- Go: `(s *Scene) renderCube`. -/
def renderCube (sin cos : K → K) (s : Scene K) (cube : Cube K) (t : Transform K) :
    Option (Scene K) :=
  let size := cube.size
  forStep size
    (fun x st => forStep size
      (fun y st1 => (surfaces size x y).enum.foldlM (surfaceBody sin cos cube t) st1)
      (-size) st)
    (-size) s

/-- The slice `cubes` of `main`. -/
def cubes : List (Cube K) :=
  [ { size := 20, position := -40, chars := ['@', '$', '~', '#', ';', '+'] },
    { size := 10, position := 10, chars := ['O', '=', '*', '%', '&', 'X'] },
    { size := 5, position := 40, chars := [':', '.', ',', '|', '-', '+'] } ]

/-- Cell-wise order on the depth buffers of two scenes: same length, and every
cell of the second holds at least what the first holds. -/
def DepthLE (s s1 : Scene K) : Prop :=
  s1.depth.length = s.depth.length ∧
    ∀ (i : Nat) (d : K), s.depth[i]? = some d → ∃ d1, s1.depth[i]? = some d1 ∧ d ≤ d1

/-- A small scene used to evaluate the functions: 4 columns, 2 rows, blank. -/
def demoScene : Scene ℚ :=
  { displayWidth := 4
    displayHeight := 2
    pixels := List.replicate 8 ' '
    depth := List.replicate 8 0
    bgChar := ' ' }

/-- A scene with content, used to evaluate `clear` and `draw`. -/
def inkScene : Scene ℚ :=
  { displayWidth := 4
    displayHeight := 2
    pixels := ['a', 'b', 'c', 'd', 'e', 'f', 'g', 'h']
    depth := [1, 1, 1, 1, 1, 1, 1, 1]
    bgChar := ' ' }

/-- The text of a grid as the specification words it: the rows in order, with
one line break before every row except the first and none after the last. -/
def joinRows : List (List Char) → List Char
  | [] => []
  | r :: rs => r ++ (rs.map (fun row => '\n' :: row)).flatten

/-- The rows of the grid in row-major order: row `r` is
`pixels[r*displayWidth .. (r+1)*displayWidth)`. -/
def rowsOf (s : Scene K) : List (List Char) :=
  (List.range s.displayHeight.toNat).map
    (fun r => (s.pixels.drop (r * s.displayWidth.toNat)).take s.displayWidth.toNat)

/-- What one iteration of the loop of `draw` prints for cell `i` of a grid
`w` columns wide. -/
def cellText (l : List Char) (w : Nat) (i : Nat) : List Char :=
  (if i % w = 0 ∧ 0 < i then ['\n'] else []) ++ l[i]?.toList

/-- Go: `transform := &Transform{}` in `main`, all angles zero. -/
def zeroTransform : Transform K :=
  { rotateX := 0, rotateY := 0, rotateZ := 0 }

/-- The rotation about the X axis as the specification writes it:
`Rx_a(x,y,z) = (x, y cos a + z sin a, z cos a - y sin a)`. -/
def rotX (sin cos : K → K) (a : K) (p : K × K × K) : K × K × K :=
  (p.1, p.2.1 * cos a + p.2.2 * sin a, p.2.2 * cos a - p.2.1 * sin a)

/-- The rotation about the Y axis as the specification writes it:
`Ry_b(x,y,z) = (x cos b - z sin b, y, z cos b + x sin b)`. -/
def rotY (sin cos : K → K) (b : K) (p : K × K × K) : K × K × K :=
  (p.1 * cos b - p.2.2 * sin b, p.2.1, p.2.2 * cos b + p.1 * sin b)

/-- The rotation about the Z axis as the specification writes it:
`Rz_c(x,y,z) = (x cos c + y sin c, y cos c - x sin c, z)`. -/
def rotZ (sin cos : K → K) (c : K) (p : K × K × K) : K × K × K :=
  (p.1 * cos c + p.2.1 * sin c, p.2.1 * cos c - p.1 * sin c, p.2.2)

/-- The camera translation of the specification: `+ (0, 0, CAMERA_DIST)`. -/
def translateCamera (p : K × K × K) : K × K × K :=
  (p.1, p.2.1, p.2.2 + (CAMERA_DIST : K))

/-- The arguments of one call of `plotPoint`. -/
structure PlotCall (K : Type) where
  x : K
  y : K
  z : K
  ch : Char
  offset : K

/-- A finite sequence of `plotPoint` calls, run in order. -/
def plotAll (s : Scene K) (cs : List (PlotCall K)) : Option (Scene K) :=
  cs.foldlM (fun st c => plotPoint st c.x c.y c.z c.ch c.offset) s

/-- The inverse depths `1/z` of the calls of `cs` whose computed index is the
cell `i`, in call order. -/
def targeted (s : Scene K) (i : Nat) (cs : List (PlotCall K)) : List K :=
  (cs.filter (fun c => plotIdx s c.x c.y c.z c.offset = (i : Int))).map (fun c => invZ c.z)

/-- The value the specification gives for a cell: the maximum of the inverse
depths passed for it, or the sentinel `0` when there is none. -/
def maxOrSentinel : List K → K
  | [] => 0
  | a :: l => l.foldl max a

/-- The state of `main`: the scene, the transform and the text written to
standard output so far. -/
structure MainState (K : Type) where
  scene : Scene K
  transform : Transform K
  out : List Char

/-- The state of `main` when the frame loop is entered: `NewScene()`,
`&Transform{}`, and the text `ESC[2J ESC[?25l` already printed. -/
def mainInit : MainState K :=
  { scene := NewScene
    transform := zeroTransform
    out := [Char.ofNat 27, '[', '2', 'J', Char.ofNat 27, '[', '?', '2', '5', 'l'] }

/-- One iteration of the `for` loop of `main`: `scene.clear()`, `renderCube`
for every cube of `cubes` in order, `scene.draw()`, then the three `+=` on the
transform (`0.05`, `0.05`, `0.01`).  `time.Sleep` has no effect on the state. -/
def frame (sin cos : K → K) (st : MainState K) : Option (MainState K) :=
  match clear st.scene with
  | none => none
  | some s1 =>
    match cubes.foldlM (fun sc cube => renderCube sin cos sc cube st.transform) s1 with
    | none => none
    | some s2 =>
      match draw s2 with
      | none => none
      | some r =>
        some { scene := r.1
               transform :=
                 { rotateX := st.transform.rotateX + 5 / 100
                   rotateY := st.transform.rotateY + 5 / 100
                   rotateZ := st.transform.rotateZ + 1 / 100 }
               out := st.out ++ r.2 }

/-- The first `n` iterations of the frame loop of `main`. -/
def frames (sin cos : K → K) : Nat → MainState K → Option (MainState K)
  | 0, st => some st
  | n + 1, st =>
    match frame sin cos st with
    | none => none
    | some st1 => frames sin cos n st1

/-- The values `x, x + STEP_SIZE, x + 2*STEP_SIZE, ...` below `size`: the values
the loop variable of `for x := x; x < size; x += STEP_SIZE` takes. -/
def stepValues (size x : K) : List K :=
  (List.range (Int.toNat (Int.ceil ((size - x) / STEP_SIZE K)))).map
    (fun k : Nat => x + (k : K) * STEP_SIZE K)

/-- The number `ceil(2*size/STEP_SIZE)` of iterations of each sampling loop. -/
def loopCount (size : K) : Nat :=
  Int.toNat (Int.ceil (2 * size / STEP_SIZE K))

/-- The sample coordinates `-size, -size + 0.6, -size + 1.2, ...` below `size`. -/
def gridValues (size : K) : List K :=
  (List.range (loopCount size)).map (fun k : Nat => -size + (k : K) * STEP_SIZE K)

/-- The call `s.plotPoint(px, py, pz, chars[i], cube.position)` made for the
`i`-th entry `surf` of `surfaces`, with `px, py, pz` its projection. -/
def sampleCall (sin cos : K → K) (cube : Cube K) (t : Transform K)
    (p : Nat × (K × K × K)) : PlotCall K :=
  { x := (project3Dto2D sin cos p.2.1 p.2.2.1 p.2.2.2 t).1
    y := (project3Dto2D sin cos p.2.1 p.2.2.1 p.2.2.2 t).2.1
    z := (project3Dto2D sin cos p.2.1 p.2.2.1 p.2.2.2 t).2.2
    ch := cube.chars.getD p.1 ' '
    offset := cube.position }

/-- The call `s.plotPoint(px, py, pz, ch, offset)` for the projection
`px, py, pz` of the point `p`. -/
def projCall (sin cos : K → K) (t : Transform K) (ch : Char) (offset : K)
    (p : K × K × K) : PlotCall K :=
  { x := (project3Dto2D sin cos p.1 p.2.1 p.2.2 t).1
    y := (project3Dto2D sin cos p.1 p.2.1 p.2.2 t).2.1
    z := (project3Dto2D sin cos p.1 p.2.1 p.2.2 t).2.2
    ch := ch
    offset := offset }

/-- The first cube of the slice `cubes` of `main`. -/
def firstCube : Cube K :=
  { size := 20, position := -40, chars := ['@', '$', '~', '#', ';', '+'] }

/-- A cube with six face characters, used to evaluate `renderCube`. -/
def demoCube : Cube ℚ :=
  { size := 1, position := 0, chars := ['a', 'b', 'c', 'd', 'e', 'f'] }

/-- The `plotPoint` calls of `renderCube` in order: for each `x` of the grid,
for each `y` of the grid, the six entries of `surfaces` in order. -/
def sampleCalls (sin cos : K → K) (cube : Cube K) (t : Transform K) : List (PlotCall K) :=
  (gridValues cube.size).flatMap (fun x =>
    (gridValues cube.size).flatMap (fun y =>
      (surfaces cube.size x y).enum.map (sampleCall sin cos cube t)))

/-- A point of the surface of the cube `[-size, size]^3`: every coordinate is
within `[-size, size]` and one of them is `size` or `-size`. -/
def OnCubeSurface (size : K) (p : K × K × K) : Prop :=
  (-size ≤ p.1 ∧ p.1 ≤ size) ∧ (-size ≤ p.2.1 ∧ p.2.1 ≤ size) ∧
    (-size ≤ p.2.2 ∧ p.2.2 ≤ size) ∧
    (p.1 = size ∨ p.1 = -size ∨ p.2.1 = size ∨ p.2.1 = -size ∨
      p.2.2 = size ∨ p.2.2 = -size)

/-- An operation that writes into the scene: a call of `plotPoint` or a call
of `renderCube`. -/
inductive SceneOp (K : Type) where
  | plot (c : PlotCall K) : SceneOp K
  | render (sin cos : K → K) (cube : Cube K) (t : Transform K) : SceneOp K

/-- Runs one operation on a scene. -/
def runOp (s : Scene K) : SceneOp K → Option (Scene K)
  | SceneOp.plot c => plotPoint s c.x c.y c.z c.ch c.offset
  | SceneOp.render sin cos cube t => renderCube sin cos s cube t

/-- Runs a finite sequence of operations in order. -/
def runOps (s : Scene K) (ops : List (SceneOp K)) : Option (Scene K) :=
  ops.foldlM runOp s

/-- Sentinel coherence of a scene: every cell has a non-negative depth, and a
cell whose depth is the sentinel `0` shows the background character. -/
def Coherent (s : Scene K) : Prop :=
  ∀ (i : Nat) (d : K) (c : Char), s.depth[i]? = some d → s.pixels[i]? = some c →
    0 ≤ d ∧ (d = 0 → c = s.bgChar)

/-- The buffer shape of two scenes agrees: both lengths, `displayWidth` and
`displayHeight`. -/
def SameShape (s s1 : Scene K) : Prop :=
  s1.pixels.length = s.pixels.length ∧ s1.depth.length = s.depth.length ∧
    s1.displayWidth = s.displayWidth ∧ s1.displayHeight = s.displayHeight

/-- The column the specification gives for the front-face point `(x, y, -S)`
at zero rotation and offset 0:
`trunc(width/2 + PERSPECTIVE*x*2/(CAMERA_DIST - S))`. -/
def frontColumn (s : Scene K) (S x : K) : Int :=
  goInt ((s.displayWidth : K) / 2 + (PERSPECTIVE : K) * x * 2 / ((CAMERA_DIST : K) - S))

/-- The row the specification gives for the front-face point `(x, y, -S)` at
zero rotation: `trunc(height/2 + PERSPECTIVE*y/(CAMERA_DIST - S))`. -/
def frontRow (s : Scene K) (S y : K) : Int :=
  goInt ((s.displayHeight : K) / 2 + (PERSPECTIVE : K) * y / ((CAMERA_DIST : K) - S))

/-- The index `screenX + screenY*width` of that column and row. -/
def frontIdx (s : Scene K) (S x y : K) : Int :=
  frontColumn s S x + frontRow s S y * s.displayWidth

/-! ## Machine arithmetic and the rounded model -/

/-- Go's `int` arithmetic on a 64-bit platform: the result of `+` and `*` is
the mathematical result wrapped into `[-2^63, 2^63)`. -/
def wrap64 (n : Int) : Int :=
  (n + 9223372036854775808) % 18446744073709551616 - 9223372036854775808

/-- Lines 92 to 97 of `plotPoint`: the bounds guard and the depth test at an
index `idx`, for an inverse depth `iz`. -/
def depthTest (s : Scene K) (idx : Int) (iz : K) (ch : Char) : Option (Scene K) :=
  if 0 ≤ idx ∧ idx < (s.pixels.length : Int) then
    match s.depth[idx.toNat]? with
    | some d =>
      if iz > d then
        some { s with depth := s.depth.set idx.toNat iz,
                      pixels := s.pixels.set idx.toNat ch }
      else some s
    | none => none
  else some s

/-- Rounding of a rational to the nearest integer, ties to the even one. -/
def roundHalfEven (x : ℚ) : Int :=
  if x - (Int.floor x : ℚ) < 1 / 2 then Int.floor x
  else if 1 / 2 < x - (Int.floor x : ℚ) then Int.floor x + 1
  else if Int.floor x % 2 = 0 then Int.floor x else Int.floor x + 1

/-- IEEE 754 binary64 rounding of a rational in the normal range: the nearest
number with 53 significant bits, ties to the even significand. -/
def f64Round (q : ℚ) : ℚ :=
  if q = 0 then 0
  else (roundHalfEven (q / 2 ^ (Int.log 2 |q| - 52)) : ℚ) * 2 ^ (Int.log 2 |q| - 52)

/-- The `float64` sum `a + b`. -/
def fadd (a b : ℚ) : ℚ := f64Round (a + b)

/-- The `float64` difference `a - b`. -/
def fsub (a b : ℚ) : ℚ := f64Round (a - b)

/-- The `float64` product `a * b`. -/
def fmul (a b : ℚ) : ℚ := f64Round (a * b)

/-- The `float64` quotient `a / b`. -/
def fdiv (a b : ℚ) : ℚ := f64Round (a / b)

/-- The constant `STEP_SIZE = 0.6` as the `float64` it is converted to. -/
def STEP_SIZE_F : ℚ := f64Round (6 / 10)

/-- Go: `project3Dto2D` in `float64` arithmetic (operations in source order,
`*` and `+`/`-` associating to the left). -/
def project3Dto2DF (sin cos : ℚ → ℚ) (x y z : ℚ) (t : Transform ℚ) : ℚ × ℚ × ℚ :=
  let newX := fadd (fadd (fadd (fsub
      (fmul (fmul (fmul y (sin t.rotateX)) (sin t.rotateY)) (cos t.rotateZ))
      (fmul (fmul (fmul z (cos t.rotateX)) (sin t.rotateY)) (cos t.rotateZ)))
      (fmul (fmul y (cos t.rotateX)) (sin t.rotateZ)))
      (fmul (fmul z (sin t.rotateX)) (sin t.rotateZ)))
      (fmul (fmul x (cos t.rotateY)) (cos t.rotateZ))
  let newY := fsub (fadd (fsub (fadd
      (fmul (fmul y (cos t.rotateX)) (cos t.rotateZ))
      (fmul (fmul z (sin t.rotateX)) (cos t.rotateZ)))
      (fmul (fmul (fmul y (sin t.rotateX)) (sin t.rotateY)) (sin t.rotateZ)))
      (fmul (fmul (fmul z (cos t.rotateX)) (sin t.rotateY)) (sin t.rotateZ)))
      (fmul (fmul x (cos t.rotateY)) (sin t.rotateZ))
  let newZ := fadd (fsub
      (fmul (fmul z (cos t.rotateX)) (cos t.rotateY))
      (fmul (fmul y (sin t.rotateX)) (cos t.rotateY)))
      (fmul x (sin t.rotateY))
  (newX, newY, fadd newZ (CAMERA_DIST : ℚ))

/-- The local `invZ := 1.0 / z` of `plotPoint` in `float64` arithmetic. -/
def invZF (z : ℚ) : ℚ := fdiv 1 z

/-- The local `screenX` of `plotPoint` in `float64` arithmetic:
`int(float64(s.displayWidth)/2.0 + offset + PERSPECTIVE*invZ*x*2.0)`. -/
def screenXF (s : Scene ℚ) (x z offset : ℚ) : Int :=
  goInt (fadd (fadd (fdiv (f64Round (s.displayWidth : ℚ)) 2) offset)
    (fmul (fmul (fmul (PERSPECTIVE : ℚ) (invZF z)) x) 2))

/-- The local `screenY` of `plotPoint` in `float64` arithmetic:
`int(float64(s.displayHeight)/2.0 + PERSPECTIVE*invZ*y)`. -/
def screenYF (s : Scene ℚ) (y z : ℚ) : Int :=
  goInt (fadd (fdiv (f64Round (s.displayHeight : ℚ)) 2)
    (fmul (fmul (PERSPECTIVE : ℚ) (invZF z)) y))

/-- The local `idx := screenX + screenY*s.displayWidth` of `plotPoint` in
64-bit `int` arithmetic. -/
def plotIdxF (s : Scene ℚ) (x y z offset : ℚ) : Int :=
  wrap64 (screenXF s x z offset + screenYF s y z * s.displayWidth)

/-- Go: `(s *Scene) plotPoint` in `float64` and 64-bit `int` arithmetic. -/
def plotPointF (s : Scene ℚ) (x y z : ℚ) (ch : Char) (offset : ℚ) : Option (Scene ℚ) :=
  depthTest s (plotIdxF s x y z offset) (invZF z) ch

/-- How a run of a loop that may not terminate ends: it returned a state, it
panicked, or it was still running when the fuel ran out. -/
inductive Outcome (σ : Type) where
  | done (st : σ) : Outcome σ
  | panic : Outcome σ
  | running : Outcome σ

/-- A function that returns or panics, as an outcome. -/
def Outcome.ofOption {σ : Type} : Option σ → Outcome σ
  | some st => Outcome.done st
  | none => Outcome.panic

/-- The Go loop `for x := x0; x < size; x += STEP_SIZE { body }` in `float64`
arithmetic, for at most `fuel` tests of the condition. -/
def forStepF {σ : Type} : Nat → ℚ → (ℚ → σ → Outcome σ) → ℚ → σ → Outcome σ
  | 0, _, _, _, _ => Outcome.running
  | fuel + 1, size, body, x, st =>
    if x < size then
      match body x st with
      | Outcome.done st1 => forStepF fuel size body (fadd x STEP_SIZE_F) st1
      | Outcome.panic => Outcome.panic
      | Outcome.running => Outcome.running
    else Outcome.done st

/-- The values the loop variable of `forStepF` takes while the body runs, when
the loop ends within the fuel. -/
def loopValuesF : Nat → ℚ → ℚ → Option (List ℚ)
  | 0, _, _ => none
  | fuel + 1, size, x =>
    if x < size then
      match loopValuesF fuel size (fadd x STEP_SIZE_F) with
      | some vs => some (x :: vs)
      | none => none
    else some []

/-- Runs a loop body once for each value of a list, in order. -/
def runAll {σ : Type} (body : ℚ → σ → Outcome σ) : List ℚ → σ → Outcome σ
  | [], st => Outcome.done st
  | v :: vs, st =>
    match body v st with
    | Outcome.done st1 => runAll body vs st1
    | Outcome.panic => Outcome.panic
    | Outcome.running => Outcome.running

/-- One iteration of `for i, surf := range surfaces` in `renderCube`, in
`float64` arithmetic. -/
def surfaceBodyF (sin cos : ℚ → ℚ) (cube : Cube ℚ) (t : Transform ℚ)
    (st : Scene ℚ) (p : Nat × (ℚ × ℚ × ℚ)) : Option (Scene ℚ) :=
  let proj := project3Dto2DF sin cos p.2.1 p.2.2.1 p.2.2.2 t
  match cube.chars[p.1]? with
  | some ch => plotPointF st proj.1 proj.2.1 proj.2.2 ch cube.position
  | none => none

/-- The body of the inner loop of `renderCube` in `float64` arithmetic: the
six `plotPoint` calls for one pair `(x, y)`. -/
def sixCallsF (sin cos : ℚ → ℚ) (cube : Cube ℚ) (t : Transform ℚ) (x y : ℚ)
    (st : Scene ℚ) : Outcome (Scene ℚ) :=
  Outcome.ofOption ((surfaces cube.size x y).enum.foldlM (surfaceBodyF sin cos cube t) st)

/-- Go: `(s *Scene) renderCube` in `float64` arithmetic, each loop with at most
`fuel` tests of its condition. -/
def renderCubeF (fuel : Nat) (sin cos : ℚ → ℚ) (s : Scene ℚ) (cube : Cube ℚ)
    (t : Transform ℚ) : Outcome (Scene ℚ) :=
  forStepF fuel cube.size
    (fun x st => forStepF fuel cube.size (fun y st1 => sixCallsF sin cos cube t x y st1)
      (-cube.size) st)
    (-cube.size) s

/-- The 21 values the `float64` loop variable takes for `size = 6`. -/
def floatGrid6 : List ℚ :=
  [ -6,
    -3039929748475085 / 562949953421312,
    -1351079888211149 / 281474976710656,
    -2364389804369511 / 562949953421312,
    -8106479329266895 / 2251799813685248,
    -3377699720527873 / 1125899906842624,
    -5404319552844597 / 2251799813685248,
    -506654958079181 / 281474976710656,
    -2702159776422299 / 2251799813685248,
    -5404319552844601 / 9007199254740992,
    -3 / 4503599627370496,
    5404319552844589 / 9007199254740992,
    337769972052787 / 281474976710656,
    4053239664633445 / 2251799813685248,
    2702159776422297 / 1125899906842624,
    6755399441055743 / 2251799813685248,
    2026619832316723 / 562949953421312,
    1182194902184755 / 281474976710656,
    2702159776422297 / 562949953421312,
    759982437118771 / 140737488355328,
    3377699720527871 / 562949953421312 ]

/-- A cube of size 6 with six face characters. -/
def cube6 : Cube ℚ :=
  { size := 6, position := 0, chars := ['a', 'b', 'c', 'd', 'e', 'f'] }

end Embedding

/-! ## Evaluation lemmas for `plotPoint` -/

section PlotPoint

variable {K : Type} [LinearOrderedField K] [FloorRing K]

theorem goInt_intCast (n : Int) : goInt ((n : Int) : K) = n := by
  unfold goInt
  split <;> simp

theorem goInt_eq (f : K) (n : Int) (h : f = (n : K)) : goInt f = n := by
  rw [h, goInt_intCast]

theorem plotPoint_of_outside (s : Scene K) (x y z : K) (ch : Char) (offset : K)
    (h : plotIdx s x y z offset < 0 ∨ (s.pixels.length : Int) ≤ plotIdx s x y z offset) :
    plotPoint s x y z ch offset = some s := by
  unfold plotPoint
  have hn : ¬ (0 ≤ plotIdx s x y z offset ∧
      plotIdx s x y z offset < (s.pixels.length : Int)) := by omega
  simp only [hn, if_false]

theorem plotPoint_of_inside (s : Scene K) (x y z : K) (ch : Char) (offset : K) (d : K)
    (h0 : 0 ≤ plotIdx s x y z offset)
    (h1 : plotIdx s x y z offset < (s.pixels.length : Int))
    (hd : s.depth[(plotIdx s x y z offset).toNat]? = some d) :
    plotPoint s x y z ch offset =
      if invZ z > d then
        some { s with depth := s.depth.set (plotIdx s x y z offset).toNat (invZ z),
                      pixels := s.pixels.set (plotIdx s x y z offset).toNat ch }
      else some s := by
  unfold plotPoint
  simp only [h0, h1, and_self, if_true, hd]

/-- The three ways a call of `plotPoint` can end: the scene is returned as it
was; the cell `idx` held `d < invZ` and is overwritten; or the read of
`s.depth[idx]` is out of range. -/
theorem plotPoint_cases (s : Scene K) (x y z : K) (ch : Char) (offset : K) :
    plotPoint s x y z ch offset = some s ∨
    (∃ d, 0 ≤ plotIdx s x y z offset ∧
      (plotIdx s x y z offset).toNat < s.pixels.length ∧
      (plotIdx s x y z offset).toNat < s.depth.length ∧
      s.depth[(plotIdx s x y z offset).toNat]? = some d ∧ invZ z > d ∧
      plotPoint s x y z ch offset =
        some { s with depth := s.depth.set (plotIdx s x y z offset).toNat (invZ z),
                      pixels := s.pixels.set (plotIdx s x y z offset).toNat ch }) ∨
    (s.depth.length < s.pixels.length ∧ plotPoint s x y z ch offset = none) := by
  by_cases hin : 0 ≤ plotIdx s x y z offset ∧
      plotIdx s x y z offset < (s.pixels.length : Int)
  · by_cases hi : (plotIdx s x y z offset).toNat < s.depth.length
    · have hd := List.getElem?_eq_getElem hi
      rw [plotPoint_of_inside s x y z ch offset _ hin.1 hin.2 hd]
      by_cases hgt : invZ z > s.depth[(plotIdx s x y z offset).toNat]
      · rw [if_pos hgt]
        exact Or.inr (Or.inl ⟨_, hin.1, by omega, hi, hd, hgt, rfl⟩)
      · rw [if_neg hgt]
        exact Or.inl rfl
    · refine Or.inr (Or.inr ⟨by omega, ?_⟩)
      unfold plotPoint
      simp only [hin, and_self, if_true, List.getElem?_eq_none (not_lt.mp hi)]
  · exact Or.inl (plotPoint_of_outside s x y z ch offset (by omega))

theorem plotPoint_shape (s s1 : Scene K) (x y z : K) (ch : Char) (offset : K)
    (h : plotPoint s x y z ch offset = some s1) :
    s1.pixels.length = s.pixels.length ∧ s1.depth.length = s.depth.length ∧
      s1.displayWidth = s.displayWidth ∧ s1.displayHeight = s.displayHeight ∧
      s1.bgChar = s.bgChar := by
  rcases plotPoint_cases s x y z ch offset with h1 | ⟨d, _, _, _, _, _, h1⟩ | ⟨_, h1⟩
  · rw [h1] at h; cases h; simp
  · rw [h1] at h; cases h; simp
  · rw [h1] at h; cases h

theorem plotPoint_total (s : Scene K) (x y z : K) (ch : Char) (offset : K)
    (hlen : s.pixels.length ≤ s.depth.length) :
    ∃ s1, plotPoint s x y z ch offset = some s1 := by
  rcases plotPoint_cases s x y z ch offset with h1 | ⟨d, _, _, _, _, _, h1⟩ | ⟨hlt, _⟩
  · exact ⟨_, h1⟩
  · exact ⟨_, h1⟩
  · omega

omit [FloorRing K] in
theorem DepthLE.refl (s : Scene K) : DepthLE s s :=
  ⟨rfl, fun _ d h => ⟨d, h, le_refl d⟩⟩

omit [FloorRing K] in
theorem DepthLE.trans {s s1 s2 : Scene K} (h1 : DepthLE s s1) (h2 : DepthLE s1 s2) :
    DepthLE s s2 := by
  refine ⟨h2.1.trans h1.1, fun i d hd => ?_⟩
  obtain ⟨d1, hd1, hle1⟩ := h1.2 i d hd
  obtain ⟨d2, hd2, hle2⟩ := h2.2 i d1 hd1
  exact ⟨d2, hd2, hle1.trans hle2⟩

theorem plotPoint_depthLE (s s1 : Scene K) (x y z : K) (ch : Char) (offset : K)
    (h : plotPoint s x y z ch offset = some s1) : DepthLE s s1 := by
  rcases plotPoint_cases s x y z ch offset with h1 | ⟨d, _, _, hlt, hd, hgt, h1⟩ | ⟨_, h1⟩
  · rw [h1] at h; cases h; exact DepthLE.refl s
  · rw [h1] at h; cases h
    refine ⟨by simp, fun i e he => ?_⟩
    by_cases hi : (plotIdx s x y z offset).toNat = i
    · subst hi
      rw [hd] at he
      cases he
      exact ⟨invZ z, by simp [List.getElem?_set_self hlt], le_of_lt hgt⟩
    · exact ⟨e, by simp [List.getElem?_set_ne hi, he], le_refl e⟩
  · rw [h1] at h; cases h

/-! ### Concrete evaluations on `demoScene` -/

theorem demo_screenX_wrap : screenX demoScene 0 1 (-3) = -1 :=
  goInt_eq _ _ (by simp [demoScene, invZ, PERSPECTIVE]; norm_num)

theorem demo_screenX_mid : screenX demoScene 0 1 0 = 2 :=
  goInt_eq _ _ (by simp [demoScene, invZ, PERSPECTIVE]; norm_num)

theorem demo_screenX_far : screenX demoScene 0 1 10 = 12 :=
  goInt_eq _ _ (by simp [demoScene, invZ, PERSPECTIVE]; norm_num)

theorem demo_screenY : screenY demoScene 0 1 = 1 :=
  goInt_eq _ _ (by simp [demoScene, invZ, PERSPECTIVE])

theorem demo_screenY_far : screenY demoScene 1 1 = 41 :=
  goInt_eq _ _ (by simp [demoScene, invZ, PERSPECTIVE]; norm_num)

theorem demo_plotIdx_wrap : plotIdx demoScene 0 0 1 (-3) = 3 := by
  rw [plotIdx, demo_screenX_wrap, demo_screenY]
  rfl

theorem demo_plotIdx_wrap2 : plotIdx demoScene 0 0 2 (-3) = 3 := by
  have hx : screenX demoScene 0 2 (-3) = -1 :=
    goInt_eq _ _ (by simp [demoScene, invZ, PERSPECTIVE]; norm_num)
  have hy : screenY demoScene 0 2 = 1 :=
    goInt_eq _ _ (by simp [demoScene, invZ, PERSPECTIVE])
  rw [plotIdx, hx, hy]
  rfl

theorem demo_plotIdx_far : plotIdx demoScene 0 0 1 10 = 16 := by
  rw [plotIdx, demo_screenX_far, demo_screenY]
  rfl

end PlotPoint

/-! ## Loops -/

section Loops

variable {K : Type} [LinearOrderedField K] [FloorRing K]

/-- A property kept by every iteration that returns is kept by a `foldlM`
loop that returns. -/
theorem foldlM_option_inv {σ α : Type} (P : σ → Prop) (f : σ → α → Option σ)
    (hf : ∀ st a st1, P st → f st a = some st1 → P st1) :
    ∀ (l : List α) (st : σ), P st → ∀ st1, l.foldlM f st = some st1 → P st1 := by
  intro l
  induction l with
  | nil =>
    intro st hP st1 h
    simp only [List.foldlM_nil] at h
    cases h
    exact hP
  | cons a l ih =>
    intro st hP st1 h
    rw [List.foldlM_cons] at h
    obtain ⟨st2, h2, h3⟩ := Option.bind_eq_some.mp h
    exact ih st2 (hf st a st2 hP h2) st1 h3

/-- When every iteration returns under an invariant it keeps, the `foldlM`
loop returns and keeps it. -/
theorem foldlM_option_total {σ α : Type} (Q : σ → Prop) (f : σ → α → Option σ) :
    ∀ (l : List α), (∀ st a, a ∈ l → Q st → ∃ st1, f st a = some st1 ∧ Q st1) →
      ∀ st : σ, Q st → ∃ st1, l.foldlM f st = some st1 ∧ Q st1 := by
  intro l
  induction l with
  | nil =>
    intro _ st hQ
    exact ⟨st, rfl, hQ⟩
  | cons a l ih =>
    intro hf st hQ
    obtain ⟨st2, h2, hQ2⟩ := hf st a (List.mem_cons_self a l) hQ
    obtain ⟨st3, h3, hQ3⟩ := ih (fun st b hb => hf st b (List.mem_cons_of_mem a hb)) st2 hQ2
    refine ⟨st3, ?_, hQ3⟩
    rw [List.foldlM_cons, h2]
    exact h3

/-- A property kept by every iteration that returns is kept by a `forStep`
loop that returns. -/
theorem forStep_inv {σ : Type} (P : σ → Prop) (size : K) (body : K → σ → Option σ)
    (hbody : ∀ x st st1, P st → body x st = some st1 → P st1) (x : K) (st : σ) :
    P st → ∀ st1, forStep size body x st = some st1 → P st1 := by
  induction x, st using forStep.induct size body with
  | case1 x st h st1 hb ih =>
    intro hP st2 hrun
    rw [forStep, dif_pos h, hb] at hrun
    exact ih (hbody x st st1 hP hb) st2 hrun
  | case2 x st h hb =>
    intro hP st2 hrun
    rw [forStep, dif_pos h, hb] at hrun
    cases hrun
  | case3 x st h =>
    intro hP st2 hrun
    rw [forStep, dif_neg h] at hrun
    cases hrun
    exact hP

/-- When every iteration returns under an invariant it keeps, the `forStep`
loop returns (it terminates) and keeps the invariant. -/
theorem forStep_total {σ : Type} (Q : σ → Prop) (size : K) (body : K → σ → Option σ)
    (hbody : ∀ x st, Q st → ∃ st1, body x st = some st1 ∧ Q st1) (x : K) (st : σ) :
    Q st → ∃ st1, forStep size body x st = some st1 ∧ Q st1 := by
  induction x, st using forStep.induct size body with
  | case1 x st h st1 hb ih =>
    intro hQ
    obtain ⟨st2, h2, hQ2⟩ := hbody x st hQ
    rw [hb] at h2
    cases h2
    obtain ⟨st3, h3, hQ3⟩ := ih hQ2
    exact ⟨st3, by rw [forStep, dif_pos h, hb]; exact h3, hQ3⟩
  | case2 x st h hb =>
    intro hQ
    obtain ⟨st2, h2, _⟩ := hbody x st hQ
    rw [hb] at h2
    cases h2
  | case3 x st h =>
    intro hQ
    exact ⟨st, by rw [forStep, dif_neg h], hQ⟩

theorem foldlM_option_snoc {σ α : Type} (f : σ → α → Option σ) (l : List α) (a : α)
    (st : σ) : (l ++ [a]).foldlM f st = (l.foldlM f st).bind (fun st1 => f st1 a) := by
  rw [List.foldlM_append]
  simp

theorem set_replicate_append_drop {α : Type} (a : α) (l : List α) (k : Nat)
    (hk : k < l.length) :
    (List.replicate k a ++ l.drop k).set k a =
      List.replicate (k + 1) a ++ l.drop (k + 1) := by
  rw [List.set_append_right _ _ (by simp)]
  simp only [List.length_replicate, Nat.sub_self]
  rw [List.drop_eq_getElem_cons hk, List.set_cons_zero, List.replicate_succ']
  simp

omit [FloorRing K] in
/-- The scene after the first `k` iterations of the loop of `clear`. -/
theorem clear_loop (s : Scene K) (hlen : s.pixels.length ≤ s.depth.length) :
    ∀ k, k ≤ s.pixels.length →
      (List.range k).foldlM clearBody s =
        some { s with pixels := List.replicate k s.bgChar ++ s.pixels.drop k,
                      depth := List.replicate k 0 ++ s.depth.drop k } := by
  intro k
  induction k with
  | zero =>
    intro _
    simp
  | succ k ih =>
    intro hk
    rw [List.range_succ, foldlM_option_snoc, ih (by omega)]
    simp only [Option.some_bind]
    unfold clearBody
    have hc : k < (List.replicate k s.bgChar ++ s.pixels.drop k).length ∧
        k < (List.replicate k (0 : K) ++ s.depth.drop k).length := by
      simp only [List.length_append, List.length_replicate, List.length_drop]
      omega
    simp only [hc, and_self, if_true]
    rw [set_replicate_append_drop _ _ _ (by omega),
      set_replicate_append_drop _ _ _ (by omega)]

omit [FloorRing K] in
theorem clear_eq (s : Scene K) (hlen : s.pixels.length ≤ s.depth.length) :
    clear s =
      some { s with pixels := List.replicate s.pixels.length s.bgChar,
                    depth := List.replicate s.pixels.length 0 ++
                      s.depth.drop s.pixels.length } := by
  unfold clear
  rw [clear_loop s hlen s.pixels.length (le_refl _)]
  simp

omit [FloorRing K] in
theorem clear_eq_of_length_eq (s : Scene K) (hlen : s.pixels.length = s.depth.length) :
    clear s =
      some { s with pixels := List.replicate s.pixels.length s.bgChar,
                    depth := List.replicate s.pixels.length 0 } := by
  rw [clear_eq s (le_of_eq hlen)]
  simp [hlen]

omit [LinearOrderedField K] [FloorRing K] in
/-- One iteration of the loop of `draw` on a grid `w > 0` columns wide. -/
theorem drawBody_eq (s : Scene K) (w : Nat) (hw : 0 < w) (hsw : s.displayWidth = (w : Int))
    (out : List Char) (k : Nat) (hk : k < s.pixels.length) :
    drawBody s out k = some (out ++ cellText s.pixels w k) := by
  unfold drawBody cellText
  have hne : s.displayWidth ≠ 0 := by omega
  have hcond : (Int.tmod (k : Int) s.displayWidth = 0 ∧ 0 < k) ↔ (k % w = 0 ∧ 0 < k) := by
    rw [hsw, ← Int.ofNat_tmod]
    constructor
    · intro h
      exact ⟨by exact_mod_cast h.1, h.2⟩
    · intro h
      exact ⟨by exact_mod_cast h.1, h.2⟩
  simp only [hne, if_false, hcond, List.getElem?_eq_getElem hk, Option.toList_some]
  by_cases hc : k % w = 0 ∧ 0 < k
  · simp only [hc, and_self, if_true, List.append_assoc]
  · simp only [hc, if_false, List.append_assoc, List.nil_append]

omit [LinearOrderedField K] [FloorRing K] in
/-- The text after the first `k` iterations of the loop of `draw`. -/
theorem draw_loop (s : Scene K) (w : Nat) (hw : 0 < w) (hsw : s.displayWidth = (w : Int))
    (out : List Char) :
    ∀ k, k ≤ s.pixels.length →
      (List.range k).foldlM (drawBody s) out =
        some (out ++ (List.range k).flatMap (cellText s.pixels w)) := by
  intro k
  induction k with
  | zero =>
    intro _
    simp
  | succ k ih =>
    intro hk
    rw [List.range_succ, foldlM_option_snoc, ih (by omega)]
    simp only [Option.some_bind, List.flatMap_append, List.flatMap_cons, List.flatMap_nil,
      List.append_nil]
    rw [drawBody_eq s w hw hsw _ k (by omega), List.append_assoc]

theorem flatMap_getElem?_toList (l : List Char) (a : Nat) :
    ∀ m, (List.range m).flatMap (fun j => l[a + j]?.toList) = (l.drop a).take m := by
  intro m
  induction m with
  | zero => simp
  | succ m ih =>
    rw [List.range_succ, List.flatMap_append, ih, List.take_succ, List.getElem?_drop]
    simp

/-- The cells of one row of `draw`: a line break first unless it is row 0,
then the `w` characters of the row. -/
theorem flatMap_cellText_row (l : List Char) (w : Nat) (hw : 0 < w) (r : Nat) :
    ((List.range w).map (fun j => w * r + j)).flatMap (cellText l w) =
      (if 0 < r then ['\n'] else []) ++ (l.drop (w * r)).take w := by
  rw [← flatMap_getElem?_toList l (w * r) w]
  obtain ⟨m, rfl⟩ : ∃ m, w = m + 1 := ⟨w - 1, by omega⟩
  rw [List.range_succ_eq_map]
  simp only [List.map_cons, List.map_map, List.flatMap_cons, List.flatMap_map]
  have h0 : cellText l (m + 1) ((m + 1) * r + 0) =
      (if 0 < r then ['\n'] else []) ++ l[(m + 1) * r + 0]?.toList := by
    unfold cellText
    have e1 : ((m + 1) * r + 0) % (m + 1) = 0 := by simp
    have e2 : 0 < (m + 1) * r + 0 ↔ 0 < r := by
      simp [Nat.pos_iff_ne_zero]
    simp only [e1, true_and, e2]
  rw [h0, List.append_assoc]
  congr 2
  apply List.flatMap_congr
  intro j hj
  have hj2 : j < m := List.mem_range.mp hj
  unfold cellText
  have e1 : ((m + 1) * r + (Nat.succ j)) % (m + 1) ≠ 0 := by
    rw [Nat.mul_add_mod]
    rw [Nat.mod_eq_of_lt (by omega)]
    omega
  simp [e1]

theorem joinRows_snoc (rows : List (List Char)) (r : List Char) :
    joinRows (rows ++ [r]) =
      joinRows rows ++ ((if 0 < rows.length then ['\n'] else []) ++ r) := by
  cases rows with
  | nil => simp [joinRows]
  | cons a rs => simp [joinRows]

/-- All cells of the first `h` rows, as `draw` prints them, are the rows
joined by line breaks. -/
theorem flatMap_cellText_rows (l : List Char) (w : Nat) (hw : 0 < w) :
    ∀ h, (List.range (w * h)).flatMap (cellText l w) =
      joinRows ((List.range h).map (fun r => (l.drop (r * w)).take w)) := by
  intro h
  induction h with
  | zero => simp [joinRows]
  | succ h ih =>
    rw [Nat.mul_succ, List.range_add, List.flatMap_append, ih, List.range_succ,
      List.map_append, List.map_singleton, joinRows_snoc]
    congr 1
    rw [flatMap_cellText_row l w hw h]
    simp [Nat.mul_comm]

omit [LinearOrderedField K] [FloorRing K] in
/-- The shape hypotheses of `draw` in terms of natural numbers. -/
theorem shape_toNat (s : Scene K) (hw : 0 < s.displayWidth)
    (hshape : (s.pixels.length : Int) = s.displayWidth * s.displayHeight) :
    0 < s.displayWidth.toNat ∧ s.displayWidth = (s.displayWidth.toNat : Int) ∧
      s.pixels.length = s.displayWidth.toNat * s.displayHeight.toNat := by
  have hh : 0 ≤ s.displayHeight := by
    by_contra hneg
    have h1 : s.displayWidth * s.displayHeight < 0 :=
      mul_neg_of_pos_of_neg hw (not_le.mp hneg)
    omega
  refine ⟨by omega, by omega, ?_⟩
  have e1 : s.displayWidth = (s.displayWidth.toNat : Int) := by omega
  have e2 : s.displayHeight = (s.displayHeight.toNat : Int) := by omega
  rw [e1, e2] at hshape
  exact_mod_cast hshape

omit [LinearOrderedField K] [FloorRing K] in
theorem draw_eq (s : Scene K) (hw : 0 < s.displayWidth)
    (hshape : (s.pixels.length : Int) = s.displayWidth * s.displayHeight) :
    draw s = some (s, cursorHome ++ joinRows (rowsOf s)) := by
  obtain ⟨hW, hsw, hn⟩ := shape_toNat s hw hshape
  unfold draw
  rw [draw_loop s s.displayWidth.toNat hW hsw cursorHome s.pixels.length (le_refl _)]
  simp only
  rw [hn, flatMap_cellText_rows s.pixels s.displayWidth.toNat hW s.displayHeight.toNat]
  rfl

theorem rows_of_replicate (a : Char) (w h : Nat) :
    (List.range h).map
      (fun r => ((List.replicate (w * h) a).drop (r * w)).take w) =
      List.replicate h (List.replicate w a) := by
  rw [List.eq_replicate_iff]
  refine ⟨by simp, fun row hrow => ?_⟩
  obtain ⟨r, hr, rfl⟩ := List.mem_map.mp hrow
  have hr2 : r < h := List.mem_range.mp hr
  rw [List.drop_replicate, List.take_replicate]
  congr 1
  have h1 : (r + 1) * w ≤ w * h := by
    rw [Nat.mul_comm w h]
    exact Nat.mul_le_mul_right w hr2
  rw [Nat.succ_mul] at h1
  omega

theorem length_flatten_map_cons_replicate (a b : Char) (w : Nat) :
    ∀ m, ((List.replicate m (List.replicate w a)).map
      (fun row => b :: row)).flatten.length = m * (w + 1) := by
  intro m
  induction m with
  | zero => simp
  | succ m ih =>
    rw [List.replicate_succ, List.map_cons, List.flatten_cons, List.length_append, ih]
    simp only [List.length_cons, List.length_replicate]
    ring

theorem length_joinRows_replicate (a : Char) (w h : Nat) :
    (joinRows (List.replicate h (List.replicate w a))).length = w * h + (h - 1) := by
  cases h with
  | zero => simp [joinRows]
  | succ h =>
    rw [List.replicate_succ, joinRows, List.length_append,
      length_flatten_map_cons_replicate]
    simp only [List.length_replicate, Nat.add_sub_cancel]
    ring

theorem surfaceBody_depthLE (sin cos : K → K) (cube : Cube K) (t : Transform K)
    (s st st1 : Scene K) (p : Nat × (K × K × K)) (hP : DepthLE s st)
    (h : surfaceBody sin cos cube t st p = some st1) : DepthLE s st1 := by
  unfold surfaceBody at h
  cases hc : cube.chars[p.1]? with
  | none => simp only [hc] at h; cases h
  | some ch =>
    simp only [hc] at h
    exact hP.trans (plotPoint_depthLE _ _ _ _ _ _ _ h)

theorem surfaceBody_total (sin cos : K → K) (cube : Cube K) (t : Transform K)
    (st : Scene K) (p : Nat × (K × K × K)) (hp : p.1 < cube.chars.length)
    (hQ : st.pixels.length ≤ st.depth.length) :
    ∃ st1, surfaceBody sin cos cube t st p = some st1 ∧
      st1.pixels.length ≤ st1.depth.length := by
  unfold surfaceBody
  simp only [List.getElem?_eq_getElem hp]
  obtain ⟨st1, h1⟩ := plotPoint_total st (project3Dto2D sin cos p.2.1 p.2.2.1 p.2.2.2 t).1
    (project3Dto2D sin cos p.2.1 p.2.2.1 p.2.2.2 t).2.1
    (project3Dto2D sin cos p.2.1 p.2.2.1 p.2.2.2 t).2.2 cube.chars[p.1] cube.position hQ
  obtain ⟨e1, e2, _⟩ := plotPoint_shape _ _ _ _ _ _ _ h1
  exact ⟨st1, h1, by omega⟩

theorem renderCube_depthLE (sin cos : K → K) (s s1 : Scene K) (cube : Cube K)
    (t : Transform K) (h : renderCube sin cos s cube t = some s1) : DepthLE s s1 := by
  unfold renderCube at h
  refine forStep_inv (fun st => DepthLE s st) cube.size _ ?_ (-cube.size) s
    (DepthLE.refl s) s1 h
  intro x st st1 hP hx
  refine forStep_inv (fun st => DepthLE s st) cube.size _ ?_ (-cube.size) st hP st1 hx
  intro y st2 st3 hP2 hy
  exact foldlM_option_inv (fun st => DepthLE s st) _
    (fun a b c hab hbc => surfaceBody_depthLE sin cos cube t s a c b hab hbc) _ st2 hP2 st3 hy

theorem renderCube_total (sin cos : K → K) (s : Scene K) (cube : Cube K)
    (t : Transform K) (hlen : s.pixels.length ≤ s.depth.length)
    (hchars : 6 ≤ cube.chars.length) :
    ∃ s1, renderCube sin cos s cube t = some s1 ∧ s1.pixels.length ≤ s1.depth.length := by
  unfold renderCube
  refine forStep_total (fun st : Scene K => st.pixels.length ≤ st.depth.length)
    cube.size _ ?_ (-cube.size) s hlen
  intro x st hQ
  refine forStep_total (fun st : Scene K => st.pixels.length ≤ st.depth.length)
    cube.size _ ?_ (-cube.size) st hQ
  intro y st2 hQ2
  refine foldlM_option_total (fun st : Scene K => st.pixels.length ≤ st.depth.length)
    _ _ ?_ st2 hQ2
  intro st3 p hp hQ3
  have hlt : p.1 < (surfaces cube.size x y).length := List.fst_lt_of_mem_enum hp
  have h6 : (surfaces cube.size x y).length = 6 := rfl
  exact surfaceBody_total sin cos cube t st3 p (by omega) hQ3

omit [FloorRing K] in
theorem foldl_max_ge_zero_eq_maxOrSentinel (l : List K) (h : ∀ a ∈ l, 0 ≤ a) :
    l.foldl max 0 = maxOrSentinel l := by
  cases l with
  | nil => rfl
  | cons a l =>
    simp only [List.foldl_cons, maxOrSentinel]
    rw [max_eq_right (h a (List.mem_cons_self a l))]

theorem plotIdx_congr (s s1 : Scene K) (x y z offset : K)
    (hw : s1.displayWidth = s.displayWidth) (hh : s1.displayHeight = s.displayHeight) :
    plotIdx s1 x y z offset = plotIdx s x y z offset := by
  unfold plotIdx screenX screenY
  rw [hw, hh]

theorem targeted_congr (s s1 : Scene K) (i : Nat) (cs : List (PlotCall K))
    (hw : s1.displayWidth = s.displayWidth) (hh : s1.displayHeight = s.displayHeight) :
    targeted s1 i cs = targeted s i cs := by
  unfold targeted
  simp only [plotIdx_congr s s1 _ _ _ _ hw hh]

/-- One call of `plotPoint` seen from a fixed cell `i`: the cell takes the
maximum of its depth and `invZ` when the call targets it, and keeps its depth
otherwise. -/
theorem plotPoint_depth_step (st : Scene K) (c : PlotCall K) (i : Nat) (d : K)
    (hlen : st.pixels.length ≤ st.depth.length) (hi : i < st.pixels.length)
    (hd : st.depth[i]? = some d) :
    ∃ st1, plotPoint st c.x c.y c.z c.ch c.offset = some st1 ∧
      st1.depth[i]? =
        some (if plotIdx st c.x c.y c.z c.offset = (i : Int) then max d (invZ c.z) else d) := by
  rcases plotPoint_cases st c.x c.y c.z c.ch c.offset with h1 | ⟨e, hnn, hp, hlt, he, hgt, h1⟩ | ⟨hl, _⟩
  · refine ⟨st, h1, ?_⟩
    by_cases hidx : plotIdx st c.x c.y c.z c.offset = (i : Int)
    · rw [if_pos hidx]
      -- the call targets `i`, is in range, and did not write: `invZ ≤ d`
      have hti : (plotIdx st c.x c.y c.z c.offset).toNat = i := by omega
      have h2 := plotPoint_of_inside st c.x c.y c.z c.ch c.offset d (by omega) (by omega)
        (by rw [hti]; exact hd)
      rw [h1] at h2
      by_cases hgt : invZ c.z > d
      · rw [if_pos hgt] at h2
        have h3 := congrArg (fun o => o.bind (fun t => t.depth[i]?)) h2
        simp only [Option.some_bind] at h3
        rw [hd, ← hti, List.getElem?_set_self (by omega)] at h3
        cases h3
        exact absurd hgt (lt_irrefl _)
      · rw [hd, max_eq_left (not_lt.mp hgt)]
    · rw [if_neg hidx]
      exact hd
  · refine ⟨_, h1, ?_⟩
    by_cases hidx : plotIdx st c.x c.y c.z c.offset = (i : Int)
    · have hti : (plotIdx st c.x c.y c.z c.offset).toNat = i := by omega
      rw [if_pos hidx]
      rw [hti] at he hlt
      rw [hd] at he
      cases he
      simp only [hti]
      rw [List.getElem?_set_self hlt, max_eq_right (le_of_lt hgt)]
    · have hne : (plotIdx st c.x c.y c.z c.offset).toNat ≠ i := by omega
      rw [if_neg hidx]
      simp only [List.getElem?_set_ne hne]
      exact hd
  · omega

/-- Cell `i` after a sequence of calls: the running maximum, started at the
depth `d` the cell held, of the inverse depths of the calls that target it. -/
theorem plotAll_depth (i : Nat) :
    ∀ (cs : List (PlotCall K)) (st : Scene K) (d : K),
      st.pixels.length ≤ st.depth.length → i < st.pixels.length →
      st.depth[i]? = some d →
      ∃ s1, plotAll st cs = some s1 ∧
        s1.depth[i]? = some ((targeted st i cs).foldl max d) := by
  intro cs
  induction cs with
  | nil =>
    intro st d _ _ hd
    exact ⟨st, rfl, by simpa [targeted] using hd⟩
  | cons c cs ih =>
    intro st d hlen hi hd
    obtain ⟨st1, h1, hd1⟩ := plotPoint_depth_step st c i d hlen hi hd
    obtain ⟨e1, e2, e3, e4, _⟩ := plotPoint_shape _ _ _ _ _ _ _ h1
    obtain ⟨s2, h2, hd2⟩ := ih st1 _ (by omega) (by omega) hd1
    refine ⟨s2, ?_, ?_⟩
    · unfold plotAll at h2 ⊢
      rw [List.foldlM_cons, h1]
      exact h2
    · rw [hd2, targeted_congr st st1 i cs e3 e4]
      unfold targeted
      by_cases hidx : plotIdx st c.x c.y c.z c.offset = (i : Int)
      · simp [List.filter_cons, hidx]
      · simp [List.filter_cons, hidx]

end Loops

/-! ## The sampling loops as lists -/

section Sampling

variable {K : Type} [LinearOrderedField K] [FloorRing K]

omit [FloorRing K] in
theorem STEP_SIZE_pos : (0 : K) < STEP_SIZE K := by
  unfold STEP_SIZE
  norm_num

theorem stepValues_of_not_lt (size x : K) (h : ¬ x < size) : stepValues size x = [] := by
  unfold stepValues
  have hle : Int.ceil ((size - x) / STEP_SIZE K) ≤ 0 := by
    rw [Int.ceil_le]
    have h1 : size - x ≤ 0 := by linarith [not_lt.mp h]
    simpa using div_nonpos_of_nonpos_of_nonneg h1 (le_of_lt STEP_SIZE_pos)
  rw [Int.toNat_eq_zero.mpr hle]
  rfl

theorem stepValues_of_lt (size x : K) (h : x < size) :
    stepValues size x = x :: stepValues size (x + STEP_SIZE K) := by
  unfold stepValues
  have hstep : (0 : K) < STEP_SIZE K := STEP_SIZE_pos
  have hq : (size - (x + STEP_SIZE K)) / STEP_SIZE K = (size - x) / STEP_SIZE K - 1 := by
    have hne : STEP_SIZE K ≠ 0 := hstep.ne'
    field_simp
    ring
  have hpos : 0 < Int.ceil ((size - x) / STEP_SIZE K) :=
    Int.ceil_pos.mpr (div_pos (sub_pos.mpr h) hstep)
  have hn : Int.toNat (Int.ceil ((size - x) / STEP_SIZE K)) =
      Int.toNat (Int.ceil ((size - (x + STEP_SIZE K)) / STEP_SIZE K)) + 1 := by
    rw [hq, Int.ceil_sub_one]
    omega
  rw [hn, List.range_succ_eq_map, List.map_cons, List.map_map]
  congr 1
  · simp
  · apply List.map_congr_left
    intro k _
    simp only [Function.comp, Nat.succ_eq_add_one, Nat.cast_add, Nat.cast_one]
    ring

/-- The loop `forStep` runs its body once for each value of `stepValues`, in
order. -/
theorem forStep_eq_foldlM {σ : Type} (size : K) (body : K → σ → Option σ) (x : K) (st : σ) :
    forStep size body x st = (stepValues size x).foldlM (fun a v => body v a) st := by
  induction x, st using forStep.induct size body with
  | case1 x st h st1 hb ih =>
    rw [forStep, dif_pos h, hb, stepValues_of_lt size x h, List.foldlM_cons, hb]
    exact ih
  | case2 x st h hb =>
    rw [forStep, dif_pos h, hb, stepValues_of_lt size x h, List.foldlM_cons, hb]
    rfl
  | case3 x st h =>
    rw [forStep, dif_neg h, stepValues_of_not_lt size x h]
    rfl

theorem gridValues_eq_stepValues (size : K) : gridValues size = stepValues size (-size) := by
  unfold gridValues stepValues loopCount
  have e : (size - -size) / STEP_SIZE K = 2 * size / STEP_SIZE K := by ring
  rw [e]

theorem length_gridValues (size : K) : (gridValues size).length = loopCount size := by
  simp [gridValues]

theorem mem_gridValues (size v : K) :
    v ∈ gridValues size ↔ ∃ k : Nat, v = -size + (k : K) * STEP_SIZE K ∧ v < size := by
  have hstep : (0 : K) < STEP_SIZE K := STEP_SIZE_pos
  unfold gridValues loopCount
  simp only [List.mem_map, List.mem_range]
  have key : ∀ k : Nat, k < Int.toNat (Int.ceil (2 * size / STEP_SIZE K)) ↔
      -size + (k : K) * STEP_SIZE K < size := by
    intro k
    rw [Int.lt_toNat, Int.lt_ceil, lt_div_iff₀ hstep]
    constructor
    · intro h
      have : ((k : Int) : K) = (k : K) := by norm_cast
      rw [this] at h
      linarith
    · intro h
      have : ((k : Int) : K) = (k : K) := by norm_cast
      rw [this]
      linarith
  constructor
  · rintro ⟨k, hk, rfl⟩
    exact ⟨k, rfl, (key k).mp hk⟩
  · rintro ⟨k, rfl, hk⟩
    exact ⟨k, (key k).mpr hk, rfl⟩

theorem gridValues_bounds (size v : K) (h : v ∈ gridValues size) :
    -size ≤ v ∧ v < size := by
  obtain ⟨k, rfl, hk⟩ := (mem_gridValues size v).mp h
  refine ⟨?_, hk⟩
  have h1 : (0 : K) ≤ (k : K) * STEP_SIZE K :=
    mul_nonneg (Nat.cast_nonneg k) (le_of_lt STEP_SIZE_pos)
  linarith

theorem gridValues_of_nonpos (size : K) (h : size ≤ 0) : gridValues size = [] := by
  rw [gridValues_eq_stepValues]
  exact stepValues_of_not_lt size (-size) (by linarith)

theorem foldlM_option_flatMap {σ α β : Type} (f : α → List β) (g : σ → β → Option σ) :
    ∀ (l : List α) (st : σ),
      (l.flatMap f).foldlM g st = l.foldlM (fun a v => (f v).foldlM g a) st := by
  intro l
  induction l with
  | nil => intro st; rfl
  | cons a l ih =>
    intro st
    rw [List.flatMap_cons, List.foldlM_append, List.foldlM_cons]
    cases h : (f a).foldlM g st with
    | none => rfl
    | some st1 => exact ih st1

theorem foldlM_option_map {σ α β : Type} (f : α → β) (g : σ → β → Option σ) :
    ∀ (l : List α) (st : σ),
      (l.map f).foldlM g st = l.foldlM (fun a v => g a (f v)) st := by
  intro l
  induction l with
  | nil => intro st; rfl
  | cons a l ih =>
    intro st
    rw [List.map_cons, List.foldlM_cons, List.foldlM_cons]
    cases h : g st (f a) with
    | none => rfl
    | some st1 => exact ih st1

theorem foldlM_option_congr {σ α : Type} (f g : σ → α → Option σ) :
    ∀ (l : List α), (∀ st a, a ∈ l → f st a = g st a) →
      ∀ st : σ, l.foldlM f st = l.foldlM g st := by
  intro l
  induction l with
  | nil => intro _ st; rfl
  | cons a l ih =>
    intro h st
    rw [List.foldlM_cons, List.foldlM_cons, h st a (List.mem_cons_self a l)]
    cases hg : g st a with
    | none => rfl
    | some st1 => exact ih (fun st b hb => h st b (List.mem_cons_of_mem a hb)) st1

/-- `renderCube` as three nested list loops over the sample grid. -/
theorem renderCube_eq_foldlM (sin cos : K → K) (s : Scene K) (cube : Cube K)
    (t : Transform K) :
    renderCube sin cos s cube t =
      (gridValues cube.size).foldlM (fun st x =>
        (gridValues cube.size).foldlM (fun st1 y =>
          (surfaces cube.size x y).enum.foldlM (surfaceBody sin cos cube t) st1) st) s := by
  unfold renderCube
  simp only [forStep_eq_foldlM, gridValues_eq_stepValues]

theorem surfaceBody_eq_plotPoint (sin cos : K → K) (cube : Cube K) (t : Transform K)
    (st : Scene K) (p : Nat × (K × K × K)) (hp : p.1 < cube.chars.length) :
    surfaceBody sin cos cube t st p =
      plotPoint st (sampleCall sin cos cube t p).x (sampleCall sin cos cube t p).y
        (sampleCall sin cos cube t p).z (sampleCall sin cos cube t p).ch
        (sampleCall sin cos cube t p).offset := by
  unfold surfaceBody sampleCall
  simp only [List.getElem?_eq_getElem hp, List.getD_eq_getElem?_getD, Option.getD_some]

/-- With six characters, `renderCube` is the sequence `sampleCalls` of
`plotPoint` calls. -/
theorem renderCube_eq_plotAll (sin cos : K → K) (s : Scene K) (cube : Cube K)
    (t : Transform K) (h6 : 6 ≤ cube.chars.length) :
    renderCube sin cos s cube t = plotAll s (sampleCalls sin cos cube t) := by
  rw [renderCube_eq_foldlM]
  unfold plotAll sampleCalls
  rw [foldlM_option_flatMap]
  apply foldlM_option_congr
  intro st x _
  rw [foldlM_option_flatMap]
  apply foldlM_option_congr
  intro st1 y _
  rw [foldlM_option_map]
  apply foldlM_option_congr
  intro st2 p hp
  have hlt : p.1 < (surfaces cube.size x y).length := List.fst_lt_of_mem_enum hp
  have hsix : (surfaces cube.size x y).length = 6 := rfl
  exact surfaceBody_eq_plotPoint sin cos cube t st2 p (by omega)

theorem mem_sampleCalls (sin cos : K → K) (cube : Cube K) (t : Transform K)
    (c : PlotCall K) :
    c ∈ sampleCalls sin cos cube t ↔
      ∃ x ∈ gridValues cube.size, ∃ y ∈ gridValues cube.size,
        ∃ p ∈ (surfaces cube.size x y).enum, c = sampleCall sin cos cube t p := by
  unfold sampleCalls
  simp only [List.mem_flatMap, List.mem_map]
  constructor
  · rintro ⟨x, hx, y, hy, p, hp, rfl⟩
    exact ⟨x, hx, y, hy, p, hp, rfl⟩
  · rintro ⟨x, hx, y, hy, p, hp, rfl⟩
    exact ⟨x, hx, y, hy, p, hp, rfl⟩

theorem length_flatMap_const {α β : Type} (f : α → List β) (n : Nat) :
    ∀ (l : List α), (∀ a ∈ l, (f a).length = n) → (l.flatMap f).length = l.length * n := by
  intro l
  induction l with
  | nil => intro _; simp
  | cons a l ih =>
    intro h
    rw [List.flatMap_cons, List.length_append, h a (List.mem_cons_self a l),
      ih (fun b hb => h b (List.mem_cons_of_mem a hb)), List.length_cons]
    ring

theorem length_sampleCalls (sin cos : K → K) (cube : Cube K) (t : Transform K) :
    (sampleCalls sin cos cube t).length = 6 * loopCount cube.size ^ 2 := by
  unfold sampleCalls
  rw [length_flatMap_const _ (loopCount cube.size * 6), length_gridValues]
  · ring
  · intro x _
    rw [length_flatMap_const _ 6, length_gridValues]
    intro y _
    simp [surfaces]

omit [FloorRing K] in
theorem surfaces_onCubeSurface (size x y : K) (hx : -size ≤ x ∧ x < size)
    (hy : -size ≤ y ∧ y < size) :
    ∀ p ∈ surfaces size x y, OnCubeSurface size p := by
  have hs : -size ≤ size := by linarith [hx.1, hx.2]
  intro p hp
  simp only [surfaces, List.mem_cons, List.mem_singleton, List.not_mem_nil, or_false] at hp
  rcases hp with rfl | rfl | rfl | rfl | rfl | rfl
  · exact ⟨⟨hx.1, le_of_lt hx.2⟩, ⟨hy.1, le_of_lt hy.2⟩, ⟨le_refl _, hs⟩, by simp⟩
  · exact ⟨⟨hs, le_refl _⟩, ⟨hy.1, le_of_lt hy.2⟩, ⟨hx.1, le_of_lt hx.2⟩, by simp⟩
  · refine ⟨⟨le_refl _, hs⟩, ⟨hy.1, le_of_lt hy.2⟩, ⟨?_, ?_⟩, by simp⟩
    · show -size ≤ -x
      linarith [hx.2]
    · show -x ≤ size
      linarith [hx.1]
  · refine ⟨⟨?_, ?_⟩, ⟨hy.1, le_of_lt hy.2⟩, ⟨hs, le_refl _⟩, by simp⟩
    · show -size ≤ -x
      linarith [hx.2]
    · show -x ≤ size
      linarith [hx.1]
  · refine ⟨⟨hx.1, le_of_lt hx.2⟩, ⟨le_refl _, hs⟩, ⟨?_, ?_⟩, by simp⟩
    · show -size ≤ -y
      linarith [hy.2]
    · show -y ≤ size
      linarith [hy.1]
  · exact ⟨⟨hx.1, le_of_lt hx.2⟩, ⟨hs, le_refl _⟩, ⟨hy.1, le_of_lt hy.2⟩, by simp⟩

theorem loopCount_eq (size : K) (n : Nat) (h1 : ((n : K) - 1) * STEP_SIZE K < 2 * size)
    (h2 : 2 * size ≤ (n : K) * STEP_SIZE K) : loopCount size = n := by
  unfold loopCount
  have hstep : (0 : K) < STEP_SIZE K := STEP_SIZE_pos
  have hc : Int.ceil (2 * size / STEP_SIZE K) = (n : Int) := by
    rw [Int.ceil_eq_iff]
    constructor
    · rw [lt_div_iff₀ hstep]
      push_cast
      exact h1
    · rw [div_le_iff₀ hstep]
      push_cast
      exact h2
  rw [hc]
  rfl

theorem renderCube_of_size_nonpos (sin cos : K → K) (s : Scene K) (cube : Cube K)
    (t : Transform K) (h : cube.size ≤ 0) : renderCube sin cos s cube t = some s := by
  rw [renderCube_eq_foldlM, gridValues_of_nonpos cube.size h]
  rfl

end Sampling

/-! ## The projection -/

section Projection

variable {K : Type} [LinearOrderedField K] [FloorRing K]

omit [FloorRing K] in
/-- For any functions in place of sine and cosine, `project3Dto2D` is the
composition of the three axis rotations and the camera translation. -/
theorem project3Dto2D_eq_rot (sin cos : K → K) (x y z : K) (t : Transform K) :
    project3Dto2D sin cos x y z t =
      translateCamera (rotZ sin cos t.rotateZ (rotY sin cos t.rotateY
        (rotX sin cos t.rotateX (x, y, z)))) := by
  simp only [project3Dto2D, translateCamera, rotZ, rotY, rotX]
  refine Prod.ext ?_ (Prod.ext ?_ ?_)
  · simp only []
    ring
  · simp only []
    ring
  · simp only []
    ring

omit [FloorRing K] in
/-- When `sin^2 + cos^2 = 1` at the three angles, the rotation part of
`project3Dto2D` keeps the squared distance to the origin. -/
theorem project3Dto2D_norm_sq (sin cos : K → K) (x y z : K) (t : Transform K)
    (ha : sin t.rotateX ^ 2 + cos t.rotateX ^ 2 = 1)
    (hb : sin t.rotateY ^ 2 + cos t.rotateY ^ 2 = 1)
    (hc : sin t.rotateZ ^ 2 + cos t.rotateZ ^ 2 = 1) :
    (project3Dto2D sin cos x y z t).1 ^ 2 + (project3Dto2D sin cos x y z t).2.1 ^ 2 +
      ((project3Dto2D sin cos x y z t).2.2 - (CAMERA_DIST : K)) ^ 2 =
      x ^ 2 + y ^ 2 + z ^ 2 := by
  have hX : ∀ p : K × K × K,
      (rotX sin cos t.rotateX p).1 ^ 2 + (rotX sin cos t.rotateX p).2.1 ^ 2 +
        (rotX sin cos t.rotateX p).2.2 ^ 2 = p.1 ^ 2 + p.2.1 ^ 2 + p.2.2 ^ 2 := by
    intro p
    simp only [rotX]
    linear_combination (p.2.1 ^ 2 + p.2.2 ^ 2) * ha
  have hY : ∀ p : K × K × K,
      (rotY sin cos t.rotateY p).1 ^ 2 + (rotY sin cos t.rotateY p).2.1 ^ 2 +
        (rotY sin cos t.rotateY p).2.2 ^ 2 = p.1 ^ 2 + p.2.1 ^ 2 + p.2.2 ^ 2 := by
    intro p
    simp only [rotY]
    linear_combination (p.1 ^ 2 + p.2.2 ^ 2) * hb
  have hZ : ∀ p : K × K × K,
      (rotZ sin cos t.rotateZ p).1 ^ 2 + (rotZ sin cos t.rotateZ p).2.1 ^ 2 +
        (rotZ sin cos t.rotateZ p).2.2 ^ 2 = p.1 ^ 2 + p.2.1 ^ 2 + p.2.2 ^ 2 := by
    intro p
    simp only [rotZ]
    linear_combination (p.1 ^ 2 + p.2.1 ^ 2) * hc
  rw [project3Dto2D_eq_rot]
  simp only [translateCamera, add_sub_cancel_right]
  rw [hZ, hY, hX]

omit [FloorRing K] in
/-- A point of the cube surface is within distance `size * sqrt 3` of the
origin (squared form). -/
theorem onCubeSurface_norm_sq (size : K) (p : K × K × K) (h : OnCubeSurface size p) :
    p.1 ^ 2 + p.2.1 ^ 2 + p.2.2 ^ 2 ≤ 3 * size ^ 2 := by
  obtain ⟨⟨h1, h2⟩, ⟨h3, h4⟩, ⟨h5, h6⟩, _⟩ := h
  have e1 : p.1 ^ 2 ≤ size ^ 2 := by nlinarith
  have e2 : p.2.1 ^ 2 ≤ size ^ 2 := by nlinarith
  have e3 : p.2.2 ^ 2 ≤ size ^ 2 := by nlinarith
  linarith

/-- Every call of `sampleCalls` is the projection of a point of the cube
surface, with the offset of the cube, and the size of the cube is positive. -/
theorem sampleCalls_point (sin cos : K → K) (cube : Cube K) (t : Transform K)
    (c : PlotCall K) (h : c ∈ sampleCalls sin cos cube t) :
    0 < cube.size ∧ c.offset = cube.position ∧
    ∃ p : K × K × K, OnCubeSurface cube.size p ∧
      c.x = (project3Dto2D sin cos p.1 p.2.1 p.2.2 t).1 ∧
      c.y = (project3Dto2D sin cos p.1 p.2.1 p.2.2 t).2.1 ∧
      c.z = (project3Dto2D sin cos p.1 p.2.1 p.2.2 t).2.2 := by
  obtain ⟨x, hx, y, hy, ip, hip, rfl⟩ := (mem_sampleCalls sin cos cube t c).mp h
  have bx := gridValues_bounds cube.size x hx
  have bye := gridValues_bounds cube.size y hy
  refine ⟨by linarith [bx.1, bx.2], rfl, ip.2, ?_, rfl, rfl, rfl⟩
  exact surfaces_onCubeSurface cube.size x y bx bye ip.2 (List.snd_mem_of_mem_enum hip)

/-- The first call of `renderCube` on a cube of positive size: the front-face
point at `x = y = -size`. -/
theorem first_sample_mem (sin cos : K → K) (cube : Cube K) (t : Transform K)
    (hpos : 0 < cube.size) :
    sampleCall sin cos cube t (0, (-cube.size, -cube.size, -cube.size)) ∈
      sampleCalls sin cos cube t := by
  have hmem : -cube.size ∈ gridValues cube.size := by
    rw [mem_gridValues]
    exact ⟨0, by simp, by linarith⟩
  rw [mem_sampleCalls]
  exact ⟨-cube.size, hmem, -cube.size, hmem, _, by simp [surfaces, List.enum], rfl⟩

theorem goInt_bounds (v : K) (n : Int) (h0 : 0 ≤ v) (h1 : v < (n : K)) :
    0 ≤ goInt v ∧ goInt v < n := by
  unfold goInt
  rw [if_pos h0]
  exact ⟨Int.floor_nonneg.mpr h0, Int.floor_lt.mpr h1⟩

omit [FloorRing K] in
/-- A projected point within squared distance 1200 of the camera target has
positive depth and its ratios `x/z`, `y/z` are within `2/5`. -/
theorem ratio_bound (X Y Z : K) (h : X ^ 2 + Y ^ 2 + (Z - 100) ^ 2 ≤ 1200) :
    0 < Z ∧ (-(2 / 5) ≤ 1 / Z * X ∧ 1 / Z * X ≤ 2 / 5) ∧
      (-(2 / 5) ≤ 1 / Z * Y ∧ 1 / Z * Y ≤ 2 / 5) := by
  have hZ : 0 < Z := by nlinarith [sq_nonneg X, sq_nonneg Y, sq_nonneg (Z - 100)]
  have hq : 0 ≤ 2 / 5 * Z := by linarith
  have hX : X ^ 2 ≤ (2 / 5 * Z) ^ 2 := by
    nlinarith [sq_nonneg Y, sq_nonneg (29 * (Z - 100) + 400)]
  have hY : Y ^ 2 ≤ (2 / 5 * Z) ^ 2 := by
    nlinarith [sq_nonneg X, sq_nonneg (29 * (Z - 100) + 400)]
  obtain ⟨x1, x2⟩ := abs_le_of_sq_le_sq' hX hq
  obtain ⟨y1, y2⟩ := abs_le_of_sq_le_sq' hY hq
  have e : ∀ W : K, 1 / Z * W = W / Z := fun W => by field_simp
  refine ⟨hZ, ⟨?_, ?_⟩, ⟨?_, ?_⟩⟩
  · rw [e, le_div_iff₀ hZ]; linarith
  · rw [e, div_le_iff₀ hZ]; linarith
  · rw [e, le_div_iff₀ hZ]; linarith
  · rw [e, div_le_iff₀ hZ]; linarith

/-- On a 160 x 44 scene, a projected point within squared distance 1200 of the
camera target, drawn with an offset between -40 and 40, has its truncated
column and row on screen. -/
theorem screen_bounds (s : Scene K) (X Y Z off : K)
    (hw : s.displayWidth = (DISPLAY_WIDTH : Int)) (hh : s.displayHeight = (DISPLAY_HEIGHT : Int))
    (hoff : -40 ≤ off ∧ off ≤ 40) (h : X ^ 2 + Y ^ 2 + (Z - 100) ^ 2 ≤ 1200) :
    (0 ≤ screenX s X Z off ∧ screenX s X Z off < 160) ∧
      (0 ≤ screenY s Y Z ∧ screenY s Y Z < 44) ∧
      (0 ≤ plotIdx s X Y Z off ∧ plotIdx s X Y Z off < 7040) := by
  obtain ⟨_, ⟨x1, x2⟩, ⟨y1, y2⟩⟩ := ratio_bound X Y Z h
  have hX : 0 ≤ screenX s X Z off ∧ screenX s X Z off < 160 := by
    unfold screenX invZ
    rw [hw]
    have e : ((DISPLAY_WIDTH : Int) : K) / 2 + off + (PERSPECTIVE : K) * (1 / Z) * X * 2 =
        80 + off + 80 * (1 / Z * X) := by
      simp only [DISPLAY_WIDTH, PERSPECTIVE]
      push_cast
      ring
    rw [e]
    exact goInt_bounds _ 160 (by linarith [hoff.1]) (by push_cast; linarith [hoff.2])
  have hY : 0 ≤ screenY s Y Z ∧ screenY s Y Z < 44 := by
    unfold screenY invZ
    rw [hh]
    have e : ((DISPLAY_HEIGHT : Int) : K) / 2 + (PERSPECTIVE : K) * (1 / Z) * Y =
        22 + 40 * (1 / Z * Y) := by
      simp only [DISPLAY_HEIGHT, PERSPECTIVE]
      push_cast
      ring
    rw [e]
    exact goInt_bounds _ 44 (by linarith) (by push_cast; linarith)
  refine ⟨hX, hY, ?_⟩
  unfold plotIdx
  rw [hw]
  simp only [DISPLAY_WIDTH]
  push_cast
  omega

end Projection

/-! ## Shape and coherence invariants -/

section Invariants

variable {K : Type} [LinearOrderedField K] [FloorRing K]

omit [LinearOrderedField K] [FloorRing K] in
theorem sameShape_refl (s : Scene K) : SameShape s s := ⟨rfl, rfl, rfl, rfl⟩

omit [LinearOrderedField K] [FloorRing K] in
theorem sameShape_trans {s s1 s2 : Scene K} (h1 : SameShape s s1) (h2 : SameShape s1 s2) :
    SameShape s s2 :=
  ⟨h2.1.trans h1.1, h2.2.1.trans h1.2.1, h2.2.2.1.trans h1.2.2.1, h2.2.2.2.trans h1.2.2.2⟩

/-- Every element of a `foldlM` loop that returns had its body return, from a
state satisfying any invariant the body keeps. -/
theorem foldlM_option_body_some {σ α : Type} (P : σ → Prop) (f : σ → α → Option σ)
    (hf : ∀ st a st1, P st → f st a = some st1 → P st1) :
    ∀ (l : List α) (st st2 : σ), P st → l.foldlM f st = some st2 →
      ∀ a ∈ l, ∃ sa sb, P sa ∧ f sa a = some sb := by
  intro l
  induction l with
  | nil =>
    intro st st2 _ _ a ha
    cases ha
  | cons b l ih =>
    intro st st2 hP h a ha
    rw [List.foldlM_cons] at h
    obtain ⟨st1, h1, h2⟩ := Option.bind_eq_some.mp h
    rcases List.mem_cons.mp ha with rfl | hal
    · exact ⟨st, st1, hP, h1⟩
    · exact ih st1 st2 (hf st b st1 hP h1) h2 a hal

omit [FloorRing K] in
theorem clearBody_shape (st st1 : Scene K) (i : Nat) (h : clearBody st i = some st1) :
    SameShape st st1 ∧ st1.bgChar = st.bgChar ∧ i < st.depth.length := by
  unfold clearBody at h
  split at h
  · rename_i hc
    cases h
    exact ⟨⟨by simp, by simp, rfl, rfl⟩, rfl, hc.2⟩
  · cases h

omit [FloorRing K] in
theorem clear_shape (s c : Scene K) (h : clear s = some c) :
    SameShape s c ∧ c.bgChar = s.bgChar := by
  unfold clear at h
  exact foldlM_option_inv (fun st : Scene K => SameShape s st ∧ st.bgChar = s.bgChar)
    clearBody
    (fun st i st1 hP hi =>
      ⟨sameShape_trans hP.1 (clearBody_shape st st1 i hi).1,
        (clearBody_shape st st1 i hi).2.1.trans hP.2⟩)
    _ s ⟨sameShape_refl s, rfl⟩ c h

omit [FloorRing K] in
/-- When `clear` returns, `depth` was at least as long as `pixels`. -/
theorem clear_some_length (s c : Scene K) (h : clear s = some c) :
    s.pixels.length ≤ s.depth.length := by
  by_contra hlt
  have hmem : s.depth.length ∈ List.range s.pixels.length :=
    List.mem_range.mpr (not_le.mp hlt)
  unfold clear at h
  obtain ⟨sa, sb, hP, hb⟩ := foldlM_option_body_some
    (fun st : Scene K => st.depth.length = s.depth.length) clearBody
    (fun st i st1 hP hi => (clearBody_shape st st1 i hi).1.2.1.trans hP)
    _ s c rfl h _ hmem
  have := (clearBody_shape sa sb _ hb).2.2
  omega

theorem plotPoint_sameShape (s s1 : Scene K) (x y z : K) (ch : Char) (offset : K)
    (h : plotPoint s x y z ch offset = some s1) : SameShape s s1 ∧ s1.bgChar = s.bgChar := by
  obtain ⟨e1, e2, e3, e4, e5⟩ := plotPoint_shape s s1 x y z ch offset h
  exact ⟨⟨e1, e2, e3, e4⟩, e5⟩

theorem surfaceBody_sameShape (sin cos : K → K) (cube : Cube K) (t : Transform K)
    (st st1 : Scene K) (p : Nat × (K × K × K))
    (h : surfaceBody sin cos cube t st p = some st1) :
    SameShape st st1 ∧ st1.bgChar = st.bgChar := by
  unfold surfaceBody at h
  cases hc : cube.chars[p.1]? with
  | none => simp only [hc] at h; cases h
  | some ch =>
    simp only [hc] at h
    exact plotPoint_sameShape _ _ _ _ _ _ _ h

/-- A property kept by every `plotPoint` call that returns is kept by a
`renderCube` that returns. -/
theorem renderCube_inv (P : Scene K → Prop)
    (hP : ∀ st st1 x y z ch offset, P st → plotPoint st x y z ch offset = some st1 → P st1)
    (sin cos : K → K) (s s1 : Scene K) (cube : Cube K) (t : Transform K)
    (h0 : P s) (h : renderCube sin cos s cube t = some s1) : P s1 := by
  unfold renderCube at h
  refine forStep_inv P cube.size _ ?_ (-cube.size) s h0 s1 h
  intro x st st1 hst hx
  refine forStep_inv P cube.size _ ?_ (-cube.size) st hst st1 hx
  intro y st2 st3 hst2 hy
  refine foldlM_option_inv P _ ?_ _ st2 hst2 st3 hy
  intro a p b ha hb
  unfold surfaceBody at hb
  cases hc : cube.chars[p.1]? with
  | none => simp only [hc] at hb; cases hb
  | some ch =>
    simp only [hc] at hb
    exact hP a b _ _ _ _ _ ha hb

theorem renderCube_sameShape (sin cos : K → K) (s s1 : Scene K) (cube : Cube K)
    (t : Transform K) (h : renderCube sin cos s cube t = some s1) :
    SameShape s s1 ∧ s1.bgChar = s.bgChar :=
  renderCube_inv (fun st => SameShape s st ∧ st.bgChar = s.bgChar)
    (fun st st1 x y z ch offset hst hp =>
      ⟨sameShape_trans hst.1 (plotPoint_sameShape st st1 x y z ch offset hp).1,
        (plotPoint_sameShape st st1 x y z ch offset hp).2.trans hst.2⟩)
    sin cos s s1 cube t ⟨sameShape_refl s, rfl⟩ h

omit [LinearOrderedField K] [FloorRing K] in
theorem draw_fst (s : Scene K) (r : Scene K × List Char) (h : draw s = some r) :
    r.1 = s := by
  unfold draw at h
  split at h
  · cases h; rfl
  · cases h

omit [LinearOrderedField K] [FloorRing K] in
/-- `draw` returns whenever `displayWidth` is not zero. -/
theorem draw_total (s : Scene K) (hw : s.displayWidth ≠ 0) :
    ∃ out, draw s = some (s, out) := by
  obtain ⟨out, h, _⟩ := foldlM_option_total (fun _ : List Char => True) (drawBody s)
    (List.range s.pixels.length)
    (fun o i hi _ => by
      have hlt : i < s.pixels.length := List.mem_range.mp hi
      unfold drawBody
      simp only [hw, if_false, List.getElem?_eq_getElem hlt]
      exact ⟨_, rfl, trivial⟩)
    cursorHome trivial
  refine ⟨out, ?_⟩
  unfold draw
  rw [h]

/-- The condition under which a frame of `main` runs without panic. -/
theorem frame_step (sin cos : K → K) (st : MainState K)
    (hlen : st.scene.pixels.length ≤ st.scene.depth.length)
    (hw : st.scene.displayWidth ≠ 0) :
    ∃ st1, frame sin cos st = some st1 ∧
      st1.scene.pixels.length ≤ st1.scene.depth.length ∧
      st1.scene.displayWidth ≠ 0 := by
  obtain ⟨c, hc⟩ : ∃ c, clear st.scene = some c := ⟨_, clear_eq st.scene hlen⟩
  obtain ⟨⟨c1, c2, c3, _⟩, _⟩ := clear_shape st.scene c hc
  obtain ⟨s2, h2, hq2, hw2⟩ := foldlM_option_total
    (fun sc : Scene K => sc.pixels.length ≤ sc.depth.length ∧ sc.displayWidth ≠ 0)
    (fun sc cube => renderCube sin cos sc cube st.transform) (cubes : List (Cube K))
    (fun sc cube hcube hQ => by
      have h6 : 6 ≤ cube.chars.length := by
        simp only [cubes, List.mem_cons, List.mem_singleton, List.not_mem_nil, or_false]
          at hcube
        rcases hcube with rfl | rfl | rfl <;> simp
      obtain ⟨s1, h1, hq1⟩ := renderCube_total sin cos sc cube st.transform hQ.1 h6
      obtain ⟨⟨_, _, e3, _⟩, _⟩ := renderCube_sameShape sin cos sc s1 cube st.transform h1
      exact ⟨s1, h1, hq1, by rw [e3]; exact hQ.2⟩)
    c ⟨by omega, by rw [c3]; exact hw⟩
  obtain ⟨out, h3⟩ := draw_total s2 hw2
  have hf : frame sin cos st =
      some { scene := s2
             transform :=
               { rotateX := st.transform.rotateX + 5 / 100
                 rotateY := st.transform.rotateY + 5 / 100
                 rotateZ := st.transform.rotateZ + 1 / 100 }
             out := st.out ++ out } := by
    unfold frame
    rw [hc]
    simp only [h2, h3]
  exact ⟨_, hf, hq2, hw2⟩

theorem frame_transform (sin cos : K → K) (st st1 : MainState K)
    (h : frame sin cos st = some st1) :
    st1.transform =
      { rotateX := st.transform.rotateX + 5 / 100
        rotateY := st.transform.rotateY + 5 / 100
        rotateZ := st.transform.rotateZ + 1 / 100 } := by
  unfold frame at h
  split at h
  · cases h
  · split at h
    · cases h
    · split at h
      · cases h
      · cases h
        rfl

/-- After `n` frames from a state whose scene can be cleared and drawn, the
loop has returned and each angle has grown by `n` times its increment. -/
theorem frames_transform (sin cos : K → K) :
    ∀ (n : Nat) (st : MainState K),
      st.scene.pixels.length ≤ st.scene.depth.length → st.scene.displayWidth ≠ 0 →
      ∃ st1, frames sin cos n st = some st1 ∧
        st1.transform.rotateX = st.transform.rotateX + (n : K) * (5 / 100) ∧
        st1.transform.rotateY = st.transform.rotateY + (n : K) * (5 / 100) ∧
        st1.transform.rotateZ = st.transform.rotateZ + (n : K) * (1 / 100) := by
  intro n
  induction n with
  | zero =>
    intro st _ _
    exact ⟨st, rfl, by simp, by simp, by simp⟩
  | succ n ih =>
    intro st hlen hw
    obtain ⟨st1, h1, hlen1, hw1⟩ := frame_step sin cos st hlen hw
    obtain ⟨st2, h2, hx, hy, hz⟩ := ih st1 hlen1 hw1
    have ht := frame_transform sin cos st st1 h1
    refine ⟨st2, ?_, ?_, ?_, ?_⟩
    · rw [frames, h1]
      exact h2
    · rw [hx, ht]
      push_cast
      ring
    · rw [hy, ht]
      push_cast
      ring
    · rw [hz, ht]
      push_cast
      ring

omit [FloorRing K] in
theorem clear_coherent (s c : Scene K) (h : clear s = some c) :
    Coherent c ∧ c.pixels.length ≤ c.depth.length := by
  have hle := clear_some_length s c h
  rw [clear_eq s hle] at h
  cases h
  constructor
  · intro i d ch hd hc
    simp only [List.getElem?_replicate] at hc
    split at hc
    · rename_i hi
      cases hc
      rw [List.getElem?_append_left (by simpa using hi), List.getElem?_replicate,
        if_pos hi] at hd
      cases hd
      exact ⟨le_refl _, fun _ => rfl⟩
    · cases hc
  · simp only [List.length_replicate, List.length_append, List.length_drop]
    omega

/-- A call of `plotPoint` that changes a cell stores a positive depth there,
and keeps the scene coherent. -/
theorem plotPoint_coherent (s s1 : Scene K) (x y z : K) (ch : Char) (offset : K)
    (hs : Coherent s ∧ s.pixels.length ≤ s.depth.length)
    (h : plotPoint s x y z ch offset = some s1) :
    (Coherent s1 ∧ s1.pixels.length ≤ s1.depth.length) ∧
    ∀ i : Nat, s1.pixels[i]? ≠ s.pixels[i]? →
      s1.depth[i]? = some (invZ z) ∧ 0 < invZ z := by
  rcases plotPoint_cases s x y z ch offset with h1 | ⟨d, _, hp, hlt, hd, hgt, h1⟩ | ⟨_, h1⟩
  · rw [h1] at h
    cases h
    exact ⟨hs, fun i hne => absurd rfl hne⟩
  · rw [h1] at h
    cases h
    have hd0 : 0 ≤ d := (hs.1 _ d _ hd (List.getElem?_eq_getElem hp)).1
    have hpos : 0 < invZ z := lt_of_le_of_lt hd0 hgt
    refine ⟨⟨?_, by simpa using hs.2⟩, ?_⟩
    · intro i e c he hc
      by_cases hi : (plotIdx s x y z offset).toNat = i
      · subst hi
        simp only [List.getElem?_set_self hlt] at he
        cases he
        exact ⟨le_of_lt hpos, fun h0 => absurd h0 (ne_of_gt hpos)⟩
      · simp only [List.getElem?_set_ne hi] at he hc
        exact hs.1 i e c he hc
    · intro i hne
      by_cases hi : (plotIdx s x y z offset).toNat = i
      · subst hi
        exact ⟨by simp only [List.getElem?_set_self hlt], hpos⟩
      · simp only [List.getElem?_set_ne hi] at hne
        exact absurd rfl hne
  · rw [h1] at h
    cases h

theorem runOps_coherent (ops : List (SceneOp K)) (c s : Scene K)
    (hc : Coherent c ∧ c.pixels.length ≤ c.depth.length) (h : runOps c ops = some s) :
    Coherent s ∧ s.pixels.length ≤ s.depth.length := by
  unfold runOps at h
  refine foldlM_option_inv
    (fun st : Scene K => Coherent st ∧ st.pixels.length ≤ st.depth.length) runOp ?_
    ops c hc s h
  intro st op st1 hst hop
  cases op with
  | plot call => exact (plotPoint_coherent st st1 _ _ _ _ _ hst hop).1
  | render sin cos cube t =>
    exact renderCube_inv
      (fun st : Scene K => Coherent st ∧ st.pixels.length ≤ st.depth.length)
      (fun a b x y z ch offset ha hb => (plotPoint_coherent a b x y z ch offset ha hb).1)
      sin cos st st1 cube t hst hop

theorem demo_plot_wrap : plotPoint demoScene 0 0 1 '#' (-3) =
    some { demoScene with
      depth := [0, 0, 0, 1, 0, 0, 0, 0],
      pixels := [' ', ' ', ' ', '#', ' ', ' ', ' ', ' '] } := by
  rw [plotPoint_of_inside demoScene 0 0 1 '#' (-3) 0
    (by rw [demo_plotIdx_wrap]; decide) (by rw [demo_plotIdx_wrap]; decide)
    (by rw [demo_plotIdx_wrap]; rfl)]
  rw [demo_plotIdx_wrap]
  simp [invZ, demoScene]

end Invariants

/-! ## The rounded model -/

section Rounded

variable {K : Type} [LinearOrderedField K] [FloorRing K]

theorem wrap64_of_fits (n : Int) (h1 : -9223372036854775808 ≤ n)
    (h2 : n < 9223372036854775808) : wrap64 n = n := by
  unfold wrap64
  omega

theorem plotPoint_eq_depthTest (s : Scene K) (x y z : K) (ch : Char) (offset : K) :
    plotPoint s x y z ch offset = depthTest s (plotIdx s x y z offset) (invZ z) ch := rfl

omit [FloorRing K] in
theorem depthTest_of_outside (s : Scene K) (idx : Int) (iz : K) (ch : Char)
    (h : idx < 0 ∨ (s.pixels.length : Int) ≤ idx) : depthTest s idx iz ch = some s := by
  unfold depthTest
  have hn : ¬ (0 ≤ idx ∧ idx < (s.pixels.length : Int)) := by omega
  simp only [hn, if_false]

omit [FloorRing K] in
theorem depthTest_of_inside (s : Scene K) (idx : Int) (iz : K) (ch : Char) (d : K)
    (h0 : 0 ≤ idx) (h1 : idx < (s.pixels.length : Int))
    (hd : s.depth[idx.toNat]? = some d) :
    depthTest s idx iz ch =
      if iz > d then
        some { s with depth := s.depth.set idx.toNat iz,
                      pixels := s.pixels.set idx.toNat ch }
      else some s := by
  unfold depthTest
  simp only [h0, h1, and_self, if_true, hd]

theorem roundHalfEven_down (x : ℚ) (f : Int) (h1 : (f : ℚ) ≤ x) (h2 : x < f + 1 / 2) :
    roundHalfEven x = f := by
  have hf : Int.floor x = f := by
    rw [Int.floor_eq_iff]
    exact ⟨h1, by linarith⟩
  unfold roundHalfEven
  rw [hf, if_pos (by linarith)]

theorem roundHalfEven_up (x : ℚ) (f : Int) (h1 : (f : ℚ) + 1 / 2 < x) (h2 : x < f + 1) :
    roundHalfEven x = f + 1 := by
  have hf : Int.floor x = f := by
    rw [Int.floor_eq_iff]
    exact ⟨by linarith, h2⟩
  unfold roundHalfEven
  rw [hf, if_neg (by linarith), if_pos (by linarith)]

theorem roundHalfEven_tie (x : ℚ) (f : Int) (h : x = f + 1 / 2) :
    roundHalfEven x = if f % 2 = 0 then f else f + 1 := by
  have hf : Int.floor x = f := by
    rw [Int.floor_eq_iff]
    exact ⟨by linarith, by linarith⟩
  unfold roundHalfEven
  rw [hf, if_neg (by linarith), if_neg (by linarith)]

/-- `f64Round` once the binary exponent of the argument is known. -/
theorem f64Round_of_exp (q : ℚ) (e : Int) (h1 : (2 : ℚ) ^ (e + 52) ≤ |q|)
    (h2 : |q| < (2 : ℚ) ^ (e + 53)) :
    f64Round q = (roundHalfEven (q / 2 ^ e) : ℚ) * 2 ^ e := by
  have hpos : 0 < |q| := lt_of_lt_of_le (by positivity) h1
  have hne : q ≠ 0 := abs_pos.mp hpos
  have hlog : Int.log 2 |q| = e + 52 := by
    apply le_antisymm
    · have := (Int.lt_zpow_iff_log_lt (b := 2) (by norm_num) (x := e + 53) hpos).mp
        (by exact_mod_cast h2)
      omega
    · exact (Int.zpow_le_iff_le_log (b := 2) (by norm_num) hpos).mp (by exact_mod_cast h1)
  unfold f64Round
  rw [if_neg hne, hlog]
  simp

theorem f64Round_zero : f64Round 0 = 0 := by
  unfold f64Round
  rw [if_pos rfl]

/-- Evaluation of `f64Round` when the scaled argument is below the midpoint. -/
theorem f64Round_down (q r : ℚ) (e f : Int) (h1 : (2 : ℚ) ^ (e + 52) ≤ |q|)
    (h2 : |q| < (2 : ℚ) ^ (e + 53)) (h3 : (f : ℚ) ≤ q / 2 ^ e)
    (h4 : q / 2 ^ e < f + 1 / 2) (hr : r = (f : ℚ) * 2 ^ e) : f64Round q = r := by
  rw [f64Round_of_exp q e h1 h2, roundHalfEven_down _ f h3 h4, hr]

/-- Evaluation of `f64Round` when the scaled argument is above the midpoint. -/
theorem f64Round_up (q r : ℚ) (e f : Int) (h1 : (2 : ℚ) ^ (e + 52) ≤ |q|)
    (h2 : |q| < (2 : ℚ) ^ (e + 53)) (h3 : (f : ℚ) + 1 / 2 < q / 2 ^ e)
    (h4 : q / 2 ^ e < f + 1) (hr : r = ((f + 1 : Int) : ℚ) * 2 ^ e) : f64Round q = r := by
  rw [f64Round_of_exp q e h1 h2, roundHalfEven_up _ f h3 h4, hr]

/-- Evaluation of `f64Round` at a midpoint whose lower neighbour is even. -/
theorem f64Round_tie_even (q r : ℚ) (e f : Int) (h1 : (2 : ℚ) ^ (e + 52) ≤ |q|)
    (h2 : |q| < (2 : ℚ) ^ (e + 53)) (h3 : q / 2 ^ e = f + 1 / 2) (hf : f % 2 = 0)
    (hr : r = (f : ℚ) * 2 ^ e) : f64Round q = r := by
  rw [f64Round_of_exp q e h1 h2, roundHalfEven_tie _ f h3, if_pos hf, hr]

/-- Evaluation of `f64Round` at a midpoint whose lower neighbour is odd. -/
theorem f64Round_tie_odd (q r : ℚ) (e f : Int) (h1 : (2 : ℚ) ^ (e + 52) ≤ |q|)
    (h2 : |q| < (2 : ℚ) ^ (e + 53)) (h3 : q / 2 ^ e = f + 1 / 2) (hf : f % 2 = 1)
    (hr : r = ((f + 1 : Int) : ℚ) * 2 ^ e) : f64Round q = r := by
  rw [f64Round_of_exp q e h1 h2, roundHalfEven_tie _ f h3, if_neg (by omega), hr]

theorem loopValuesF_lt (fuel : Nat) (size x : ℚ) (h : x < size) :
    loopValuesF (fuel + 1) size x =
      match loopValuesF fuel size (fadd x STEP_SIZE_F) with
      | some vs => some (x :: vs)
      | none => none := by
  rw [loopValuesF, if_pos h]

theorem loopValuesF_ge (fuel : Nat) (size x : ℚ) (h : ¬ x < size) :
    loopValuesF (fuel + 1) size x = some [] := by
  rw [loopValuesF, if_neg h]

theorem loopValuesF_cons (fuel : Nat) (size x x1 : ℚ) (vs : List ℚ) (h : x < size)
    (hx : fadd x STEP_SIZE_F = x1) (hrec : loopValuesF fuel size x1 = some vs) :
    loopValuesF (fuel + 1) size x = some (x :: vs) := by
  rw [loopValuesF_lt fuel size x h, hx, hrec]

/-- When the loop ends within the fuel, `forStepF` runs its body once for each
value of `loopValuesF`, in order. -/
theorem forStepF_eq_runAll {σ : Type} (size : ℚ) (body : ℚ → σ → Outcome σ) :
    ∀ (fuel : Nat) (x : ℚ) (vals : List ℚ) (st : σ),
      loopValuesF fuel size x = some vals →
      forStepF fuel size body x st = runAll body vals st := by
  intro fuel
  induction fuel with
  | zero =>
    intro x vals st h
    simp [loopValuesF] at h
  | succ n ih =>
    intro x vals st h
    by_cases hx : x < size
    · rw [loopValuesF_lt n size x hx] at h
      cases hv : loopValuesF n size (fadd x STEP_SIZE_F) with
      | none => rw [hv] at h; cases h
      | some vs =>
        rw [hv] at h
        cases h
        rw [forStepF, if_pos hx, runAll]
        cases hb : body x st with
        | done st1 => exact ih _ vs st1 hv
        | panic => rfl
        | running => rfl
    · rw [loopValuesF_ge n size x hx] at h
      cases h
      rw [forStepF, if_neg hx, runAll]

theorem STEP_SIZE_F_eq : STEP_SIZE_F = 5404319552844595 / 9007199254740992 := by
  unfold STEP_SIZE_F
  exact f64Round_down _ _ (-53) 5404319552844595 (by norm_num [abs_of_pos]) (by norm_num [abs_of_pos]) (by norm_num) (by norm_num) (by norm_num)

/-- The `float64` loop `for x := -6; x < 6; x += 0.6` runs its body for the 21
values of `floatGrid6`. -/
theorem loopValuesF_six : loopValuesF 30 6 (-6) = some floatGrid6 := by
  have h0 : fadd (-6) STEP_SIZE_F = -3039929748475085 / 562949953421312 := by
    rw [STEP_SIZE_F_eq]
    unfold fadd
    exact f64Round_down _ _ (-50) (-6079859496950170) (by norm_num [abs_of_neg]) (by norm_num [abs_of_neg]) (by norm_num) (by norm_num) (by norm_num)
  have h1 : fadd (-3039929748475085 / 562949953421312) STEP_SIZE_F = -1351079888211149 / 281474976710656 := by
    rw [STEP_SIZE_F_eq]
    unfold fadd
    exact f64Round_down _ _ (-50) (-5404319552844596) (by norm_num [abs_of_neg]) (by norm_num [abs_of_neg]) (by norm_num) (by norm_num) (by norm_num)
  have h2 : fadd (-1351079888211149 / 281474976710656) STEP_SIZE_F = -2364389804369511 / 562949953421312 := by
    rw [STEP_SIZE_F_eq]
    unfold fadd
    exact f64Round_down _ _ (-50) (-4728779608739022) (by norm_num [abs_of_neg]) (by norm_num [abs_of_neg]) (by norm_num) (by norm_num) (by norm_num)
  have h3 : fadd (-2364389804369511 / 562949953421312) STEP_SIZE_F = -8106479329266895 / 2251799813685248 := by
    rw [STEP_SIZE_F_eq]
    unfold fadd
    exact f64Round_up _ _ (-51) (-8106479329266896) (by norm_num [abs_of_neg]) (by norm_num [abs_of_neg]) (by norm_num) (by norm_num) (by norm_num)
  have h4 : fadd (-8106479329266895 / 2251799813685248) STEP_SIZE_F = -3377699720527873 / 1125899906842624 := by
    rw [STEP_SIZE_F_eq]
    unfold fadd
    exact f64Round_up _ _ (-51) (-6755399441055747) (by norm_num [abs_of_neg]) (by norm_num [abs_of_neg]) (by norm_num) (by norm_num) (by norm_num)
  have h5 : fadd (-3377699720527873 / 1125899906842624) STEP_SIZE_F = -5404319552844597 / 2251799813685248 := by
    rw [STEP_SIZE_F_eq]
    unfold fadd
    exact f64Round_up _ _ (-51) (-5404319552844598) (by norm_num [abs_of_neg]) (by norm_num [abs_of_neg]) (by norm_num) (by norm_num) (by norm_num)
  have h6 : fadd (-5404319552844597 / 2251799813685248) STEP_SIZE_F = -506654958079181 / 281474976710656 := by
    rw [STEP_SIZE_F_eq]
    unfold fadd
    exact f64Round_tie_odd _ _ (-52) (-8106479329266897) (by norm_num [abs_of_neg]) (by norm_num [abs_of_neg]) (by norm_num) (by decide) (by norm_num)
  have h7 : fadd (-506654958079181 / 281474976710656) STEP_SIZE_F = -2702159776422299 / 2251799813685248 := by
    rw [STEP_SIZE_F_eq]
    unfold fadd
    exact f64Round_tie_odd _ _ (-52) (-5404319552844599) (by norm_num [abs_of_neg]) (by norm_num [abs_of_neg]) (by norm_num) (by decide) (by norm_num)
  have h8 : fadd (-2702159776422299 / 2251799813685248) STEP_SIZE_F = -5404319552844601 / 9007199254740992 := by
    rw [STEP_SIZE_F_eq]
    unfold fadd
    exact f64Round_down _ _ (-53) (-5404319552844601) (by norm_num [abs_of_neg]) (by norm_num [abs_of_neg]) (by norm_num) (by norm_num) (by norm_num)
  have h9 : fadd (-5404319552844601 / 9007199254740992) STEP_SIZE_F = -3 / 4503599627370496 := by
    rw [STEP_SIZE_F_eq]
    unfold fadd
    exact f64Round_down _ _ (-103) (-6755399441055744) (by norm_num [abs_of_neg]) (by norm_num [abs_of_neg]) (by norm_num) (by norm_num) (by norm_num)
  have h10 : fadd (-3 / 4503599627370496) STEP_SIZE_F = 5404319552844589 / 9007199254740992 := by
    rw [STEP_SIZE_F_eq]
    unfold fadd
    exact f64Round_down _ _ (-53) 5404319552844589 (by norm_num [abs_of_pos]) (by norm_num [abs_of_pos]) (by norm_num) (by norm_num) (by norm_num)
  have h11 : fadd (5404319552844589 / 9007199254740992) STEP_SIZE_F = 337769972052787 / 281474976710656 := by
    rw [STEP_SIZE_F_eq]
    unfold fadd
    exact f64Round_down _ _ (-52) 5404319552844592 (by norm_num [abs_of_pos]) (by norm_num [abs_of_pos]) (by norm_num) (by norm_num) (by norm_num)
  have h12 : fadd (337769972052787 / 281474976710656) STEP_SIZE_F = 4053239664633445 / 2251799813685248 := by
    rw [STEP_SIZE_F_eq]
    unfold fadd
    exact f64Round_tie_odd _ _ (-52) 8106479329266889 (by norm_num [abs_of_pos]) (by norm_num [abs_of_pos]) (by norm_num) (by decide) (by norm_num)
  have h13 : fadd (4053239664633445 / 2251799813685248) STEP_SIZE_F = 2702159776422297 / 1125899906842624 := by
    rw [STEP_SIZE_F_eq]
    unfold fadd
    exact f64Round_up _ _ (-51) 5404319552844593 (by norm_num [abs_of_pos]) (by norm_num [abs_of_pos]) (by norm_num) (by norm_num) (by norm_num)
  have h14 : fadd (2702159776422297 / 1125899906842624) STEP_SIZE_F = 6755399441055743 / 2251799813685248 := by
    rw [STEP_SIZE_F_eq]
    unfold fadd
    exact f64Round_up _ _ (-51) 6755399441055742 (by norm_num [abs_of_pos]) (by norm_num [abs_of_pos]) (by norm_num) (by norm_num) (by norm_num)
  have h15 : fadd (6755399441055743 / 2251799813685248) STEP_SIZE_F = 2026619832316723 / 562949953421312 := by
    rw [STEP_SIZE_F_eq]
    unfold fadd
    exact f64Round_up _ _ (-51) 8106479329266891 (by norm_num [abs_of_pos]) (by norm_num [abs_of_pos]) (by norm_num) (by norm_num) (by norm_num)
  have h16 : fadd (2026619832316723 / 562949953421312) STEP_SIZE_F = 1182194902184755 / 281474976710656 := by
    rw [STEP_SIZE_F_eq]
    unfold fadd
    exact f64Round_down _ _ (-50) 4728779608739020 (by norm_num [abs_of_pos]) (by norm_num [abs_of_pos]) (by norm_num) (by norm_num) (by norm_num)
  have h17 : fadd (1182194902184755 / 281474976710656) STEP_SIZE_F = 2702159776422297 / 562949953421312 := by
    rw [STEP_SIZE_F_eq]
    unfold fadd
    exact f64Round_down _ _ (-50) 5404319552844594 (by norm_num [abs_of_pos]) (by norm_num [abs_of_pos]) (by norm_num) (by norm_num) (by norm_num)
  have h18 : fadd (2702159776422297 / 562949953421312) STEP_SIZE_F = 759982437118771 / 140737488355328 := by
    rw [STEP_SIZE_F_eq]
    unfold fadd
    exact f64Round_down _ _ (-50) 6079859496950168 (by norm_num [abs_of_pos]) (by norm_num [abs_of_pos]) (by norm_num) (by norm_num) (by norm_num)
  have h19 : fadd (759982437118771 / 140737488355328) STEP_SIZE_F = 3377699720527871 / 562949953421312 := by
    rw [STEP_SIZE_F_eq]
    unfold fadd
    exact f64Round_down _ _ (-50) 6755399441055742 (by norm_num [abs_of_pos]) (by norm_num [abs_of_pos]) (by norm_num) (by norm_num) (by norm_num)
  have h20 : fadd (3377699720527871 / 562949953421312) STEP_SIZE_F = 1857734846290329 / 281474976710656 := by
    rw [STEP_SIZE_F_eq]
    unfold fadd
    exact f64Round_down _ _ (-50) 7430939385161316 (by norm_num [abs_of_pos]) (by norm_num [abs_of_pos]) (by norm_num) (by norm_num) (by norm_num)
  have l21 : loopValuesF 9 6 (1857734846290329 / 281474976710656) = some [] :=
    loopValuesF_ge 8 6 _ (by norm_num)
  have l20 : loopValuesF 10 6 (3377699720527871 / 562949953421312) = some [3377699720527871 / 562949953421312] :=
    loopValuesF_cons 9 6 _ _ _ (by norm_num) h20 l21
  have l19 : loopValuesF 11 6 (759982437118771 / 140737488355328) = some [759982437118771 / 140737488355328, 3377699720527871 / 562949953421312] :=
    loopValuesF_cons 10 6 _ _ _ (by norm_num) h19 l20
  have l18 : loopValuesF 12 6 (2702159776422297 / 562949953421312) = some [2702159776422297 / 562949953421312, 759982437118771 / 140737488355328, 3377699720527871 / 562949953421312] :=
    loopValuesF_cons 11 6 _ _ _ (by norm_num) h18 l19
  have l17 : loopValuesF 13 6 (1182194902184755 / 281474976710656) = some [1182194902184755 / 281474976710656, 2702159776422297 / 562949953421312, 759982437118771 / 140737488355328, 3377699720527871 / 562949953421312] :=
    loopValuesF_cons 12 6 _ _ _ (by norm_num) h17 l18
  have l16 : loopValuesF 14 6 (2026619832316723 / 562949953421312) = some [2026619832316723 / 562949953421312, 1182194902184755 / 281474976710656, 2702159776422297 / 562949953421312, 759982437118771 / 140737488355328, 3377699720527871 / 562949953421312] :=
    loopValuesF_cons 13 6 _ _ _ (by norm_num) h16 l17
  have l15 : loopValuesF 15 6 (6755399441055743 / 2251799813685248) = some [6755399441055743 / 2251799813685248, 2026619832316723 / 562949953421312, 1182194902184755 / 281474976710656, 2702159776422297 / 562949953421312, 759982437118771 / 140737488355328, 3377699720527871 / 562949953421312] :=
    loopValuesF_cons 14 6 _ _ _ (by norm_num) h15 l16
  have l14 : loopValuesF 16 6 (2702159776422297 / 1125899906842624) = some [2702159776422297 / 1125899906842624, 6755399441055743 / 2251799813685248, 2026619832316723 / 562949953421312, 1182194902184755 / 281474976710656, 2702159776422297 / 562949953421312, 759982437118771 / 140737488355328, 3377699720527871 / 562949953421312] :=
    loopValuesF_cons 15 6 _ _ _ (by norm_num) h14 l15
  have l13 : loopValuesF 17 6 (4053239664633445 / 2251799813685248) = some [4053239664633445 / 2251799813685248, 2702159776422297 / 1125899906842624, 6755399441055743 / 2251799813685248, 2026619832316723 / 562949953421312, 1182194902184755 / 281474976710656, 2702159776422297 / 562949953421312, 759982437118771 / 140737488355328, 3377699720527871 / 562949953421312] :=
    loopValuesF_cons 16 6 _ _ _ (by norm_num) h13 l14
  have l12 : loopValuesF 18 6 (337769972052787 / 281474976710656) = some [337769972052787 / 281474976710656, 4053239664633445 / 2251799813685248, 2702159776422297 / 1125899906842624, 6755399441055743 / 2251799813685248, 2026619832316723 / 562949953421312, 1182194902184755 / 281474976710656, 2702159776422297 / 562949953421312, 759982437118771 / 140737488355328, 3377699720527871 / 562949953421312] :=
    loopValuesF_cons 17 6 _ _ _ (by norm_num) h12 l13
  have l11 : loopValuesF 19 6 (5404319552844589 / 9007199254740992) = some [5404319552844589 / 9007199254740992, 337769972052787 / 281474976710656, 4053239664633445 / 2251799813685248, 2702159776422297 / 1125899906842624, 6755399441055743 / 2251799813685248, 2026619832316723 / 562949953421312, 1182194902184755 / 281474976710656, 2702159776422297 / 562949953421312, 759982437118771 / 140737488355328, 3377699720527871 / 562949953421312] :=
    loopValuesF_cons 18 6 _ _ _ (by norm_num) h11 l12
  have l10 : loopValuesF 20 6 (-3 / 4503599627370496) = some [-3 / 4503599627370496, 5404319552844589 / 9007199254740992, 337769972052787 / 281474976710656, 4053239664633445 / 2251799813685248, 2702159776422297 / 1125899906842624, 6755399441055743 / 2251799813685248, 2026619832316723 / 562949953421312, 1182194902184755 / 281474976710656, 2702159776422297 / 562949953421312, 759982437118771 / 140737488355328, 3377699720527871 / 562949953421312] :=
    loopValuesF_cons 19 6 _ _ _ (by norm_num) h10 l11
  have l9 : loopValuesF 21 6 (-5404319552844601 / 9007199254740992) = some [-5404319552844601 / 9007199254740992, -3 / 4503599627370496, 5404319552844589 / 9007199254740992, 337769972052787 / 281474976710656, 4053239664633445 / 2251799813685248, 2702159776422297 / 1125899906842624, 6755399441055743 / 2251799813685248, 2026619832316723 / 562949953421312, 1182194902184755 / 281474976710656, 2702159776422297 / 562949953421312, 759982437118771 / 140737488355328, 3377699720527871 / 562949953421312] :=
    loopValuesF_cons 20 6 _ _ _ (by norm_num) h9 l10
  have l8 : loopValuesF 22 6 (-2702159776422299 / 2251799813685248) = some [-2702159776422299 / 2251799813685248, -5404319552844601 / 9007199254740992, -3 / 4503599627370496, 5404319552844589 / 9007199254740992, 337769972052787 / 281474976710656, 4053239664633445 / 2251799813685248, 2702159776422297 / 1125899906842624, 6755399441055743 / 2251799813685248, 2026619832316723 / 562949953421312, 1182194902184755 / 281474976710656, 2702159776422297 / 562949953421312, 759982437118771 / 140737488355328, 3377699720527871 / 562949953421312] :=
    loopValuesF_cons 21 6 _ _ _ (by norm_num) h8 l9
  have l7 : loopValuesF 23 6 (-506654958079181 / 281474976710656) = some [-506654958079181 / 281474976710656, -2702159776422299 / 2251799813685248, -5404319552844601 / 9007199254740992, -3 / 4503599627370496, 5404319552844589 / 9007199254740992, 337769972052787 / 281474976710656, 4053239664633445 / 2251799813685248, 2702159776422297 / 1125899906842624, 6755399441055743 / 2251799813685248, 2026619832316723 / 562949953421312, 1182194902184755 / 281474976710656, 2702159776422297 / 562949953421312, 759982437118771 / 140737488355328, 3377699720527871 / 562949953421312] :=
    loopValuesF_cons 22 6 _ _ _ (by norm_num) h7 l8
  have l6 : loopValuesF 24 6 (-5404319552844597 / 2251799813685248) = some [-5404319552844597 / 2251799813685248, -506654958079181 / 281474976710656, -2702159776422299 / 2251799813685248, -5404319552844601 / 9007199254740992, -3 / 4503599627370496, 5404319552844589 / 9007199254740992, 337769972052787 / 281474976710656, 4053239664633445 / 2251799813685248, 2702159776422297 / 1125899906842624, 6755399441055743 / 2251799813685248, 2026619832316723 / 562949953421312, 1182194902184755 / 281474976710656, 2702159776422297 / 562949953421312, 759982437118771 / 140737488355328, 3377699720527871 / 562949953421312] :=
    loopValuesF_cons 23 6 _ _ _ (by norm_num) h6 l7
  have l5 : loopValuesF 25 6 (-3377699720527873 / 1125899906842624) = some [-3377699720527873 / 1125899906842624, -5404319552844597 / 2251799813685248, -506654958079181 / 281474976710656, -2702159776422299 / 2251799813685248, -5404319552844601 / 9007199254740992, -3 / 4503599627370496, 5404319552844589 / 9007199254740992, 337769972052787 / 281474976710656, 4053239664633445 / 2251799813685248, 2702159776422297 / 1125899906842624, 6755399441055743 / 2251799813685248, 2026619832316723 / 562949953421312, 1182194902184755 / 281474976710656, 2702159776422297 / 562949953421312, 759982437118771 / 140737488355328, 3377699720527871 / 562949953421312] :=
    loopValuesF_cons 24 6 _ _ _ (by norm_num) h5 l6
  have l4 : loopValuesF 26 6 (-8106479329266895 / 2251799813685248) = some [-8106479329266895 / 2251799813685248, -3377699720527873 / 1125899906842624, -5404319552844597 / 2251799813685248, -506654958079181 / 281474976710656, -2702159776422299 / 2251799813685248, -5404319552844601 / 9007199254740992, -3 / 4503599627370496, 5404319552844589 / 9007199254740992, 337769972052787 / 281474976710656, 4053239664633445 / 2251799813685248, 2702159776422297 / 1125899906842624, 6755399441055743 / 2251799813685248, 2026619832316723 / 562949953421312, 1182194902184755 / 281474976710656, 2702159776422297 / 562949953421312, 759982437118771 / 140737488355328, 3377699720527871 / 562949953421312] :=
    loopValuesF_cons 25 6 _ _ _ (by norm_num) h4 l5
  have l3 : loopValuesF 27 6 (-2364389804369511 / 562949953421312) = some [-2364389804369511 / 562949953421312, -8106479329266895 / 2251799813685248, -3377699720527873 / 1125899906842624, -5404319552844597 / 2251799813685248, -506654958079181 / 281474976710656, -2702159776422299 / 2251799813685248, -5404319552844601 / 9007199254740992, -3 / 4503599627370496, 5404319552844589 / 9007199254740992, 337769972052787 / 281474976710656, 4053239664633445 / 2251799813685248, 2702159776422297 / 1125899906842624, 6755399441055743 / 2251799813685248, 2026619832316723 / 562949953421312, 1182194902184755 / 281474976710656, 2702159776422297 / 562949953421312, 759982437118771 / 140737488355328, 3377699720527871 / 562949953421312] :=
    loopValuesF_cons 26 6 _ _ _ (by norm_num) h3 l4
  have l2 : loopValuesF 28 6 (-1351079888211149 / 281474976710656) = some [-1351079888211149 / 281474976710656, -2364389804369511 / 562949953421312, -8106479329266895 / 2251799813685248, -3377699720527873 / 1125899906842624, -5404319552844597 / 2251799813685248, -506654958079181 / 281474976710656, -2702159776422299 / 2251799813685248, -5404319552844601 / 9007199254740992, -3 / 4503599627370496, 5404319552844589 / 9007199254740992, 337769972052787 / 281474976710656, 4053239664633445 / 2251799813685248, 2702159776422297 / 1125899906842624, 6755399441055743 / 2251799813685248, 2026619832316723 / 562949953421312, 1182194902184755 / 281474976710656, 2702159776422297 / 562949953421312, 759982437118771 / 140737488355328, 3377699720527871 / 562949953421312] :=
    loopValuesF_cons 27 6 _ _ _ (by norm_num) h2 l3
  have l1 : loopValuesF 29 6 (-3039929748475085 / 562949953421312) = some [-3039929748475085 / 562949953421312, -1351079888211149 / 281474976710656, -2364389804369511 / 562949953421312, -8106479329266895 / 2251799813685248, -3377699720527873 / 1125899906842624, -5404319552844597 / 2251799813685248, -506654958079181 / 281474976710656, -2702159776422299 / 2251799813685248, -5404319552844601 / 9007199254740992, -3 / 4503599627370496, 5404319552844589 / 9007199254740992, 337769972052787 / 281474976710656, 4053239664633445 / 2251799813685248, 2702159776422297 / 1125899906842624, 6755399441055743 / 2251799813685248, 2026619832316723 / 562949953421312, 1182194902184755 / 281474976710656, 2702159776422297 / 562949953421312, 759982437118771 / 140737488355328, 3377699720527871 / 562949953421312] :=
    loopValuesF_cons 28 6 _ _ _ (by norm_num) h1 l2
  have l0 : loopValuesF 30 6 (-6) = some [-6, -3039929748475085 / 562949953421312, -1351079888211149 / 281474976710656, -2364389804369511 / 562949953421312, -8106479329266895 / 2251799813685248, -3377699720527873 / 1125899906842624, -5404319552844597 / 2251799813685248, -506654958079181 / 281474976710656, -2702159776422299 / 2251799813685248, -5404319552844601 / 9007199254740992, -3 / 4503599627370496, 5404319552844589 / 9007199254740992, 337769972052787 / 281474976710656, 4053239664633445 / 2251799813685248, 2702159776422297 / 1125899906842624, 6755399441055743 / 2251799813685248, 2026619832316723 / 562949953421312, 1182194902184755 / 281474976710656, 2702159776422297 / 562949953421312, 759982437118771 / 140737488355328, 3377699720527871 / 562949953421312] :=
    loopValuesF_cons 29 6 _ _ _ (by norm_num) h0 l1
  exact l0

theorem f64Round_neg33 : f64Round (-33) = -33 :=
  f64Round_down _ _ (-47) (-4644337115725824) (by norm_num [abs_of_neg]) (by norm_num [abs_of_neg]) (by norm_num) (by norm_num) (by norm_num)

theorem f64Round_neg56 : f64Round (-56) = -56 :=
  f64Round_down _ _ (-47) (-7881299347898368) (by norm_num [abs_of_neg]) (by norm_num [abs_of_neg]) (by norm_num) (by norm_num) (by norm_num)

theorem f64Round_44 : f64Round 44 = 44 :=
  f64Round_down _ _ (-47) 6192449487634432 (by norm_num [abs_of_pos]) (by norm_num [abs_of_pos]) (by norm_num) (by norm_num) (by norm_num)

theorem f64Round_160 : f64Round 160 = 160 :=
  f64Round_down _ _ (-45) 5629499534213120 (by norm_num [abs_of_pos]) (by norm_num [abs_of_pos]) (by norm_num) (by norm_num) (by norm_num)

theorem f64Round_80 : f64Round 80 = 80 :=
  f64Round_down _ _ (-46) 5629499534213120 (by norm_num [abs_of_pos]) (by norm_num [abs_of_pos]) (by norm_num) (by norm_num) (by norm_num)

theorem f64Round_22 : f64Round 22 = 22 :=
  f64Round_down _ _ (-48) 6192449487634432 (by norm_num [abs_of_pos]) (by norm_num [abs_of_pos]) (by norm_num) (by norm_num) (by norm_num)

theorem invZF_44 : invZF 44 = 3275345183542179 / 144115188075855872 := by
  unfold invZF fdiv
  exact f64Round_up _ _ (-58) 6550690367084357 (by norm_num [abs_of_pos]) (by norm_num [abs_of_pos]) (by norm_num) (by norm_num) (by norm_num)

/-- The `float64` value of `PERSPECTIVE*invZ` for `z = 44`. -/
theorem perspective_invZF_44 : fmul (PERSPECTIVE : ℚ) (invZF 44) = 1023545369856931 / 1125899906842624 := by
  have hP : (PERSPECTIVE : ℚ) = 40 := by simp [PERSPECTIVE]
  rw [invZF_44, hP]
  unfold fmul
  exact f64Round_tie_odd _ _ (-53) 8188362958855447 (by norm_num [abs_of_pos]) (by norm_num [abs_of_pos]) (by norm_num) (by decide) (by norm_num)

theorem newScene_width : (((NewScene : Scene ℚ).displayWidth : Int) : ℚ) = 160 := by
  simp only [NewScene, DISPLAY_WIDTH]
  norm_num

theorem newScene_height : (((NewScene : Scene ℚ).displayHeight : Int) : ℚ) = 44 := by
  simp only [NewScene, DISPLAY_HEIGHT]
  norm_num

/-- In `float64` arithmetic the column of the point `(-33, 0, 44)` at offset 0
on the 160 x 44 scene is 19: the sum `80 + 40*(1/44)*(-33)*2` is rounded to
`19.999999999999993`. -/
theorem screenXF_case : screenXF NewScene (-33) 44 0 = 19 := by
  have h1 : fdiv (f64Round (((NewScene : Scene ℚ).displayWidth : Int) : ℚ)) 2 = 80 := by
    rw [newScene_width, f64Round_160]
    unfold fdiv
    rw [show (160 : ℚ) / 2 = 80 by norm_num, f64Round_80]
  have h2 : fadd 80 0 = 80 := by
    unfold fadd
    rw [add_zero, f64Round_80]
  have h3 : fmul (1023545369856931 / 1125899906842624) (-33) = -8444249301319681 / 281474976710656 := by
    unfold fmul
    exact f64Round_down _ _ (-48) (-8444249301319681) (by norm_num [abs_of_neg]) (by norm_num [abs_of_neg]) (by norm_num) (by norm_num) (by norm_num)
  have h4 : fmul (-8444249301319681 / 281474976710656) 2 = -8444249301319681 / 140737488355328 := by
    unfold fmul
    exact f64Round_down _ _ (-47) (-8444249301319681) (by norm_num [abs_of_neg]) (by norm_num [abs_of_neg]) (by norm_num) (by norm_num) (by norm_num)
  have h5 : fadd 80 (-8444249301319681 / 140737488355328) = 2814749767106559 / 140737488355328 := by
    unfold fadd
    exact f64Round_down _ _ (-48) 5629499534213118 (by norm_num [abs_of_pos]) (by norm_num [abs_of_pos]) (by norm_num) (by norm_num) (by norm_num)
  unfold screenXF
  rw [h1, h2, perspective_invZF_44, h3, h4, h5]
  unfold goInt
  rw [if_pos (by norm_num), Int.floor_eq_iff]
  constructor <;> norm_num

/-- In `float64` arithmetic the row of the point `(-33, 0, 44)` on the
160 x 44 scene is 22. -/
theorem screenYF_case : screenYF NewScene 0 44 = 22 := by
  have h1 : fdiv (f64Round (((NewScene : Scene ℚ).displayHeight : Int) : ℚ)) 2 = 22 := by
    rw [newScene_height, f64Round_44]
    unfold fdiv
    rw [show (44 : ℚ) / 2 = 22 by norm_num, f64Round_22]
  have h2 : fmul (1023545369856931 / 1125899906842624) 0 = 0 := by
    unfold fmul
    rw [mul_zero, f64Round_zero]
  have h3 : fadd 22 0 = 22 := by
    unfold fadd
    rw [add_zero, f64Round_22]
  unfold screenYF
  rw [h1, perspective_invZF_44, h2, h3]
  exact goInt_eq _ 22 (by norm_num)

theorem plotIdxF_case : plotIdxF NewScene (-33) 0 44 0 = 3539 := by
  unfold plotIdxF
  rw [screenXF_case, screenYF_case]
  rfl

/-- In `float64` arithmetic, with `math.Sin(0) = 0` and `math.Cos(0) = 1`, the
point `(-33, 0, -56)` is projected to `(-33, 0, 44)` by the zero transform. -/
theorem project3Dto2DF_case :
    project3Dto2DF (fun _ => 0) (fun _ => 1) (-33) 0 (-56) zeroTransform = (-33, 0, 44) := by
  norm_num [project3Dto2DF, zeroTransform, fmul, fadd, fsub, f64Round_zero, CAMERA_DIST,
    f64Round_neg33, f64Round_neg56, f64Round_44]

theorem f64Round_1 : f64Round 1 = 1 :=
  f64Round_down _ _ (-52) 4503599627370496 (by norm_num [abs_of_pos]) (by norm_num [abs_of_pos]) (by norm_num) (by norm_num) (by norm_num)

theorem f64Round_2 : f64Round 2 = 2 :=
  f64Round_down _ _ (-51) 4503599627370496 (by norm_num [abs_of_pos]) (by norm_num [abs_of_pos]) (by norm_num) (by norm_num) (by norm_num)

theorem f64Round_4 : f64Round 4 = 4 :=
  f64Round_down _ _ (-50) 4503599627370496 (by norm_num [abs_of_pos]) (by norm_num [abs_of_pos]) (by norm_num) (by norm_num) (by norm_num)

theorem f64Round_40 : f64Round 40 = 40 :=
  f64Round_down _ _ (-47) 5629499534213120 (by norm_num [abs_of_pos]) (by norm_num [abs_of_pos]) (by norm_num) (by norm_num) (by norm_num)

theorem f64Round_41 : f64Round 41 = 41 :=
  f64Round_down _ _ (-47) 5770237022568448 (by norm_num [abs_of_pos]) (by norm_num [abs_of_pos]) (by norm_num) (by norm_num) (by norm_num)

theorem demo_screenXF_mid : screenXF demoScene 0 1 0 = 2 := by
  have hP : (PERSPECTIVE : ℚ) = 40 := by simp [PERSPECTIVE]
  have hw : ((demoScene.displayWidth : Int) : ℚ) = 4 := by simp [demoScene]
  unfold screenXF invZF
  rw [hw, hP]
  norm_num [fdiv, fmul, fadd, f64Round_zero, f64Round_1, f64Round_2, f64Round_4, f64Round_40]
  exact goInt_eq _ 2 (by norm_num)

theorem demo_screenYF_far : screenYF demoScene 1 1 = 41 := by
  have hP : (PERSPECTIVE : ℚ) = 40 := by simp [PERSPECTIVE]
  have hh : ((demoScene.displayHeight : Int) : ℚ) = 2 := by simp [demoScene]
  unfold screenYF invZF
  rw [hh, hP]
  norm_num [fdiv, fmul, fadd, f64Round_1, f64Round_2, f64Round_40, f64Round_41]
  exact goInt_eq _ 41 (by norm_num)

/-- In `float64` and 64-bit arithmetic the index wraps: on the 160 x 44 scene
the call `plotPoint(0, 2^56, 1, ch, 0)` has column 80 and row `5 * 2^59` (the
`+ 22` is lost in rounding), the product `screenY * 160` wraps to 0 and the
index is 80. -/
theorem plotIdxF_overflow_case :
    screenXF NewScene 0 1 0 = 80 ∧ screenYF NewScene 72057594037927936 1 = 2882303761517117440 ∧
    plotIdxF NewScene 0 72057594037927936 1 0 = 80 := by
  have hP : (PERSPECTIVE : ℚ) = 40 := by simp [PERSPECTIVE]
  have hi : invZF 1 = 1 := by
    unfold invZF fdiv
    rw [show (1 : ℚ) / 1 = 1 by norm_num, f64Round_1]
  have hp : fmul (PERSPECTIVE : ℚ) (invZF 1) = 40 := by
    rw [hi, hP]
    unfold fmul
    rw [mul_one, f64Round_40]
  have hx : screenXF NewScene 0 1 0 = 80 := by
    have h1 : fdiv (f64Round (((NewScene : Scene ℚ).displayWidth : Int) : ℚ)) 2 = 80 := by
      rw [newScene_width, f64Round_160]
      unfold fdiv
      rw [show (160 : ℚ) / 2 = 80 by norm_num, f64Round_80]
    have h2 : fadd 80 0 = 80 := by
      unfold fadd
      rw [add_zero, f64Round_80]
    have h3 : fmul (fmul 40 0) 2 = 0 := by
      unfold fmul
      rw [mul_zero, f64Round_zero, zero_mul, f64Round_zero]
    unfold screenXF
    rw [h1, h2, hp, h3, h2]
    exact goInt_eq _ 80 (by norm_num)
  have hy : screenYF NewScene 72057594037927936 1 = 2882303761517117440 := by
    have h1 : fdiv (f64Round (((NewScene : Scene ℚ).displayHeight : Int) : ℚ)) 2 = 22 := by
      rw [newScene_height, f64Round_44]
      unfold fdiv
      rw [show (44 : ℚ) / 2 = 22 by norm_num, f64Round_22]
    have h2 : fmul 40 72057594037927936 = 2882303761517117440 := by
      unfold fmul
      exact f64Round_down _ _ 9 5629499534213120 (by norm_num [abs_of_pos]) (by norm_num [abs_of_pos]) (by norm_num) (by norm_num) (by norm_num)
    have h3 : fadd 22 2882303761517117440 = 2882303761517117440 := by
      unfold fadd
      exact f64Round_down _ _ 9 5629499534213120 (by norm_num [abs_of_pos]) (by norm_num [abs_of_pos]) (by norm_num) (by norm_num) (by norm_num)
    unfold screenYF
    rw [h1, hp, h2, h3]
    exact goInt_eq _ 2882303761517117440 (by norm_num)
  refine ⟨hx, hy, ?_⟩
  unfold plotIdxF
  rw [hx, hy]
  rfl

end Rounded

/-! ## The claims -/

section Claims

variable {K : Type} [LinearOrderedField K] [FloorRing K]

/-- C1: depth test of `plotPoint`.  On a scene whose `pixels` and `depth` have
equal length, a call whose index `idx` is within `[0, len(pixels))` returns;
if `invZ > depth[idx]` the cell then holds `invZ` and `ch`, otherwise the cell
keeps its depth and character; every other cell and the fields
`displayWidth`, `displayHeight`, `bgChar` (and both lengths) are unchanged. -/
theorem plotPoint_depth_test (s : Scene K) (x y z : K) (ch : Char) (offset : K)
    (hlen : s.pixels.length = s.depth.length)
    (h0 : 0 ≤ plotIdx s x y z offset)
    (h1 : plotIdx s x y z offset < (s.pixels.length : Int)) :
    ∃ s1 d c, plotPoint s x y z ch offset = some s1 ∧
      s.depth[(plotIdx s x y z offset).toNat]? = some d ∧
      s.pixels[(plotIdx s x y z offset).toNat]? = some c ∧
      (invZ z > d →
        s1.depth[(plotIdx s x y z offset).toNat]? = some (invZ z) ∧
        s1.pixels[(plotIdx s x y z offset).toNat]? = some ch) ∧
      (¬ invZ z > d →
        s1.depth[(plotIdx s x y z offset).toNat]? = some d ∧
        s1.pixels[(plotIdx s x y z offset).toNat]? = some c) ∧
      (∀ j : Nat, j ≠ (plotIdx s x y z offset).toNat →
        s1.depth[j]? = s.depth[j]? ∧ s1.pixels[j]? = s.pixels[j]?) ∧
      s1.pixels.length = s.pixels.length ∧ s1.depth.length = s.depth.length ∧
      s1.displayWidth = s.displayWidth ∧ s1.displayHeight = s.displayHeight ∧
      s1.bgChar = s.bgChar := by
  have hp : (plotIdx s x y z offset).toNat < s.pixels.length := by omega
  have hd : (plotIdx s x y z offset).toNat < s.depth.length := by omega
  have hdep := List.getElem?_eq_getElem hd
  have hpix := List.getElem?_eq_getElem hp
  by_cases hgt : invZ z > s.depth[(plotIdx s x y z offset).toNat]
  · refine ⟨{ s with depth := s.depth.set (plotIdx s x y z offset).toNat (invZ z),
                       pixels := s.pixels.set (plotIdx s x y z offset).toNat ch },
      _, _, ?_, hdep, hpix, ?_⟩
    · rw [plotPoint_of_inside s x y z ch offset _ h0 h1 hdep, if_pos hgt]
    · refine ⟨fun _ => ⟨?_, ?_⟩, fun hn => absurd hgt hn, fun j hj => ⟨?_, ?_⟩, ?_⟩
      · exact List.getElem?_set_self hd
      · exact List.getElem?_set_self hp
      · exact List.getElem?_set_ne (Ne.symm hj)
      · exact List.getElem?_set_ne (Ne.symm hj)
      · simp
  · refine ⟨s, _, _, ?_, hdep, hpix, ?_⟩
    · rw [plotPoint_of_inside s x y z ch offset _ h0 h1 hdep, if_neg hgt]
    · exact ⟨fun hy => absurd hy hgt, fun _ => ⟨hdep, hpix⟩, fun _ _ => ⟨rfl, rfl⟩,
        rfl, rfl, rfl, rfl, rfl⟩

/-- Witness for C1 on the 4 x 2 blank scene: the point with `z = 1` and offset
`-3` has index 3 and passes the depth test. -/
theorem plotPoint_depth_test_witness :
    ∃ s1 d c, plotPoint demoScene 0 0 1 '#' (-3) = some s1 ∧
      demoScene.depth[(plotIdx demoScene 0 0 1 (-3)).toNat]? = some d ∧
      demoScene.pixels[(plotIdx demoScene 0 0 1 (-3)).toNat]? = some c ∧
      (invZ (1 : ℚ) > d →
        s1.depth[(plotIdx demoScene 0 0 1 (-3)).toNat]? = some (invZ 1) ∧
        s1.pixels[(plotIdx demoScene 0 0 1 (-3)).toNat]? = some '#') ∧
      (¬ invZ (1 : ℚ) > d →
        s1.depth[(plotIdx demoScene 0 0 1 (-3)).toNat]? = some d ∧
        s1.pixels[(plotIdx demoScene 0 0 1 (-3)).toNat]? = some c) ∧
      (∀ j : Nat, j ≠ (plotIdx demoScene 0 0 1 (-3)).toNat →
        s1.depth[j]? = demoScene.depth[j]? ∧ s1.pixels[j]? = demoScene.pixels[j]?) ∧
      s1.pixels.length = demoScene.pixels.length ∧
      s1.depth.length = demoScene.depth.length ∧
      s1.displayWidth = demoScene.displayWidth ∧
      s1.displayHeight = demoScene.displayHeight ∧
      s1.bgChar = demoScene.bgChar :=
  plotPoint_depth_test demoScene 0 0 1 '#' (-3) (by decide)
    (by rw [demo_plotIdx_wrap]; decide) (by rw [demo_plotIdx_wrap]; decide)

/-- C4: bounds policy on the linear index.  A call of `plotPoint` whose index
`idx = screenX + screenY*displayWidth` is negative or at least `len(pixels)`
(which is `displayWidth*displayHeight` for a scene built by `NewScene`)
returns the scene it was given: both arrays are unchanged and nothing panics,
whatever the lengths of the arrays. -/
theorem plotPoint_index_out_of_range (s : Scene K) (x y z : K) (ch : Char) (offset : K)
    (h : plotIdx s x y z offset < 0 ∨ (s.pixels.length : Int) ≤ plotIdx s x y z offset) :
    plotPoint s x y z ch offset = some s :=
  plotPoint_of_outside s x y z ch offset h

/-- Witness for C4: offset `10` on the 4 x 2 scene gives index 16, outside the
8 cells. -/
theorem plotPoint_index_out_of_range_witness :
    (plotIdx demoScene 0 0 1 10 < 0 ∨
      (demoScene.pixels.length : Int) ≤ plotIdx demoScene 0 0 1 10) ∧
    plotPoint demoScene 0 0 1 '#' 10 = some demoScene :=
  ⟨Or.inr (by rw [demo_plotIdx_far]; decide),
   plotPoint_index_out_of_range demoScene 0 0 1 '#' 10
     (Or.inr (by rw [demo_plotIdx_far]; decide))⟩

/-- C5, as stated, fails: on the 4 x 2 blank scene the point with `z = 1` and
offset `-3` has `screenX = -1` (left of the screen) and `screenY = 1`, its
linear index `-1 + 1*4 = 3` is in range, and the call writes cell 3 (the last
column of row 0). -/
theorem plotPoint_offscreen_counterexample :
    screenX demoScene 0 1 (-3) = -1 ∧ screenY demoScene 0 1 = 1 ∧
    screenX demoScene 0 1 (-3) < 0 ∧
    plotPoint demoScene 0 0 1 '#' (-3) =
      some { demoScene with
        depth := [0, 0, 0, 1, 0, 0, 0, 0],
        pixels := [' ', ' ', ' ', '#', ' ', ' ', ' ', ' '] } ∧
    plotPoint demoScene 0 0 1 '#' (-3) ≠ some demoScene := by
  have hp : plotPoint demoScene 0 0 1 '#' (-3) =
      some { demoScene with
        depth := [0, 0, 0, 1, 0, 0, 0, 0],
        pixels := [' ', ' ', ' ', '#', ' ', ' ', ' ', ' '] } := by
    rw [plotPoint_of_inside demoScene 0 0 1 '#' (-3) 0
      (by rw [demo_plotIdx_wrap]; decide) (by rw [demo_plotIdx_wrap]; decide)
      (by rw [demo_plotIdx_wrap]; rfl)]
    rw [demo_plotIdx_wrap]
    simp [invZ, demoScene]
  refine ⟨demo_screenX_wrap, demo_screenY, by rw [demo_screenX_wrap]; decide, hp, ?_⟩
  rw [hp]
  intro h
  have h2 := congrArg (fun o => o.map (fun t => t.pixels)) h
  simp [demoScene] at h2

/-- C5, amended: with `len(pixels) = displayWidth*displayHeight`, take a call
whose truncated screen coordinates `screenX`, `screenY` (however they were
computed) are out of bounds, and whose index computation
`screenX + screenY*displayWidth` does not overflow the 64-bit `int`.  If the
column is on screen (`0 ≤ screenX < displayWidth`), or the index is `< 0` or
`≥ len(pixels)`, then the wrapped index is the mathematical one and the guard
returns the scene unchanged: for the lines 92 to 97 at that index
(`depthTest`), for `plotPoint` in exact arithmetic, and for `plotPoint` in
`float64` and 64-bit arithmetic (`plotPointF`). -/
theorem plotPoint_offscreen_dropped (s : Scene ℚ) (sx sy : Int) (ch : Char)
    (hshape : (s.pixels.length : Int) = s.displayWidth * s.displayHeight)
    (hoff : sx < 0 ∨ s.displayWidth ≤ sx ∨ sy < 0 ∨ s.displayHeight ≤ sy)
    (hfit : -9223372036854775808 ≤ sx + sy * s.displayWidth ∧
      sx + sy * s.displayWidth < 9223372036854775808)
    (hcase : (0 ≤ sx ∧ sx < s.displayWidth) ∨
      sx + sy * s.displayWidth < 0 ∨ (s.pixels.length : Int) ≤ sx + sy * s.displayWidth) :
    wrap64 (sx + sy * s.displayWidth) = sx + sy * s.displayWidth ∧
    (∀ iz : ℚ, depthTest s (wrap64 (sx + sy * s.displayWidth)) iz ch = some s) ∧
    (∀ x y z offset : ℚ, screenX s x z offset = sx → screenY s y z = sy →
      plotPoint s x y z ch offset = some s) ∧
    (∀ x y z offset : ℚ, screenXF s x z offset = sx → screenYF s y z = sy →
      plotPointF s x y z ch offset = some s) := by
  have hw := wrap64_of_fits _ hfit.1 hfit.2
  have hout : sx + sy * s.displayWidth < 0 ∨
      (s.pixels.length : Int) ≤ sx + sy * s.displayWidth := by
    rcases hcase with ⟨hx0, hx1⟩ | hout
    · rcases hoff with h | h | h | h
      · omega
      · omega
      · left
        nlinarith
      · right
        rw [hshape]
        nlinarith
    · exact hout
  refine ⟨hw, fun iz => ?_, fun x y z offset hx hy => ?_, fun x y z offset hx hy => ?_⟩
  · rw [hw]
    exact depthTest_of_outside s _ iz ch hout
  · apply plotPoint_of_outside
    unfold plotIdx
    rw [hx, hy]
    exact hout
  · unfold plotPointF plotIdxF
    rw [hx, hy, hw]
    exact depthTest_of_outside s _ _ ch hout

/-- Witness for C5 amended: `y = 1` on the 4 x 2 scene gives column 2, row 41,
in exact and in `float64` arithmetic. -/
theorem plotPoint_offscreen_dropped_witness :
    wrap64 (2 + 41 * demoScene.displayWidth) = 2 + 41 * demoScene.displayWidth ∧
    plotPoint demoScene 0 1 1 '#' 0 = some demoScene ∧
    plotPointF demoScene 0 1 1 '#' 0 = some demoScene :=
  have h := plotPoint_offscreen_dropped demoScene 2 41 '#' (by simp [demoScene])
    (Or.inr (Or.inr (Or.inr (by simp [demoScene]))))
    (by simp [demoScene]) (Or.inl (by simp [demoScene]))
  ⟨h.1, h.2.2.1 0 1 1 0 demo_screenX_mid demo_screenY_far,
    h.2.2.2 0 1 1 0 demo_screenXF_mid demo_screenYF_far⟩

/-- C3: `plotPoint` never decreases a stored inverse depth, and neither does
`renderCube`.  Whenever either returns, every cell of the depth buffer holds
at least what it held before (`DepthLE`); and both do return when `depth` is
at least as long as `pixels` (and, for `renderCube`, the cube has six
characters). -/
theorem depth_never_decreases (s : Scene K) :
    (∀ (x y z : K) (ch : Char) (offset : K) (s1 : Scene K),
      plotPoint s x y z ch offset = some s1 → DepthLE s s1) ∧
    (∀ (sin cos : K → K) (cube : Cube K) (t : Transform K) (s1 : Scene K),
      renderCube sin cos s cube t = some s1 → DepthLE s s1) ∧
    (s.pixels.length ≤ s.depth.length →
      (∀ (x y z : K) (ch : Char) (offset : K),
        ∃ s1, plotPoint s x y z ch offset = some s1 ∧ DepthLE s s1) ∧
      (∀ (sin cos : K → K) (cube : Cube K) (t : Transform K),
        6 ≤ cube.chars.length →
        ∃ s1, renderCube sin cos s cube t = some s1 ∧ DepthLE s s1)) := by
  refine ⟨fun x y z ch offset s1 h => plotPoint_depthLE s s1 x y z ch offset h,
    fun sin cos cube t s1 h => renderCube_depthLE sin cos s s1 cube t h,
    fun hlen => ⟨fun x y z ch offset => ?_, fun sin cos cube t hc => ?_⟩⟩
  · obtain ⟨s1, h1⟩ := plotPoint_total s x y z ch offset hlen
    exact ⟨s1, h1, plotPoint_depthLE s s1 x y z ch offset h1⟩
  · obtain ⟨s1, h1, _⟩ := renderCube_total sin cos s cube t hlen hc
    exact ⟨s1, h1, renderCube_depthLE sin cos s s1 cube t h1⟩

/-- Witness for C3 on the 4 x 2 blank scene: both calls return and the depth
buffer does not decrease. -/
theorem depth_never_decreases_witness :
    (∃ s1, plotPoint demoScene 0 0 1 '#' (-3) = some s1 ∧ DepthLE demoScene s1) ∧
    (∃ s1, renderCube (fun _ => 0) (fun _ => 1) demoScene
        { size := 1, position := 0, chars := ['a', 'b', 'c', 'd', 'e', 'f'] }
        { rotateX := 0, rotateY := 0, rotateZ := 0 } = some s1 ∧ DepthLE demoScene s1) :=
  ⟨((depth_never_decreases demoScene).2.2 (by decide)).1 0 0 1 '#' (-3),
   ((depth_never_decreases demoScene).2.2 (by decide)).2 (fun _ => 0) (fun _ => 1)
     { size := 1, position := 0, chars := ['a', 'b', 'c', 'd', 'e', 'f'] }
     { rotateX := 0, rotateY := 0, rotateZ := 0 } (by decide)⟩

/-- C10: draw-order independence of the depth test.  For two calls `p`, `q`
with the same in-range index and `invZ p > invZ q`, running `p` then `q` and
running `q` then `p` give the same result; they return when `depth` is at
least as long as `pixels`; and when `invZ p` exceeds the depth `d` stored in
the cell, the cell ends holding `invZ p` and the character of `p` in both
orders. -/
theorem plotPoint_order_independent (s : Scene K)
    (xp yp zp : K) (chp : Char) (offp : K) (xq yq zq : K) (chq : Char) (offq : K)
    (hsame : plotIdx s xq yq zq offq = plotIdx s xp yp zp offp)
    (h0 : 0 ≤ plotIdx s xp yp zp offp)
    (h1 : plotIdx s xp yp zp offp < (s.pixels.length : Int))
    (hgt : invZ zp > invZ zq) :
    (plotPoint s xp yp zp chp offp).bind (fun s1 => plotPoint s1 xq yq zq chq offq) =
      (plotPoint s xq yq zq chq offq).bind (fun s1 => plotPoint s1 xp yp zp chp offp) ∧
    (s.pixels.length ≤ s.depth.length →
      ∃ s2, (plotPoint s xp yp zp chp offp).bind
        (fun s1 => plotPoint s1 xq yq zq chq offq) = some s2) ∧
    (∀ d, s.depth[(plotIdx s xp yp zp offp).toNat]? = some d → invZ zp > d →
      ∃ s2,
        (plotPoint s xp yp zp chp offp).bind
          (fun s1 => plotPoint s1 xq yq zq chq offq) = some s2 ∧
        (plotPoint s xq yq zq chq offq).bind
          (fun s1 => plotPoint s1 xp yp zp chp offp) = some s2 ∧
        s2.depth[(plotIdx s xp yp zp offp).toNat]? = some (invZ zp) ∧
        s2.pixels[(plotIdx s xp yp zp offp).toNat]? = some chp) := by
  have hq0 : 0 ≤ plotIdx s xq yq zq offq := by rw [hsame]; exact h0
  have hq1 : plotIdx s xq yq zq offq < (s.pixels.length : Int) := by rw [hsame]; exact h1
  have hpl : (plotIdx s xp yp zp offp).toNat < s.pixels.length := by omega
  by_cases hi : (plotIdx s xp yp zp offp).toNat < s.depth.length
  · -- the cell exists in `depth`
    have hd := List.getElem?_eq_getElem hi
    have hdq : s.depth[(plotIdx s xq yq zq offq).toNat]? =
        some s.depth[(plotIdx s xp yp zp offp).toNat] := by rw [hsame]; exact hd
    -- the scene after `p` has been written
    have hp_then_q : ∀ sp : Scene K,
        sp = { s with depth := s.depth.set (plotIdx s xp yp zp offp).toNat (invZ zp),
                      pixels := s.pixels.set (plotIdx s xp yp zp offp).toNat chp } →
        plotPoint sp xq yq zq chq offq = some sp := by
      intro sp hsp
      have e : plotIdx sp xq yq zq offq = plotIdx s xp yp zp offp := by
        rw [← hsame, hsp]; rfl
      rw [plotPoint_of_inside sp xq yq zq chq offq (invZ zp)
        (by rw [e]; exact h0) (by rw [e, hsp]; simpa using h1)
        (by rw [e, hsp]; exact List.getElem?_set_self hi)]
      rw [if_neg (not_lt.mpr (le_of_lt hgt))]
    -- the scene after `q` has been written
    have hq_then_p : ∀ sq : Scene K,
        sq = { s with depth := s.depth.set (plotIdx s xp yp zp offp).toNat (invZ zq),
                      pixels := s.pixels.set (plotIdx s xp yp zp offp).toNat chq } →
        plotPoint sq xp yp zp chp offp =
          some { s with depth := s.depth.set (plotIdx s xp yp zp offp).toNat (invZ zp),
                        pixels := s.pixels.set (plotIdx s xp yp zp offp).toNat chp } := by
      intro sq hsq
      have e : plotIdx sq xp yp zp offp = plotIdx s xp yp zp offp := by
        rw [hsq]; rfl
      rw [plotPoint_of_inside sq xp yp zp chp offp (invZ zq)
        (by rw [e]; exact h0) (by rw [e, hsq]; simpa using h1)
        (by rw [e, hsq]; exact List.getElem?_set_self hi)]
      rw [if_pos hgt, e, hsq]
      simp only [List.set_set]
    have hP := plotPoint_of_inside s xp yp zp chp offp _ h0 h1 hd
    have hQ := plotPoint_of_inside s xq yq zq chq offq _ hq0 hq1 hdq
    rw [hsame] at hQ
    by_cases hpd : invZ zp > s.depth[(plotIdx s xp yp zp offp).toNat]
    · rw [if_pos hpd] at hP
      have hL : (plotPoint s xp yp zp chp offp).bind
          (fun s1 => plotPoint s1 xq yq zq chq offq) =
          some { s with depth := s.depth.set (plotIdx s xp yp zp offp).toNat (invZ zp),
                        pixels := s.pixels.set (plotIdx s xp yp zp offp).toNat chp } := by
        rw [hP]
        exact hp_then_q _ rfl
      have hR : (plotPoint s xq yq zq chq offq).bind
          (fun s1 => plotPoint s1 xp yp zp chp offp) =
          some { s with depth := s.depth.set (plotIdx s xp yp zp offp).toNat (invZ zp),
                        pixels := s.pixels.set (plotIdx s xp yp zp offp).toNat chp } := by
        by_cases hqd : invZ zq > s.depth[(plotIdx s xp yp zp offp).toNat]
        · rw [if_pos hqd] at hQ
          rw [hQ]
          exact hq_then_p _ rfl
        · rw [if_neg hqd] at hQ
          rw [hQ]
          exact hP
      refine ⟨by rw [hL, hR], fun _ => ⟨_, hL⟩, fun d _ _ => ⟨_, hL, hR, ?_, ?_⟩⟩
      · exact List.getElem?_set_self hi
      · exact List.getElem?_set_self hpl
    · rw [if_neg hpd] at hP
      have hqd : ¬ invZ zq > s.depth[(plotIdx s xp yp zp offp).toNat] :=
        fun hc => hpd (lt_trans hc hgt)
      rw [if_neg hqd] at hQ
      have hL : (plotPoint s xp yp zp chp offp).bind
          (fun s1 => plotPoint s1 xq yq zq chq offq) = some s := by
        rw [hP]; exact hQ
      have hR : (plotPoint s xq yq zq chq offq).bind
          (fun s1 => plotPoint s1 xp yp zp chp offp) = some s := by
        rw [hQ]; exact hP
      refine ⟨by rw [hL, hR], fun _ => ⟨_, hL⟩, fun d hd2 hgd => ?_⟩
      rw [hd] at hd2
      cases hd2
      exact absurd hgd hpd
  · -- the read of `depth[idx]` panics in both orders
    have hnone : s.depth[(plotIdx s xp yp zp offp).toNat]? = none :=
      List.getElem?_eq_none (not_lt.mp hi)
    have hP : plotPoint s xp yp zp chp offp = none := by
      unfold plotPoint
      simp only [h0, h1, and_self, if_true, hnone]
    have hQ : plotPoint s xq yq zq chq offq = none := by
      unfold plotPoint
      simp only [hsame, h0, h1, and_self, if_true, hnone]
    refine ⟨by rw [hP, hQ]; rfl, fun hle => absurd (lt_of_lt_of_le hpl hle) hi,
      fun d hd2 _ => ?_⟩
    rw [hnone] at hd2
    cases hd2

omit [FloorRing K] in
/-- C6: postcondition of `clear`.  On a scene whose `pixels` and `depth` have
equal length `n`, `clear` returns a scene whose `pixels` are `n` copies of
`bgChar` and whose `depth` is `n` zeros (so every cell `i < n` holds `bgChar`
and `0`); both lengths and `displayWidth`, `displayHeight`, `bgChar` are
unchanged; and clearing that scene again returns it unchanged. -/
theorem clear_postcondition (s : Scene K) (hlen : s.pixels.length = s.depth.length) :
    ∃ c, clear s = some c ∧
      c.pixels = List.replicate s.pixels.length s.bgChar ∧
      c.depth = List.replicate s.pixels.length 0 ∧
      (∀ i : Nat, i < s.pixels.length →
        c.pixels[i]? = some s.bgChar ∧ c.depth[i]? = some 0) ∧
      c.pixels.length = s.pixels.length ∧ c.depth.length = s.depth.length ∧
      c.displayWidth = s.displayWidth ∧ c.displayHeight = s.displayHeight ∧
      c.bgChar = s.bgChar ∧
      clear c = some c := by
  refine ⟨_, clear_eq_of_length_eq s hlen, rfl, rfl, ?_, ?_, ?_, rfl, rfl, rfl, ?_⟩
  · intro i hi
    simp [List.getElem?_replicate, hi]
  · simp
  · simp [hlen]
  · rw [clear_eq_of_length_eq _ (by simp)]
    simp

/-- Witness for C6 on a 4 x 2 scene holding text and depth 1 everywhere. -/
theorem clear_postcondition_witness :
    ∃ c, clear inkScene = some c ∧
      c.pixels = List.replicate inkScene.pixels.length inkScene.bgChar ∧
      c.depth = List.replicate inkScene.pixels.length 0 ∧
      (∀ i : Nat, i < inkScene.pixels.length →
        c.pixels[i]? = some inkScene.bgChar ∧ c.depth[i]? = some 0) ∧
      c.pixels.length = inkScene.pixels.length ∧
      c.depth.length = inkScene.depth.length ∧
      c.displayWidth = inkScene.displayWidth ∧
      c.displayHeight = inkScene.displayHeight ∧
      c.bgChar = inkScene.bgChar ∧
      clear c = some c :=
  clear_postcondition inkScene (by decide)

/-- Witness for C10 on the 4 x 2 blank scene: the calls with `z = 1` and
`z = 2` both have index 3; in either order cell 3 ends with depth 1 and the
character of the nearer call. -/
theorem plotPoint_order_independent_witness :
    (plotPoint demoScene 0 0 1 '#' (-3)).bind (fun s1 => plotPoint s1 0 0 2 '.' (-3)) =
      (plotPoint demoScene 0 0 2 '.' (-3)).bind (fun s1 => plotPoint s1 0 0 1 '#' (-3)) ∧
    ∃ s2,
      (plotPoint demoScene 0 0 1 '#' (-3)).bind
        (fun s1 => plotPoint s1 0 0 2 '.' (-3)) = some s2 ∧
      (plotPoint demoScene 0 0 2 '.' (-3)).bind
        (fun s1 => plotPoint s1 0 0 1 '#' (-3)) = some s2 ∧
      s2.depth[(plotIdx demoScene 0 0 1 (-3)).toNat]? = some (invZ 1) ∧
      s2.pixels[(plotIdx demoScene 0 0 1 (-3)).toNat]? = some '#' :=
  have h := plotPoint_order_independent demoScene 0 0 1 '#' (-3) 0 0 2 '.' (-3)
    (by rw [demo_plotIdx_wrap, demo_plotIdx_wrap2])
    (by rw [demo_plotIdx_wrap]; decide) (by rw [demo_plotIdx_wrap]; decide)
    (by simp only [invZ]; norm_num)
  ⟨h.1, h.2.2 0 (by rw [demo_plotIdx_wrap]; rfl) (by simp only [invZ]; norm_num)⟩

/-- C2, as stated, fails: on the (already cleared) 4 x 2 blank scene a single
call with `z = -1` targets cell 6 with inverse depth `-1`; the depth test
rejects it, so cell 6 keeps the sentinel `0`, which is not the maximum `-1` of
the inverse depths passed for that cell. -/
theorem depth_max_counterexample :
    clear demoScene = some demoScene ∧
    plotAll demoScene [{ x := 0, y := 0, z := -1, ch := '#', offset := 0 }] =
      some demoScene ∧
    targeted demoScene 6 [{ x := 0, y := 0, z := -1, ch := '#', offset := 0 }] = [-1] ∧
    demoScene.depth[6]? = some 0 ∧
    demoScene.depth[6]? ≠ some (maxOrSentinel
      (targeted demoScene 6 [{ x := 0, y := 0, z := -1, ch := '#', offset := 0 }])) := by
  have hidx : plotIdx demoScene 0 0 (-1) 0 = 6 := by
    have hx : screenX demoScene 0 (-1) 0 = 2 :=
      goInt_eq _ _ (by simp [demoScene, invZ, PERSPECTIVE]; norm_num)
    have hy : screenY demoScene 0 (-1) = 1 :=
      goInt_eq _ _ (by simp [demoScene, invZ, PERSPECTIVE])
    rw [plotIdx, hx, hy]
    rfl
  have ht : targeted demoScene 6
      [{ x := 0, y := 0, z := -1, ch := '#', offset := 0 }] = [-1] := by
    simp [targeted, hidx, invZ]
    norm_num
  refine ⟨?_, ?_, ht, rfl, ?_⟩
  · rw [clear_eq_of_length_eq demoScene (by decide)]
    rfl
  · unfold plotAll
    rw [List.foldlM_cons,
      plotPoint_of_inside demoScene 0 0 (-1) '#' 0 0 (by rw [hidx]; decide)
        (by rw [hidx]; decide) (by rw [hidx]; rfl)]
    simp [invZ]
  · rw [ht]
    simp [maxOrSentinel, demoScene]

/-- C2, amended: starting from a cleared buffer (equal lengths), any finite
sequence of `plotPoint` calls returns, and every cell `i` then stores the
maximum of the sentinel `0` and the inverse depths `1/z` of the calls whose
computed index is `i` (so `0` if no call targeted `i`); when those inverse
depths are all non-negative this is the maximum of the inverse depths passed
for the cell, or the sentinel if there is none. -/
theorem depth_is_running_max (s : Scene K) (cs : List (PlotCall K))
    (hlen : s.pixels.length = s.depth.length) :
    ∃ c s1, clear s = some c ∧ plotAll c cs = some s1 ∧
      ∀ i : Nat, i < s.pixels.length →
        s1.depth[i]? = some ((targeted c i cs).foldl max 0) ∧
        (targeted c i cs = [] → s1.depth[i]? = some 0) ∧
        ((∀ a ∈ targeted c i cs, 0 ≤ a) →
          s1.depth[i]? = some (maxOrSentinel (targeted c i cs))) := by
  obtain ⟨c, hc, hpix, hdep⟩ : ∃ c, clear s = some c ∧
      c.pixels.length = s.pixels.length ∧
      c.depth = List.replicate s.pixels.length 0 :=
    ⟨_, clear_eq_of_length_eq s hlen, by simp, rfl⟩
  have hle : c.pixels.length ≤ c.depth.length := by rw [hdep, hpix]; simp
  obtain ⟨s1, h1, _⟩ := foldlM_option_total
    (fun st : Scene K => st.pixels.length ≤ st.depth.length)
    (fun st c => plotPoint st c.x c.y c.z c.ch c.offset) cs
    (fun st c _ hQ => by
      obtain ⟨st1, hst1⟩ := plotPoint_total st c.x c.y c.z c.ch c.offset hQ
      obtain ⟨e1, e2, _⟩ := plotPoint_shape _ _ _ _ _ _ _ hst1
      exact ⟨st1, hst1, by omega⟩)
    c hle
  refine ⟨c, s1, hc, h1, fun i hi => ?_⟩
  obtain ⟨s2, h2, hd2⟩ := plotAll_depth i cs c 0 hle (by omega)
    (by rw [hdep]; simp [List.getElem?_replicate, hi])
  have h3 : plotAll c cs = some s1 := h1
  rw [h3] at h2
  cases h2
  refine ⟨hd2, fun hnil => ?_, fun hpos => ?_⟩
  · rw [hd2, hnil]
    rfl
  · rw [hd2, foldl_max_ge_zero_eq_maxOrSentinel _ hpos]

/-- Witness for C2 amended: two calls on the 4 x 2 scene holding text. -/
theorem depth_is_running_max_witness :
    ∃ c s1, clear inkScene = some c ∧
      plotAll c [{ x := 0, y := 0, z := 1, ch := '#', offset := -3 },
                 { x := 0, y := 0, z := 2, ch := '.', offset := -3 }] = some s1 ∧
      ∀ i : Nat, i < inkScene.pixels.length →
        s1.depth[i]? = some ((targeted c i
          [{ x := 0, y := 0, z := 1, ch := '#', offset := -3 },
           { x := 0, y := 0, z := 2, ch := '.', offset := -3 }]).foldl max 0) ∧
        (targeted c i
          [{ x := 0, y := 0, z := 1, ch := '#', offset := -3 },
           { x := 0, y := 0, z := 2, ch := '.', offset := -3 }] = [] →
          s1.depth[i]? = some 0) ∧
        ((∀ a ∈ targeted c i
          [{ x := 0, y := 0, z := 1, ch := '#', offset := -3 },
           { x := 0, y := 0, z := 2, ch := '.', offset := -3 }], 0 ≤ a) →
          s1.depth[i]? = some (maxOrSentinel (targeted c i
            [{ x := 0, y := 0, z := 1, ch := '#', offset := -3 },
             { x := 0, y := 0, z := 2, ch := '.', offset := -3 }]))) :=
  depth_is_running_max inkScene _ (by decide)

omit [FloorRing K] in
/-- C7: flush format.  On a scene with `displayWidth > 0` and
`len(pixels) = displayWidth*displayHeight`, `draw` returns, leaves the scene
as it was, and prints the cursor-home sequence `ESC [ H` followed by the
`displayHeight` rows in row-major order, each row being the `displayWidth`
characters `pixels[r*displayWidth .. (r+1)*displayWidth)`, with one line break
before every row except the first and none after the last.  In particular,
when `clear` can run (`depth` at least as long as `pixels`), `clear` followed
by `draw` prints `ESC [ H` and `displayHeight` rows of `displayWidth`
background characters: `displayWidth*displayHeight` background characters and
`displayHeight - 1` line breaks. -/
theorem draw_format (s : Scene K) (hw : 0 < s.displayWidth)
    (hshape : (s.pixels.length : Int) = s.displayWidth * s.displayHeight) :
    draw s = some (s, cursorHome ++ joinRows (rowsOf s)) ∧
    (rowsOf s).length = s.displayHeight.toNat ∧
    (∀ row ∈ rowsOf s, row.length = s.displayWidth.toNat) ∧
    (s.pixels.length ≤ s.depth.length →
      ∃ c, clear s = some c ∧
        draw c = some (c, cursorHome ++ joinRows
          (List.replicate s.displayHeight.toNat
            (List.replicate s.displayWidth.toNat s.bgChar))) ∧
        (cursorHome ++ joinRows
          (List.replicate s.displayHeight.toNat
            (List.replicate s.displayWidth.toNat s.bgChar))).length =
          3 + s.displayWidth.toNat * s.displayHeight.toNat +
            (s.displayHeight.toNat - 1)) := by
  obtain ⟨hW, hsw, hn⟩ := shape_toNat s hw hshape
  refine ⟨draw_eq s hw hshape, by simp [rowsOf], ?_, fun hle => ?_⟩
  · intro row hrow
    obtain ⟨r, hr, rfl⟩ := List.mem_map.mp hrow
    have hr2 : r < s.displayHeight.toNat := List.mem_range.mp hr
    rw [List.length_take, List.length_drop, hn]
    have h1 : (r + 1) * s.displayWidth.toNat ≤
        s.displayWidth.toNat * s.displayHeight.toNat := by
      rw [Nat.mul_comm s.displayWidth.toNat]
      exact Nat.mul_le_mul_right _ hr2
    rw [Nat.succ_mul] at h1
    omega
  · obtain ⟨c, hc, hcw, hch, hcp⟩ : ∃ c, clear s = some c ∧
        c.displayWidth = s.displayWidth ∧ c.displayHeight = s.displayHeight ∧
        c.pixels = List.replicate s.pixels.length s.bgChar :=
      ⟨_, clear_eq s hle, rfl, rfl, rfl⟩
    refine ⟨c, hc, ?_, ?_⟩
    · rw [draw_eq c (by rw [hcw]; exact hw) (by rw [hcw, hch, hcp]; simpa using hshape)]
      unfold rowsOf
      rw [hcw, hch, hcp, hn, rows_of_replicate]
    · rw [List.length_append, length_joinRows_replicate]
      simp only [cursorHome, List.length_cons, List.length_nil]
      omega

/-- Witness for C7 on the 4 x 2 scene holding `abcd` / `efgh`. -/
theorem draw_format_witness :
    draw inkScene = some (inkScene, cursorHome ++ joinRows (rowsOf inkScene)) ∧
    cursorHome ++ joinRows (rowsOf inkScene) =
      [Char.ofNat 27, '[', 'H', 'a', 'b', 'c', 'd', '\n', 'e', 'f', 'g', 'h'] :=
  ⟨(draw_format inkScene (by decide) (by decide)).1, by decide⟩

/-- C8: rotation order.  Over the reals, with `math.Sin` and `math.Cos` the
real sine and cosine, `project3Dto2D` is the rotation about X by `rotateX`,
then about Y by `rotateY`, then about Z by `rotateZ`, followed by the camera
translation `+ (0, 0, CAMERA_DIST)`. -/
theorem project3Dto2D_eq_rotations (x y z : ℝ) (t : Transform ℝ) :
    project3Dto2D Real.sin Real.cos x y z t =
      translateCamera
        (rotZ Real.sin Real.cos t.rotateZ
          (rotY Real.sin Real.cos t.rotateY
            (rotX Real.sin Real.cos t.rotateX (x, y, z)))) := by
  simp only [project3Dto2D, translateCamera, rotZ, rotY, rotX]
  refine Prod.ext ?_ (Prod.ext ?_ ?_)
  · simp only []
    ring
  · simp only []
    ring
  · simp only []
    ring

/-- C9, as stated, fails in `float64` arithmetic.  For `S = 56` the front-face
point `(-33, 0, -56)` is projected by the zero transform to `(-33, 0, 44)`;
`plotPoint` then computes `80 + 40*(1/44)*(-33)*2`, which `float64` rounds to
`19.999999999999993`, so the column is 19 and the cell written on the scene
of `NewScene` is `19 + 22*160 = 3539`, while the closed form of the claim
gives column `trunc(80 + 40*(-33)*2/44) = 20`, cell 3540, which stays as it
was. -/
theorem zero_rotation_float_counterexample :
    project3Dto2DF (fun _ => 0) (fun _ => 1) (-33) 0 (-56) zeroTransform = (-33, 0, 44) ∧
    screenXF NewScene (-33) 44 0 = 19 ∧
    screenYF NewScene 0 44 = 22 ∧
    plotIdxF NewScene (-33) 0 44 0 = 3539 ∧
    frontColumn (NewScene : Scene ℚ) 56 (-33) = 20 ∧
    frontRow (NewScene : Scene ℚ) 56 0 = 22 ∧
    frontIdx (NewScene : Scene ℚ) 56 (-33) 0 = 3540 ∧
    ∃ s1, plotPointF NewScene (-33) 0 44 '@' 0 = some s1 ∧
      s1.pixels[3539]? = some '@' ∧
      s1.pixels[3540]? = (NewScene : Scene ℚ).pixels[3540]? ∧
      s1.depth[3540]? = (NewScene : Scene ℚ).depth[3540]? := by
  have hP : (PERSPECTIVE : ℚ) = 40 := by simp [PERSPECTIVE]
  have hC : (CAMERA_DIST : ℚ) = 100 := by simp [CAMERA_DIST]
  have hcol : frontColumn (NewScene : Scene ℚ) 56 (-33) = 20 := by
    unfold frontColumn
    rw [newScene_width, hP, hC]
    exact goInt_eq _ 20 (by norm_num)
  have hrow : frontRow (NewScene : Scene ℚ) 56 0 = 22 := by
    unfold frontRow
    rw [newScene_height, hP, hC]
    exact goInt_eq _ 22 (by norm_num)
  have hlenp : (NewScene : Scene ℚ).pixels.length = 7040 := by
    simp only [NewScene, List.length_replicate, DISPLAY_WIDTH, DISPLAY_HEIGHT]
  have hlend : (NewScene : Scene ℚ).depth.length = 7040 := by
    simp only [NewScene, List.length_replicate, DISPLAY_WIDTH, DISPLAY_HEIGHT]
  have hd : (NewScene : Scene ℚ).depth[(3539 : Int).toNat]? = some 0 := by
    simp only [NewScene, List.getElem?_replicate, DISPLAY_WIDTH, DISPLAY_HEIGHT]
    rfl
  refine ⟨project3Dto2DF_case, screenXF_case, screenYF_case, plotIdxF_case, hcol, hrow,
    ?_, ?_⟩
  · unfold frontIdx
    rw [hcol, hrow]
    rfl
  · have hplot : plotPointF NewScene (-33) 0 44 '@' 0 =
        some { (NewScene : Scene ℚ) with
          depth := (NewScene : Scene ℚ).depth.set 3539 (invZF 44),
          pixels := (NewScene : Scene ℚ).pixels.set 3539 '@' } := by
      unfold plotPointF
      rw [plotIdxF_case, depthTest_of_inside NewScene 3539 (invZF 44) '@' 0 (by decide)
        (by rw [hlenp]; decide) hd, if_pos (by rw [invZF_44]; norm_num)]
      rfl
    refine ⟨_, hplot, ?_, ?_, ?_⟩
    · exact List.getElem?_set_self (by rw [hlenp]; decide)
    · exact List.getElem?_set_ne (by decide)
    · exact List.getElem?_set_ne (by decide)

/-- C9, amended: over exact real arithmetic (and unbounded integers).  With
all three angles 0 the projection is `(x, y, z + CAMERA_DIST)` for every
point; hence for `0 < S < CAMERA_DIST` the front-face sample `(x, y, -S)`, the
first entry of `surfaces`, is passed by `renderCube` to `plotPoint` as
`(x, y, CAMERA_DIST - S)` with the first character of the cube; at offset 0
`plotPoint` computes the inverse depth `1/(CAMERA_DIST - S)`, the column
`trunc(width/2 + PERSPECTIVE*x*2/(CAMERA_DIST - S))`, the row
`trunc(height/2 + PERSPECTIVE*y/(CAMERA_DIST - S))`, and runs its guard and
depth test at the index `screenX + screenY*width`: when that cell is in range
and holds a smaller inverse depth, the call writes the character and
`1/(CAMERA_DIST - S)` there. -/
theorem zero_rotation_front_face (s : Scene ℝ) (S x y : ℝ) (hS0 : 0 < S)
    (hS1 : S < (CAMERA_DIST : ℝ)) :
    (∀ a b c : ℝ, project3Dto2D Real.sin Real.cos a b c zeroTransform =
      (a, b, c + (CAMERA_DIST : ℝ))) ∧
    (surfaces S x y)[0]? = some (x, y, -S) ∧
    project3Dto2D Real.sin Real.cos x y (-S) zeroTransform =
      (x, y, (CAMERA_DIST : ℝ) - S) ∧
    0 < (CAMERA_DIST : ℝ) - S ∧ (CAMERA_DIST : ℝ) - S < (CAMERA_DIST : ℝ) ∧
    (∀ (cube : Cube ℝ) (st : Scene ℝ) (ch : Char),
      cube.size = S → cube.chars[0]? = some ch →
      surfaceBody Real.sin Real.cos cube zeroTransform st (0, (x, y, -S)) =
        plotPoint st x y ((CAMERA_DIST : ℝ) - S) ch cube.position) ∧
    invZ ((CAMERA_DIST : ℝ) - S) = 1 / ((CAMERA_DIST : ℝ) - S) ∧
    screenX s x ((CAMERA_DIST : ℝ) - S) 0 = frontColumn s S x ∧
    screenY s y ((CAMERA_DIST : ℝ) - S) = frontRow s S y ∧
    plotIdx s x y ((CAMERA_DIST : ℝ) - S) 0 = frontIdx s S x y ∧
    (∀ ch : Char, plotPoint s x y ((CAMERA_DIST : ℝ) - S) ch 0 =
      depthTest s (frontIdx s S x y) (1 / ((CAMERA_DIST : ℝ) - S)) ch) ∧
    (∀ (ch : Char) (d : ℝ), 0 ≤ frontIdx s S x y →
      frontIdx s S x y < (s.pixels.length : Int) →
      s.depth[(frontIdx s S x y).toNat]? = some d → d < 1 / ((CAMERA_DIST : ℝ) - S) →
      ∃ s1, plotPoint s x y ((CAMERA_DIST : ℝ) - S) ch 0 = some s1 ∧
        s1.pixels[(frontIdx s S x y).toNat]? = some ch ∧
        s1.depth[(frontIdx s S x y).toNat]? = some (1 / ((CAMERA_DIST : ℝ) - S))) := by
  have hproj : ∀ a b c : ℝ, project3Dto2D Real.sin Real.cos a b c zeroTransform =
      (a, b, c + (CAMERA_DIST : ℝ)) := by
    intro a b c
    simp [project3Dto2D, zeroTransform]
  have hprojS : project3Dto2D Real.sin Real.cos x y (-S) zeroTransform =
      (x, y, (CAMERA_DIST : ℝ) - S) := by
    rw [hproj]
    congr 2
    ring
  have hX : screenX s x ((CAMERA_DIST : ℝ) - S) 0 = frontColumn s S x := by
    unfold screenX invZ frontColumn
    congr 1
    ring
  have hY : screenY s y ((CAMERA_DIST : ℝ) - S) = frontRow s S y := by
    unfold screenY invZ frontRow
    congr 1
    ring
  have hI : plotIdx s x y ((CAMERA_DIST : ℝ) - S) 0 = frontIdx s S x y := by
    rw [plotIdx, hX, hY, frontIdx]
  have hplot : ∀ ch : Char, plotPoint s x y ((CAMERA_DIST : ℝ) - S) ch 0 =
      depthTest s (frontIdx s S x y) (1 / ((CAMERA_DIST : ℝ) - S)) ch := by
    intro ch
    rw [plotPoint_eq_depthTest, hI]
    rfl
  refine ⟨hproj, rfl, hprojS, by linarith, by linarith, ?_, rfl, hX, hY, hI, hplot, ?_⟩
  · intro cube st ch hsize hch
    unfold surfaceBody
    simp only [hch, hprojS]
  · intro ch d h0 h1 hd hlt
    have hp : (frontIdx s S x y).toNat < s.pixels.length := by omega
    have hdl : (frontIdx s S x y).toNat < s.depth.length := by
      by_contra hge
      rw [List.getElem?_eq_none (by omega)] at hd
      cases hd
    have hw : plotPoint s x y ((CAMERA_DIST : ℝ) - S) ch 0 =
        some { s with
          depth := s.depth.set (frontIdx s S x y).toNat (1 / ((CAMERA_DIST : ℝ) - S)),
          pixels := s.pixels.set (frontIdx s S x y).toNat ch } := by
      rw [hplot, depthTest_of_inside s _ _ ch d h0 h1 hd, if_pos hlt]
    exact ⟨_, hw, List.getElem?_set_self hp, List.getElem?_set_self hdl⟩

/-- Witness for C9 amended: the scene of `NewScene`, a cube of size 20, the
sample `(3, 3, -20)`. -/
theorem zero_rotation_front_face_witness :
    project3Dto2D Real.sin Real.cos 3 3 (-20) zeroTransform =
      (3, 3, (CAMERA_DIST : ℝ) - 20) ∧
    plotIdx (NewScene : Scene ℝ) 3 3 ((CAMERA_DIST : ℝ) - 20) 0 =
      frontIdx (NewScene : Scene ℝ) 20 3 3 ∧
    plotPoint (NewScene : Scene ℝ) 3 3 ((CAMERA_DIST : ℝ) - 20) '@' 0 =
      depthTest (NewScene : Scene ℝ) (frontIdx (NewScene : Scene ℝ) 20 3 3)
        (1 / ((CAMERA_DIST : ℝ) - 20)) '@' :=
  have h := zero_rotation_front_face (NewScene : Scene ℝ) 20 3 3 (by norm_num)
    (by simp only [CAMERA_DIST]; norm_num)
  ⟨h.2.2.1, h.2.2.2.2.2.2.2.2.2.1, h.2.2.2.2.2.2.2.2.2.2.1 '@'⟩

/-- C11, as stated, fails in `float64` arithmetic.  For `size = 6` the loop
`for x := -6; x < 6; x += 0.6` runs its body for the 21 values of `floatGrid6`:
the sums are rounded, and the 21st value `5.999999999999998` is still below 6.
So `renderCube` runs the six `plotPoint` calls for `21 * 21` pairs `(x, y)`
(2646 calls), while the grid `-6, -6 + 0.6, ...` below 6 has 20 values (2400
calls) and does not contain that value. -/
theorem float_grid_counterexample :
    loopValuesF 30 6 (-6) = some floatGrid6 ∧
    floatGrid6.length = 21 ∧
    renderCubeF 30 (fun _ => 0) (fun _ => 1) demoScene cube6 zeroTransform =
      runAll (fun x st =>
        runAll (fun y st1 => sixCallsF (fun _ => 0) (fun _ => 1) cube6 zeroTransform x y st1)
          floatGrid6 st) floatGrid6 demoScene ∧
    (gridValues (6 : ℚ)).length = 20 ∧
    (sampleCalls (fun _ => 0) (fun _ => 1) cube6 zeroTransform).length = 2400 ∧
    (3377699720527871 / 562949953421312 : ℚ) ∈ floatGrid6 ∧
    (3377699720527871 / 562949953421312 : ℚ) < 6 ∧
    (3377699720527871 / 562949953421312 : ℚ) ∉ gridValues (6 : ℚ) := by
  have hcount : loopCount (6 : ℚ) = 20 :=
    loopCount_eq 6 20 (by unfold STEP_SIZE; norm_num) (by unfold STEP_SIZE; norm_num)
  have hin : ∀ (x : ℚ) (st : Scene ℚ),
      forStepF 30 6
        (fun y st1 => sixCallsF (fun _ => 0) (fun _ => 1) cube6 zeroTransform x y st1)
        (-6) st =
      runAll (fun y st1 => sixCallsF (fun _ => 0) (fun _ => 1) cube6 zeroTransform x y st1)
        floatGrid6 st :=
    fun x st => forStepF_eq_runAll 6 _ 30 (-6) floatGrid6 st loopValuesF_six
  refine ⟨loopValuesF_six, rfl, ?_, ?_, ?_, ?_, by norm_num, ?_⟩
  · show forStepF 30 6 (fun x st => forStepF 30 6
        (fun y st1 => sixCallsF (fun _ => 0) (fun _ => 1) cube6 zeroTransform x y st1)
        (-6) st) (-6) demoScene = _
    rw [forStepF_eq_runAll 6 _ 30 (-6) floatGrid6 demoScene loopValuesF_six]
    simp only [hin]
  · rw [length_gridValues, hcount]
  · rw [length_sampleCalls]
    show 6 * loopCount (6 : ℚ) ^ 2 = 2400
    rw [hcount]
    norm_num
  · simp [floatGrid6]
  · rw [mem_gridValues]
    rintro ⟨k, hk, _⟩
    unfold STEP_SIZE at hk
    have h1 : (19 : ℚ) < (k : ℚ) := by linarith
    have h2 : (k : ℚ) < 20 := by linarith
    have h3 : 19 < k := by exact_mod_cast h1
    have h4 : k < 20 := by exact_mod_cast h2
    omega

/-- C11, amended: over exact arithmetic.  For a cube with `size > 0` and six
characters `c0 .. c5`, `renderCube` is the sequence of `plotPoint` calls that,
for each `x` and each `y` of the grid `-size, -size + 0.6, ...` (while below
`size`), plots the projections of front `(x, y, -size)`, right `(size, y, x)`,
left `(-size, y, -x)`, back `(-x, y, size)`, bottom `(x, -size, -y)` and top
`(x, size, y)`, in that order, the `i`-th with character `chars[i]` and offset
`cube.position`; each of these points lies on the surface of the cube
`[-size, size]^3`, on the plane of its face. -/
theorem renderCube_sample_points (sin cos : K → K) (s : Scene K) (cube : Cube K)
    (t : Transform K) (c0 c1 c2 c3 c4 c5 : Char) (hsize : 0 < cube.size)
    (hchars : cube.chars = [c0, c1, c2, c3, c4, c5]) :
    renderCube sin cos s cube t =
      plotAll s ((gridValues cube.size).flatMap (fun x =>
        (gridValues cube.size).flatMap (fun y =>
          [ projCall sin cos t c0 cube.position (x, y, -cube.size),
            projCall sin cos t c1 cube.position (cube.size, y, x),
            projCall sin cos t c2 cube.position (-cube.size, y, -x),
            projCall sin cos t c3 cube.position (-x, y, cube.size),
            projCall sin cos t c4 cube.position (x, -cube.size, -y),
            projCall sin cos t c5 cube.position (x, cube.size, y) ]))) ∧
    (∀ v, v ∈ gridValues cube.size ↔
      ∃ k : Nat, v = -cube.size + (k : K) * STEP_SIZE K ∧ v < cube.size) ∧
    -cube.size ∈ gridValues cube.size ∧
    (∀ x ∈ gridValues cube.size, ∀ y ∈ gridValues cube.size,
      OnCubeSurface cube.size (x, y, -cube.size) ∧
      OnCubeSurface cube.size (cube.size, y, x) ∧
      OnCubeSurface cube.size (-cube.size, y, -x) ∧
      OnCubeSurface cube.size (-x, y, cube.size) ∧
      OnCubeSurface cube.size (x, -cube.size, -y) ∧
      OnCubeSurface cube.size (x, cube.size, y)) := by
  refine ⟨?_, mem_gridValues cube.size, ?_, ?_⟩
  · rw [renderCube_eq_plotAll sin cos s cube t (by rw [hchars]; simp)]
    congr 1
    unfold sampleCalls
    apply List.flatMap_congr
    intro x _
    apply List.flatMap_congr
    intro y _
    simp [surfaces, List.enum, List.enumFrom, sampleCall, projCall, hchars]
  · rw [mem_gridValues]
    exact ⟨0, by simp, by linarith⟩
  · intro x hx y hy
    have hsurf := surfaces_onCubeSurface cube.size x y
      (gridValues_bounds cube.size x hx) (gridValues_bounds cube.size y hy)
    simp only [surfaces, List.mem_cons, List.mem_singleton, List.not_mem_nil, or_false,
      forall_eq_or_imp, forall_eq] at hsurf
    exact hsurf

/-- Witness for C11 amended: the cube of size 1 with characters `a .. f` on the 4 x 2
blank scene, with `math.Sin` and `math.Cos` replaced by the constants of angle
zero. -/
theorem renderCube_sample_points_witness :
    renderCube (fun _ => 0) (fun _ => 1) demoScene demoCube zeroTransform =
      plotAll demoScene ((gridValues demoCube.size).flatMap (fun x =>
        (gridValues demoCube.size).flatMap (fun y =>
          [ projCall (fun _ => 0) (fun _ => 1) zeroTransform 'a' demoCube.position
              (x, y, -demoCube.size),
            projCall (fun _ => 0) (fun _ => 1) zeroTransform 'b' demoCube.position
              (demoCube.size, y, x),
            projCall (fun _ => 0) (fun _ => 1) zeroTransform 'c' demoCube.position
              (-demoCube.size, y, -x),
            projCall (fun _ => 0) (fun _ => 1) zeroTransform 'd' demoCube.position
              (-x, y, demoCube.size),
            projCall (fun _ => 0) (fun _ => 1) zeroTransform 'e' demoCube.position
              (x, -demoCube.size, -y),
            projCall (fun _ => 0) (fun _ => 1) zeroTransform 'f' demoCube.position
              (x, demoCube.size, y) ]))) :=
  (renderCube_sample_points (fun _ => 0) (fun _ => 1) demoScene demoCube zeroTransform
    'a' 'b' 'c' 'd' 'e' 'f' (by simp [demoCube]) rfl).1

/-- C19: the sampling loops of `renderCube` terminate with a fixed count.
Each loop `for v := -size; v < size; v += STEP_SIZE` runs its body once for
each of the `n = ceil(2*size/STEP_SIZE)` values of `gridValues size`, whatever
the body; `n` is 67, 34 and 17 for the sizes 20, 10 and 5; for `size > 0`, a
cube with six characters and `depth` at least as long as `pixels`, `renderCube`
returns and is a sequence of exactly `6*n^2` calls of `plotPoint`; for
`size ≤ 0` it returns the scene unchanged. -/
theorem renderCube_loop_count (sin cos : K → K) (s : Scene K) (cube : Cube K)
    (t : Transform K) :
    (∀ (σ : Type) (body : K → σ → Option σ) (st : σ),
      forStep cube.size body (-cube.size) st =
        (gridValues cube.size).foldlM (fun a v => body v a) st) ∧
    (gridValues cube.size).length = loopCount cube.size ∧
    loopCount cube.size = Int.toNat (Int.ceil (2 * cube.size / STEP_SIZE K)) ∧
    loopCount (20 : K) = 67 ∧ loopCount (10 : K) = 34 ∧ loopCount (5 : K) = 17 ∧
    (0 < cube.size → 6 ≤ cube.chars.length → s.pixels.length ≤ s.depth.length →
      renderCube sin cos s cube t = plotAll s (sampleCalls sin cos cube t) ∧
      (sampleCalls sin cos cube t).length = 6 * loopCount cube.size ^ 2 ∧
      0 < loopCount cube.size ∧
      ∃ s1, renderCube sin cos s cube t = some s1) ∧
    (cube.size ≤ 0 → loopCount cube.size = 0 ∧ renderCube sin cos s cube t = some s) := by
  refine ⟨fun σ body st => ?_, length_gridValues cube.size, rfl, ?_, ?_, ?_,
    fun hpos h6 hlen => ⟨renderCube_eq_plotAll sin cos s cube t h6,
      length_sampleCalls sin cos cube t, ?_, ?_⟩,
    fun hneg => ⟨?_, renderCube_of_size_nonpos sin cos s cube t hneg⟩⟩
  · rw [forStep_eq_foldlM, gridValues_eq_stepValues]
  · exact loopCount_eq 20 67 (by unfold STEP_SIZE; norm_num) (by unfold STEP_SIZE; norm_num)
  · exact loopCount_eq 10 34 (by unfold STEP_SIZE; norm_num) (by unfold STEP_SIZE; norm_num)
  · exact loopCount_eq 5 17 (by unfold STEP_SIZE; norm_num) (by unfold STEP_SIZE; norm_num)
  · rw [← length_gridValues]
    have hmem : -cube.size ∈ gridValues cube.size := by
      rw [mem_gridValues]
      exact ⟨0, by simp, by linarith⟩
    exact List.length_pos_of_mem hmem
  · obtain ⟨s1, h1, _⟩ := renderCube_total sin cos s cube t hlen h6
    exact ⟨s1, h1⟩
  · rw [← length_gridValues, gridValues_of_nonpos cube.size hneg]
    rfl

/-- Witness for C19: the cube of size 1 on the 4 x 2 blank scene makes
`6 * 4^2` calls and returns. -/
theorem renderCube_loop_count_witness :
    renderCube (fun _ => 0) (fun _ => 1) demoScene demoCube zeroTransform =
      plotAll demoScene (sampleCalls (fun _ => 0) (fun _ => 1) demoCube zeroTransform) ∧
    (sampleCalls (fun _ => 0) (fun _ => 1) demoCube zeroTransform).length =
      6 * loopCount demoCube.size ^ 2 ∧
    0 < loopCount demoCube.size ∧
    ∃ s1, renderCube (fun _ => 0) (fun _ => 1) demoScene demoCube zeroTransform = some s1 :=
  (renderCube_loop_count (fun _ => 0) (fun _ => 1) demoScene demoCube
    zeroTransform).2.2.2.2.2.2.1 (by simp [demoCube]) (by decide) (by decide)

/-- C14: angles wrap by periodicity.  Over the reals, adding integer multiples
of `2*pi` to the three angles does not change the result of `project3Dto2D`. -/
theorem project3Dto2D_periodic (x y z : ℝ) (t : Transform ℝ) (k1 k2 k3 : Int) :
    project3Dto2D Real.sin Real.cos x y z
        { rotateX := t.rotateX + 2 * Real.pi * (k1 : ℝ)
          rotateY := t.rotateY + 2 * Real.pi * (k2 : ℝ)
          rotateZ := t.rotateZ + 2 * Real.pi * (k3 : ℝ) } =
      project3Dto2D Real.sin Real.cos x y z t := by
  have hs : ∀ (a : ℝ) (k : Int), Real.sin (a + 2 * Real.pi * (k : ℝ)) = Real.sin a := by
    intro a k
    rw [show 2 * Real.pi * (k : ℝ) = (k : ℝ) * (2 * Real.pi) by ring]
    exact Real.sin_add_int_mul_two_pi a k
  have hc : ∀ (a : ℝ) (k : Int), Real.cos (a + 2 * Real.pi * (k : ℝ)) = Real.cos a := by
    intro a k
    rw [show 2 * Real.pi * (k : ℝ) = (k : ℝ) * (2 * Real.pi) by ring]
    exact Real.cos_add_int_mul_two_pi a k
  simp only [project3Dto2D, hs, hc]

/-- C15: the rotation part of `project3Dto2D` is an isometry fixing the
origin.  Over the reals, if `(x', y', z') = project3Dto2D(x, y, z, t)` then
`x'^2 + y'^2 + (z' - CAMERA_DIST)^2 = x^2 + y^2 + z^2`. -/
theorem project3Dto2D_isometry (x y z : ℝ) (t : Transform ℝ) :
    (project3Dto2D Real.sin Real.cos x y z t).1 ^ 2 +
      (project3Dto2D Real.sin Real.cos x y z t).2.1 ^ 2 +
      ((project3Dto2D Real.sin Real.cos x y z t).2.2 - (CAMERA_DIST : ℝ)) ^ 2 =
      x ^ 2 + y ^ 2 + z ^ 2 :=
  project3Dto2D_norm_sq Real.sin Real.cos x y z t (Real.sin_sq_add_cos_sq _)
    (Real.sin_sq_add_cos_sq _) (Real.sin_sq_add_cos_sq _)

/-- C12: the depth never reaches zero.  Over the reals, for a cube whose size
`S` satisfies `S * sqrt 3 < CAMERA_DIST` (the three cubes of `main` do), every
transform and every call `plotPoint(x', y', z', ..)` made by `renderCube`, the
projected depth satisfies `z' ≥ CAMERA_DIST - S * sqrt 3 > 0`, so `1/z'` is a
division by a positive number and the inverse depth is positive.  The calls
made by `renderCube` are those of `sampleCalls` (last part). -/
theorem sample_depth_positive (cube : Cube ℝ) (t : Transform ℝ)
    (hS : cube.size * Real.sqrt 3 < (CAMERA_DIST : ℝ)) :
    (∀ c ∈ sampleCalls Real.sin Real.cos cube t,
      (CAMERA_DIST : ℝ) - cube.size * Real.sqrt 3 ≤ c.z ∧ 0 < c.z ∧ 0 < invZ c.z) ∧
    (∀ cb ∈ (cubes : List (Cube ℝ)), cb.size * Real.sqrt 3 < (CAMERA_DIST : ℝ)) ∧
    (∀ s : Scene ℝ, 6 ≤ cube.chars.length →
      renderCube Real.sin Real.cos s cube t =
        plotAll s (sampleCalls Real.sin Real.cos cube t)) := by
  refine ⟨?_, ?_, fun s h6 => renderCube_eq_plotAll Real.sin Real.cos s cube t h6⟩
  · intro c hc
    obtain ⟨hpos, _, p, hp, _, _, hz⟩ := sampleCalls_point Real.sin Real.cos cube t c hc
    have hiso := project3Dto2D_norm_sq Real.sin Real.cos p.1 p.2.1 p.2.2 t
      (Real.sin_sq_add_cos_sq _) (Real.sin_sq_add_cos_sq _) (Real.sin_sq_add_cos_sq _)
    have hn := onCubeSurface_norm_sq cube.size p hp
    rw [← hz] at hiso
    have hsq : (cube.size * Real.sqrt 3) ^ 2 = 3 * cube.size ^ 2 := by
      rw [mul_pow, Real.sq_sqrt (by norm_num : (0 : ℝ) ≤ 3)]
      ring
    have hle : (c.z - (CAMERA_DIST : ℝ)) ^ 2 ≤ (cube.size * Real.sqrt 3) ^ 2 := by
      rw [hsq]
      nlinarith [sq_nonneg (project3Dto2D Real.sin Real.cos p.1 p.2.1 p.2.2 t).1,
        sq_nonneg (project3Dto2D Real.sin Real.cos p.1 p.2.1 p.2.2 t).2.1]
    have hb : 0 ≤ cube.size * Real.sqrt 3 :=
      mul_nonneg (le_of_lt hpos) (Real.sqrt_nonneg 3)
    obtain ⟨h1, _⟩ := abs_le_of_sq_le_sq' hle hb
    have hzpos : 0 < c.z := by linarith
    refine ⟨by linarith, hzpos, ?_⟩
    unfold invZ
    exact one_div_pos.mpr hzpos
  · have h3 : Real.sqrt 3 < 2 := by
      rw [Real.sqrt_lt' (by norm_num)]
      norm_num
    have h0 : 0 ≤ Real.sqrt 3 := Real.sqrt_nonneg 3
    intro cb hcb
    simp only [cubes, List.mem_cons, List.mem_singleton, List.not_mem_nil, or_false] at hcb
    rcases hcb with rfl | rfl | rfl
    · simp only [CAMERA_DIST]; norm_num; nlinarith
    · simp only [CAMERA_DIST]; norm_num; nlinarith
    · simp only [CAMERA_DIST]; norm_num; nlinarith

/-- Witness for C12: the first call made for the largest cube of `main`
(size 20), the front-face point at `x = y = -20`. -/
theorem sample_depth_positive_witness :
    (CAMERA_DIST : ℝ) - (firstCube : Cube ℝ).size * Real.sqrt 3 ≤
      (sampleCall Real.sin Real.cos (firstCube : Cube ℝ) zeroTransform
        (0, (-(firstCube : Cube ℝ).size, -(firstCube : Cube ℝ).size,
          -(firstCube : Cube ℝ).size))).z ∧
    0 < (sampleCall Real.sin Real.cos (firstCube : Cube ℝ) zeroTransform
        (0, (-(firstCube : Cube ℝ).size, -(firstCube : Cube ℝ).size,
          -(firstCube : Cube ℝ).size))).z ∧
    0 < invZ (sampleCall Real.sin Real.cos (firstCube : Cube ℝ) zeroTransform
        (0, (-(firstCube : Cube ℝ).size, -(firstCube : Cube ℝ).size,
          -(firstCube : Cube ℝ).size))).z :=
  (sample_depth_positive (firstCube : Cube ℝ) zeroTransform
    (by
      have h3 : Real.sqrt 3 < 2 := by
        rw [Real.sqrt_lt' (by norm_num)]
        norm_num
      simp only [CAMERA_DIST, firstCube]
      norm_num
      linarith)).1 _
    (first_sample_mem Real.sin Real.cos firstCube zeroTransform
      (by simp only [firstCube]; norm_num))

/-- C16: in the configured scene no sample is off screen.  Over the reals, on
a scene 160 columns by 44 rows, for each of the three cubes of `main`, every
transform and every call made by `renderCube`, the truncated coordinates
satisfy `0 ≤ screenX < 160` and `0 ≤ screenY < 44`; hence the linear index is
within `[0, 7040)` and is the index of the cell at that row and column.  The
calls made by `renderCube` are those of `sampleCalls` (first part). -/
theorem configured_samples_on_screen (s : Scene ℝ) (cube : Cube ℝ) (t : Transform ℝ)
    (hw : s.displayWidth = (DISPLAY_WIDTH : Int))
    (hh : s.displayHeight = (DISPLAY_HEIGHT : Int))
    (hcube : cube ∈ (cubes : List (Cube ℝ))) :
    renderCube Real.sin Real.cos s cube t =
      plotAll s (sampleCalls Real.sin Real.cos cube t) ∧
    ∀ c ∈ sampleCalls Real.sin Real.cos cube t,
      (0 ≤ screenX s c.x c.z c.offset ∧ screenX s c.x c.z c.offset < 160) ∧
      (0 ≤ screenY s c.y c.z ∧ screenY s c.y c.z < 44) ∧
      (0 ≤ plotIdx s c.x c.y c.z c.offset ∧ plotIdx s c.x c.y c.z c.offset < 7040) := by
  have h6 : 6 ≤ cube.chars.length := by
    have hcube2 := hcube
    simp only [cubes, List.mem_cons, List.mem_singleton, List.not_mem_nil, or_false]
      at hcube2
    rcases hcube2 with rfl | rfl | rfl <;> simp
  refine ⟨renderCube_eq_plotAll Real.sin Real.cos s cube t h6, ?_⟩
  intro c hc
  obtain ⟨_, hoff, p, hp, hx, hy, hz⟩ := sampleCalls_point Real.sin Real.cos cube t c hc
  have hiso := project3Dto2D_norm_sq Real.sin Real.cos p.1 p.2.1 p.2.2 t
    (Real.sin_sq_add_cos_sq _) (Real.sin_sq_add_cos_sq _) (Real.sin_sq_add_cos_sq _)
  rw [← hx, ← hy, ← hz] at hiso
  have hn := onCubeSurface_norm_sq cube.size p hp
  have hcam : ((CAMERA_DIST : Nat) : ℝ) = 100 := by simp [CAMERA_DIST]
  rw [hcam] at hiso
  have hcfg : 3 * cube.size ^ 2 ≤ 1200 ∧ -40 ≤ cube.position ∧ cube.position ≤ 40 := by
    simp only [cubes, List.mem_cons, List.mem_singleton, List.not_mem_nil, or_false]
      at hcube
    rcases hcube with rfl | rfl | rfl <;> norm_num
  rw [hoff]
  exact screen_bounds s c.x c.y c.z cube.position hw hh ⟨hcfg.2.1, hcfg.2.2⟩
    (by linarith [hcfg.1])

/-- Witness for C16: the scene of `NewScene` and the first call made for the
cube of size 20. -/
theorem configured_samples_on_screen_witness :
    (0 ≤ screenX (NewScene : Scene ℝ)
        (sampleCall Real.sin Real.cos (firstCube : Cube ℝ) zeroTransform
          (0, (-(firstCube : Cube ℝ).size, -(firstCube : Cube ℝ).size,
            -(firstCube : Cube ℝ).size))).x
        (sampleCall Real.sin Real.cos (firstCube : Cube ℝ) zeroTransform
          (0, (-(firstCube : Cube ℝ).size, -(firstCube : Cube ℝ).size,
            -(firstCube : Cube ℝ).size))).z
        (sampleCall Real.sin Real.cos (firstCube : Cube ℝ) zeroTransform
          (0, (-(firstCube : Cube ℝ).size, -(firstCube : Cube ℝ).size,
            -(firstCube : Cube ℝ).size))).offset) ∧
    (0 ≤ screenY (NewScene : Scene ℝ)
        (sampleCall Real.sin Real.cos (firstCube : Cube ℝ) zeroTransform
          (0, (-(firstCube : Cube ℝ).size, -(firstCube : Cube ℝ).size,
            -(firstCube : Cube ℝ).size))).y
        (sampleCall Real.sin Real.cos (firstCube : Cube ℝ) zeroTransform
          (0, (-(firstCube : Cube ℝ).size, -(firstCube : Cube ℝ).size,
            -(firstCube : Cube ℝ).size))).z) :=
  have h := (configured_samples_on_screen (NewScene : Scene ℝ) (firstCube : Cube ℝ)
    zeroTransform rfl rfl (by simp [cubes, firstCube])).2 _
    (first_sample_mem Real.sin Real.cos firstCube zeroTransform
      (by simp only [firstCube]; norm_num))
  ⟨h.1.1, h.2.1.1⟩

/-- C18: buffer shape invariant and index safety.  The scene of `NewScene` has
`len(pixels) = len(depth) = displayWidth*displayHeight = 160*44 = 7040`;
`clear`, `plotPoint`, `renderCube` and `draw` keep both lengths,
`displayWidth` and `displayHeight` whenever they return; and on a scene with
equal lengths the guard `0 ≤ idx < len(pixels)` puts `idx` in range of both
arrays, so `clear` and `plotPoint` return, and so does `renderCube` for every
cube with at least 6 characters (every `chars[i]` read is in range). -/
theorem shape_invariant_index_safety :
    ((NewScene : Scene K).pixels.length = 7040 ∧
      (NewScene : Scene K).depth.length = 7040 ∧
      (NewScene : Scene K).displayWidth * (NewScene : Scene K).displayHeight = 7040 ∧
      (160 : Int) * 44 = 7040) ∧
    (∀ s c : Scene K, clear s = some c → SameShape s c) ∧
    (∀ (s s1 : Scene K) (x y z : K) (ch : Char) (offset : K),
      plotPoint s x y z ch offset = some s1 → SameShape s s1) ∧
    (∀ (sin cos : K → K) (s s1 : Scene K) (cube : Cube K) (t : Transform K),
      renderCube sin cos s cube t = some s1 → SameShape s s1) ∧
    (∀ (s : Scene K) (r : Scene K × List Char), draw s = some r → r.1 = s) ∧
    (∀ s : Scene K, s.pixels.length = s.depth.length →
      (∃ c, clear s = some c) ∧
      (∀ (x y z : K) (ch : Char) (offset : K),
        (0 ≤ plotIdx s x y z offset ∧ plotIdx s x y z offset < (s.pixels.length : Int) →
          (plotIdx s x y z offset).toNat < s.depth.length ∧
          (plotIdx s x y z offset).toNat < s.pixels.length) ∧
        ∃ s1, plotPoint s x y z ch offset = some s1) ∧
      (∀ (sin cos : K → K) (cube : Cube K) (t : Transform K),
        6 ≤ cube.chars.length →
        (∀ x y, ∀ p ∈ (surfaces cube.size x y).enum, p.1 < cube.chars.length) ∧
        ∃ s1, renderCube sin cos s cube t = some s1)) := by
  refine ⟨⟨by simp only [NewScene, List.length_replicate, DISPLAY_WIDTH, DISPLAY_HEIGHT],
      by simp only [NewScene, List.length_replicate, DISPLAY_WIDTH, DISPLAY_HEIGHT],
      by simp only [NewScene, DISPLAY_WIDTH, DISPLAY_HEIGHT]; norm_num, by norm_num⟩,
    fun s c h => (clear_shape s c h).1,
    fun s s1 x y z ch offset h => (plotPoint_sameShape s s1 x y z ch offset h).1,
    fun sin cos s s1 cube t h => (renderCube_sameShape sin cos s s1 cube t h).1,
    fun s r h => draw_fst s r h,
    fun s hlen => ⟨⟨_, clear_eq s (le_of_eq hlen)⟩, fun x y z ch offset => ⟨?_, ?_⟩,
      fun sin cos cube t h6 => ⟨?_, ?_⟩⟩⟩
  · intro h
    omega
  · exact plotPoint_total s x y z ch offset (le_of_eq hlen)
  · intro x y p hp
    have hlt : p.1 < (surfaces cube.size x y).length := List.fst_lt_of_mem_enum hp
    have hsix : (surfaces cube.size x y).length = 6 := rfl
    omega
  · obtain ⟨s1, h1, _⟩ := renderCube_total sin cos s cube t (le_of_eq hlen) h6
    exact ⟨s1, h1⟩

/-- Witness for C18 on the 4 x 2 scene holding text: `clear`, `plotPoint` and
`renderCube` return. -/
theorem shape_invariant_index_safety_witness :
    (∃ c, clear inkScene = some c) ∧
    (∃ s1, plotPoint inkScene 0 0 1 '#' (-3) = some s1) ∧
    (∃ s1, renderCube (fun _ => 0) (fun _ => 1) inkScene demoCube zeroTransform = some s1) :=
  have h := (shape_invariant_index_safety (K := ℚ)).2.2.2.2.2 inkScene (by decide)
  ⟨h.1, (h.2.1 0 0 1 '#' (-3)).2,
    (h.2.2 (fun _ => 0) (fun _ => 1) demoCube zeroTransform (by decide)).2⟩

/-- C13: transform accumulation.  One iteration of the frame loop of `main`
changes the transform by exactly `+0.05`, `+0.05`, `+0.01`, whatever `clear`,
`renderCube` and `draw` do to the scene and the output; and starting from the
state in which `main` enters the loop (zero transform), for every `N` the
first `N` frames return with `rotateX = N*0.05`, `rotateY = N*0.05`,
`rotateZ = N*0.01`. -/
theorem transform_accumulation (sin cos : K → K) :
    (∀ st st1 : MainState K, frame sin cos st = some st1 →
      st1.transform.rotateX = st.transform.rotateX + 5 / 100 ∧
      st1.transform.rotateY = st.transform.rotateY + 5 / 100 ∧
      st1.transform.rotateZ = st.transform.rotateZ + 1 / 100) ∧
    (∀ N : Nat, ∃ st : MainState K, frames sin cos N mainInit = some st ∧
      st.transform.rotateX = (N : K) * (5 / 100) ∧
      st.transform.rotateY = (N : K) * (5 / 100) ∧
      st.transform.rotateZ = (N : K) * (1 / 100)) := by
  constructor
  · intro st st1 h
    rw [frame_transform sin cos st st1 h]
    exact ⟨rfl, rfl, rfl⟩
  · intro N
    obtain ⟨st, h, hx, hy, hz⟩ := frames_transform sin cos N (mainInit : MainState K)
      (by simp only [mainInit, NewScene, List.length_replicate, le_refl])
      (by simp only [mainInit, NewScene, DISPLAY_WIDTH]; norm_num)
    refine ⟨st, h, ?_, ?_, ?_⟩
    · rw [hx]; simp [mainInit, zeroTransform]
    · rw [hy]; simp [mainInit, zeroTransform]
    · rw [hz]; simp [mainInit, zeroTransform]

/-- Witness for C13: three frames from the initial state of `main`, with
`math.Sin` and `math.Cos` replaced by the constants of angle zero. -/
theorem transform_accumulation_witness :
    ∃ st : MainState ℚ, frames (fun _ => 0) (fun _ => 1) 3 mainInit = some st ∧
      st.transform.rotateX = ((3 : Nat) : ℚ) * (5 / 100) ∧
      st.transform.rotateY = ((3 : Nat) : ℚ) * (5 / 100) ∧
      st.transform.rotateZ = ((3 : Nat) : ℚ) * (1 / 100) :=
  (transform_accumulation (fun _ => 0) (fun _ => 1)).2 3

/-- C17: sentinel coherence.  In every scene `s` reached from a scene returned
by `clear` through a finite sequence of `plotPoint` and `renderCube` calls with
arbitrary arguments, every cell has `depth ≥ 0`, and a cell with `depth = 0`
shows `bgChar`; a further `plotPoint` call changes the character of a cell
only together with storing a strictly positive inverse depth in it; and a
call with `z < 0` (a point behind the camera) returns the scene unchanged. -/
theorem sentinel_coherence (s0 c s : Scene K) (ops : List (SceneOp K))
    (hclear : clear s0 = some c) (hrun : runOps c ops = some s) :
    Coherent s ∧
    (∀ (x y z : K) (ch : Char) (offset : K) (s1 : Scene K) (i : Nat),
      plotPoint s x y z ch offset = some s1 → s1.pixels[i]? ≠ s.pixels[i]? →
      s1.depth[i]? = some (invZ z) ∧ 0 < invZ z) ∧
    (∀ (x y z : K) (ch : Char) (offset : K), z < 0 →
      plotPoint s x y z ch offset = some s) := by
  have hs := runOps_coherent ops c s (clear_coherent s0 c hclear) hrun
  refine ⟨hs.1, fun x y z ch offset s1 i hp hne =>
    (plotPoint_coherent s s1 x y z ch offset hs hp).2 i hne, fun x y z ch offset hz => ?_⟩
  have hneg : invZ z < 0 := by
    unfold invZ
    exact one_div_neg.mpr hz
  rcases plotPoint_cases s x y z ch offset with h1 | ⟨d, _, hp, _, hd, hgt, _⟩ | ⟨hlt, _⟩
  · exact h1
  · have hd0 : 0 ≤ d := (hs.1 _ d _ hd (List.getElem?_eq_getElem hp)).1
    linarith
  · omega

/-- Witness for C17: the 4 x 2 scene holding text is cleared, then one point
is plotted at cell 3. -/
theorem sentinel_coherence_witness :
    Coherent ({ demoScene with
      depth := [0, 0, 0, 1, 0, 0, 0, 0],
      pixels := [' ', ' ', ' ', '#', ' ', ' ', ' ', ' '] } : Scene ℚ) :=
  (sentinel_coherence inkScene demoScene _
    [SceneOp.plot { x := 0, y := 0, z := 1, ch := '#', offset := -3 }]
    (by rw [clear_eq_of_length_eq inkScene (by decide)]; rfl)
    (by
      unfold runOps
      rw [List.foldlM_cons]
      simp only [runOp]
      rw [demo_plot_wrap]
      rfl)).1

end Claims

end SpinningCube





